import Mathlib

/-!
goweb: route table, pattern registration and reply encoding

A shallow embedding of the packages `route`, `server`, `request` and `page`
of devfacet/goweb, with the parts of the Go standard library they call
(`strings`, `net/http`, `sort`, `encoding/json`) modelled next to them.

Conventions.
* A Go `string` and a Go `[]byte` are Lean strings, so the embedding covers
  UTF-8 text.  Go compares strings bytewise; on UTF-8 text that is the
  lexicographic order of the code points, which `stringLess` computes.
* A Go `int` is a Lean `Int`.
* A Go map is an association list with one pair per key; the order of the
  pairs stands for the (unspecified) iteration order of the map.
* A panic is the `Except.error` branch of the function that panics.
-/

namespace Goweb

/-! ## Package strings -/

namespace strings

/-- TrimLeft removes the leading code points of `s` that occur in `cutset`. -/
def TrimLeft (s cutset : String) : String :=
  ⟨s.data.dropWhile (fun c => cutset.data.contains c)⟩

/-- TrimRight removes the trailing code points of `s` that occur in `cutset`. -/
def TrimRight (s cutset : String) : String :=
  ⟨(s.data.reverse.dropWhile (fun c => cutset.data.contains c)).reverse⟩

/-- Trim removes the leading and the trailing code points of `s` that occur in
`cutset`. -/
def Trim (s cutset : String) : String :=
  TrimRight (TrimLeft s cutset) cutset

/-- HasSuffix tells whether `s` ends with `suffix`. -/
def HasSuffix (s suffix : String) : Bool :=
  suffix.data.reverse.isPrefixOf s.data.reverse

/-- HasPrefix tells whether `s` starts with `pre`. -/
def HasPrefix (s pre : String) : Bool :=
  pre.data.isPrefixOf s.data

/-- Contains tells whether `substr` occurs in `s`. -/
def Contains (s substr : String) : Bool :=
  s.data.tails.any (fun t => substr.data.isPrefixOf t)

end strings

/-- Lexicographic comparison of two sequences of code points: the Go operator
`<` on strings. -/
def lexLess : List Char → List Char → Bool
  | [], [] => false
  | [], _ :: _ => true
  | _ :: _, [] => false
  | a :: as, b :: bs => decide (a < b) || (decide (a = b) && lexLess as bs)

/-- The Go comparison `a < b` of two strings. -/
def stringLess (a b : String) : Bool :=
  lexLess a.data b.data

/-! ## Package net/http: requests, response writers, handlers -/

namespace http

/-- The part of an incoming request that the repository reads: the path of
the URL, the query parameters in order, and the header fields. -/
structure Request where
  urlPath : String
  query : List (String × String)
  header : List (String × String)

/-- Query().Get(key): the first value of the query parameter, or the empty
string. -/
def Request.queryGet (r : Request) (key : String) : String :=
  match r.query.lookup key with
  | some v => v
  | none => ""

/-- The calls a handler makes on its response writer. -/
inductive Call where
  | setHeader (key value : String)
  | writeHeader (code : Int)
  | write (data : String)
deriving DecidableEq, Repr

/-- A response writer is the sequence of calls made on it so far. -/
abbrev ResponseWriter := List Call

/-- What Header().Set(key, value) does. -/
def ResponseWriter.HeaderSet (w : ResponseWriter) (key value : String) : ResponseWriter :=
  w ++ [Call.setHeader key value]

/-- What WriteHeader(code) does. -/
def ResponseWriter.WriteHeader (w : ResponseWriter) (code : Int) : ResponseWriter :=
  w ++ [Call.writeHeader code]

/-- What Write(data) does. -/
def ResponseWriter.Write (w : ResponseWriter) (data : String) : ResponseWriter :=
  w ++ [Call.write data]

/-- The status line the client receives: the code of the first WriteHeader,
unless a Write comes first, which sends 200 implicitly; 200 as well when the
handler writes nothing. -/
def ResponseWriter.status : ResponseWriter → Int
  | [] => 200
  | Call.setHeader _ _ :: rest => ResponseWriter.status rest
  | Call.writeHeader code :: _ => code
  | Call.write _ :: _ => 200

/-- The calls made before the header is sent, that is before the first
WriteHeader or Write. -/
def ResponseWriter.beforeHeader : ResponseWriter → List Call
  | [] => []
  | Call.setHeader k v :: rest => Call.setHeader k v :: ResponseWriter.beforeHeader rest
  | Call.writeHeader _ :: _ => []
  | Call.write _ :: _ => []

/-- The value of a header field after the given calls, if it was set. -/
def headerValue (key : String) : List Call → Option String
  | [] => none
  | Call.setHeader k v :: rest =>
    match headerValue key rest with
    | some later => some later
    | none => if k = key then some v else none
  | _ :: rest => headerValue key rest

/-- The Content-Type the handler has sent: the value set before the header
went out.  When there is none the platform chooses one from the body. -/
def ResponseWriter.contentType (w : ResponseWriter) : Option String :=
  headerValue "Content-Type" (ResponseWriter.beforeHeader w)

/-- The body the client receives: everything written, in order. -/
def ResponseWriter.body : ResponseWriter → String
  | [] => ""
  | Call.write data :: rest => data ++ ResponseWriter.body rest
  | _ :: rest => ResponseWriter.body rest

/-- A handler.  What the repository observes of one is the text
reflect.Indirect(h).String() gives for it; serving a request yields the
calls on the writer, or a panic. -/
structure Handler where
  reflectString : String
  ServeHTTP : ResponseWriter → Request → Except String ResponseWriter

/-- HandlerFunc(f): an ordinary function used as a handler. -/
def HandlerFunc (f : ResponseWriter → Request → Except String ResponseWriter) : Handler :=
  { reflectString := "<http.HandlerFunc Value>", ServeHTTP := f }

/-- StatusText(code): the reason phrase of a status code, empty when the code
is unknown. -/
def StatusText (code : Int) : String :=
  if code = 100 then "Continue"
  else if code = 101 then "Switching Protocols"
  else if code = 102 then "Processing"
  else if code = 200 then "OK"
  else if code = 201 then "Created"
  else if code = 202 then "Accepted"
  else if code = 203 then "Non-Authoritative Information"
  else if code = 204 then "No Content"
  else if code = 205 then "Reset Content"
  else if code = 206 then "Partial Content"
  else if code = 207 then "Multi-Status"
  else if code = 208 then "Already Reported"
  else if code = 226 then "IM Used"
  else if code = 300 then "Multiple Choices"
  else if code = 301 then "Moved Permanently"
  else if code = 302 then "Found"
  else if code = 303 then "See Other"
  else if code = 304 then "Not Modified"
  else if code = 305 then "Use Proxy"
  else if code = 307 then "Temporary Redirect"
  else if code = 308 then "Permanent Redirect"
  else if code = 400 then "Bad Request"
  else if code = 401 then "Unauthorized"
  else if code = 402 then "Payment Required"
  else if code = 403 then "Forbidden"
  else if code = 404 then "Not Found"
  else if code = 405 then "Method Not Allowed"
  else if code = 406 then "Not Acceptable"
  else if code = 407 then "Proxy Authentication Required"
  else if code = 408 then "Request Timeout"
  else if code = 409 then "Conflict"
  else if code = 410 then "Gone"
  else if code = 411 then "Length Required"
  else if code = 412 then "Precondition Failed"
  else if code = 413 then "Request Entity Too Large"
  else if code = 414 then "Request URI Too Long"
  else if code = 415 then "Unsupported Media Type"
  else if code = 416 then "Requested Range Not Satisfiable"
  else if code = 417 then "Expectation Failed"
  else if code = 418 then "I'm a teapot"
  else if code = 422 then "Unprocessable Entity"
  else if code = 423 then "Locked"
  else if code = 424 then "Failed Dependency"
  else if code = 426 then "Upgrade Required"
  else if code = 428 then "Precondition Required"
  else if code = 429 then "Too Many Requests"
  else if code = 431 then "Request Header Fields Too Large"
  else if code = 451 then "Unavailable For Legal Reasons"
  else if code = 500 then "Internal Server Error"
  else if code = 501 then "Not Implemented"
  else if code = 502 then "Bad Gateway"
  else if code = 503 then "Service Unavailable"
  else if code = 504 then "Gateway Timeout"
  else if code = 505 then "HTTP Version Not Supported"
  else if code = 506 then "Variant Also Negotiates"
  else if code = 507 then "Insufficient Storage"
  else if code = 508 then "Loop Detected"
  else if code = 510 then "Not Extended"
  else if code = 511 then "Network Authentication Required"
  else ""

/-- Error(w, text, code): a plain-text error reply. -/
def Error (w : ResponseWriter) (text : String) (code : Int) : ResponseWriter :=
  (((w.HeaderSet "Content-Type" "text/plain; charset=utf-8").HeaderSet
    "X-Content-Type-Options" "nosniff").WriteHeader code).Write (text ++ "\n")

/-- NotFound(w, r): the 404 reply of the library. -/
def NotFound (w : ResponseWriter) (_r : Request) : ResponseWriter :=
  Error w "404 page not found" 404

/-- StripPrefix(pre, h): `h` itself for an empty `pre`; otherwise a handler
that serves with `pre` removed from the path, and answers 404 when the path
does not start with `pre`.  Calling a nil `h` panics. -/
def StripPrefix (pre : String) (h : Option Handler) : Option Handler :=
  if pre = "" then h
  else some (HandlerFunc (fun w r =>
    if strings.HasPrefix r.urlPath pre then
      match h with
      | some inner => inner.ServeHTTP w { r with urlPath := ⟨r.urlPath.data.drop pre.length⟩ }
      | none =>
        Except.error "runtime error: invalid memory address or nil pointer dereference"
    else Except.ok (NotFound w r)))

/-- RedirectHandler(url, code): the handler the multiplexer installs for the
bare path of a subtree pattern.  The URL is kept as its path.  Serving gives
the Location header and the status; the short HTML body the library adds for
a GET request is left out, the request carrying no method here. -/
def RedirectHandler (url : String) (code : Int) : Handler :=
  { reflectString := "<http.redirectHandler Value>",
    ServeHTTP := fun w _ =>
      Except.ok ((w.HeaderSet "Location" url).WriteHeader code) }

/-- An entry of the multiplexer. -/
structure muxEntry where
  explicit : Bool
  h : Option Handler
  pattern : String

/-- The zero muxEntry, read from the map at a key it does not hold. -/
def muxEntry.zero : muxEntry :=
  { explicit := false, h := none, pattern := "" }

/-- The multiplexer: the map `m` from registered paths to entries, and the
flag `hosts`. -/
structure ServeMux where
  m : List (String × muxEntry)
  hosts : Bool

/-- NewServeMux allocates an empty multiplexer. -/
def NewServeMux : ServeMux :=
  { m := [], hosts := false }

/-- A map read `m[key]`: the entry at the key, the zero entry when absent. -/
def mapIndex (m : List (String × muxEntry)) (key : String) : muxEntry :=
  match m.lookup key with
  | some e => e
  | none => muxEntry.zero

/-- A map write `m[key] = e`: replaces the entry of the key, or adds one. -/
def mapAssign : List (String × muxEntry) → String → muxEntry → List (String × muxEntry)
  | [], key, e => [(key, e)]
  | (k, v) :: rest, key, e =>
    if k = key then (key, e) :: rest else (k, v) :: mapAssign rest key e

/-- The string without its last character: the slice `pattern[0:n-1]`. -/
def dropLast (s : String) : String :=
  ⟨s.data.dropLast⟩

/-- The part of a pattern from its first slash on:
`pattern[strings.Index(pattern, "/"):]`. -/
def fromFirstSlash (pattern : String) : String :=
  ⟨pattern.data.dropWhile (fun c => c != '/')⟩

/-- Handle registers the handler for the pattern.  It panics on an empty
pattern, on a nil handler and on a pattern registered before.  For a pattern
that ends in a slash it also installs a redirect at the pattern without that
slash, unless that path is registered explicitly. -/
def ServeMux.Handle (mux : ServeMux) (pattern : String) (handler : Option Handler) :
    Except String ServeMux :=
  if pattern = "" then Except.error ("http: invalid pattern " ++ pattern)
  else if handler.isNone then Except.error "http: nil handler"
  else if (mapIndex mux.m pattern).explicit then
    Except.error ("http: multiple registrations for " ++ pattern)
  else
    let m1 := mapAssign mux.m pattern { explicit := true, h := handler, pattern := pattern }
    let hosts := if strings.HasPrefix pattern "/" then mux.hosts else true
    if strings.HasSuffix pattern "/" && !(mapIndex m1 (dropLast pattern)).explicit then
      let path := if strings.HasPrefix pattern "/" then pattern else fromFirstSlash pattern
      Except.ok
        { m := mapAssign m1 (dropLast pattern)
            { explicit := false, h := some (RedirectHandler path 301), pattern := pattern },
          hosts := hosts }
    else Except.ok { m := m1, hosts := hosts }

/-- HandleFunc registers the handler function for the pattern. -/
def ServeMux.HandleFunc (mux : ServeMux) (pattern : String)
    (handler : ResponseWriter → Request → Except String ResponseWriter) : Except String ServeMux :=
  mux.Handle pattern (some (HandlerFunc handler))

/-- The http.Server a listening server holds. -/
structure Server where
  Addr : String

end http

/-! ## Package route -/

namespace route

/-- Route represents an HTTP route. -/
structure Route where
  isInit : Bool := false
  path : String
  pattern : String
  explicit : Bool
  redirect : Bool
deriving DecidableEq, Repr

/-- Options of a new route. -/
structure Options where
  Path : String

/-- New returns a route by the given options. -/
def New (o : Options) : Route :=
  { isInit := true, path := o.Path, pattern := o.Path, explicit := true, redirect := false }

/-- Path returns the route path. -/
def Route.Path (r : Route) : String := r.path

/-- Pattern returns the pattern value. -/
def Route.Pattern (r : Route) : String := r.pattern

/-- Explicit returns the explicit value. -/
def Route.Explicit (r : Route) : Bool := r.explicit

/-- Redirect returns the redirect value. -/
def Route.Redirect (r : Route) : Bool := r.redirect

/-- ByRoutePath.Less: the order of two routes, by path. -/
def Less (a b : Route) : Bool :=
  stringLess a.Path b.Path

/-- The order `a` not after `b`, used to sort. -/
def notAfter (a b : Route) : Prop :=
  Less b a = false

instance : DecidableRel notAfter :=
  fun a b => inferInstanceAs (Decidable (Less b a = false))

/-- sort.Sort(ByRoutePath(l)): the routes in ascending order of Less.  The
library promises no stability; here equal paths keep their order. -/
def sortByRoutePath (l : List Route) : List Route :=
  l.insertionSort notAfter

/-- The route ListByMux builds for one key of the map. -/
def routeOfEntry (kv : String × http.muxEntry) : Route :=
  let rh :=
    match kv.2.h with
    | some h => strings.Contains h.reflectString "http.redirectHandler"
    | none => false
  { path := kv.1, pattern := kv.2.pattern, explicit := kv.2.explicit, redirect := rh }

/-- ListByMux returns the route list by the given ServeMux. -/
def ListByMux (mux : http.ServeMux) : List Route :=
  sortByRoutePath (mux.m.map routeOfEntry)

end route

/-! ## Go values and package encoding/json -/

mutual
/-- A Go value held in an `interface{}`, as far as encoding/json and reflect
tell values apart. -/
inductive GoValue where
  | nil
  | bool (b : Bool)
  | int (n : Int)
  | str (s : String)
  | chan
  | error (msg : String)
  | struct (fields : Fields)
  | slice (elems : Values)
  | ptr (target : GoValue)
/-- The exported fields of a struct value that the encoder emits, in order:
the key of each and its value. -/
inductive Fields where
  | nil
  | cons (key : String) (value : GoValue) (rest : Fields)
/-- The elements of a slice, in order. -/
inductive Values where
  | nil
  | cons (value : GoValue) (rest : Values)
end

/-- The nil test `v == nil` on an interface value. -/
def GoValue.isNil : GoValue → Bool
  | GoValue.nil => true
  | _ => false

/-- The fields of a struct, from a list. -/
def Fields.ofList : List (String × GoValue) → Fields
  | [] => Fields.nil
  | (k, v) :: rest => Fields.cons k v (Fields.ofList rest)

namespace strconv

/-- Itoa(n): the decimal text of an integer. -/
def Itoa (n : Int) : String :=
  if n < 0 then "-" ++ Nat.repr n.natAbs else Nat.repr n.toNat

end strconv

namespace json

/-- A hexadecimal digit, lower case. -/
def hexDigit (n : Nat) : Char :=
  "0123456789abcdef".data.getD n '0'

/-- The escape `\u00XX` of a character below 0x100. -/
def escapeU00 (c : Char) : List Char :=
  ['\\', 'u', '0', '0', hexDigit (c.toNat / 16), hexDigit (c.toNat % 16)]

/-- How the encoder writes one character of a string, with HTML escaping. -/
def encodeChar (c : Char) : List Char :=
  if c = '"' then ['\\', '"']
  else if c = '\\' then ['\\', '\\']
  else if c = '\n' then ['\\', 'n']
  else if c = '\r' then ['\\', 'r']
  else if c = '\t' then ['\\', 't']
  else if c.toNat < 32 ∨ c = '<' ∨ c = '>' ∨ c = '&' then escapeU00 c
  else if c.toNat = 8232 then ['\\', 'u', '2', '0', '2', '8']
  else if c.toNat = 8233 then ['\\', 'u', '2', '0', '2', '9']
  else [c]

/-- The JSON text of a string: quoted and escaped. -/
def encodeString (s : String) : String :=
  "\"" ++ String.mk (s.data.flatMap encodeChar) ++ "\""

/-- The texts joined with commas. -/
def joinComma : List String → String
  | [] => ""
  | [a] => a
  | a :: b :: rest => a ++ "," ++ joinComma (b :: rest)

mutual
/-- The JSON text of a value; `none` when the encoder fails, as it does on a
channel. -/
def encode : GoValue → Option String
  | GoValue.nil => some "null"
  | GoValue.bool b => some (if b then "true" else "false")
  | GoValue.int n => some (strconv.Itoa n)
  | GoValue.str s => some (encodeString s)
  | GoValue.chan => none
  | GoValue.error _ => some "\x7b\x7d"
  | GoValue.struct fields =>
    match encodeFields fields with
    | some parts => some ("\x7b" ++ joinComma parts ++ "\x7d")
    | none => none
  | GoValue.slice elems =>
    match encodeValues elems with
    | some parts => some ("[" ++ joinComma parts ++ "]")
    | none => none
  | GoValue.ptr target => encode target
/-- The members of an object, one text per field. -/
def encodeFields : Fields → Option (List String)
  | Fields.nil => some []
  | Fields.cons key value rest =>
    match encode value, encodeFields rest with
    | some a, some parts => some ((encodeString key ++ ":" ++ a) :: parts)
    | _, _ => none
/-- The elements of an array, one text per element. -/
def encodeValues : Values → Option (List String)
  | Values.nil => some []
  | Values.cons value rest =>
    match encode value, encodeValues rest with
    | some a, some parts => some (a :: parts)
    | _, _ => none
end

/-- Marshal(v): the JSON text of the value, or the failure of the encoder. -/
def Marshal (v : GoValue) : Option String :=
  encode v

end json

/-! ## Package request -/

namespace request

/-- Success represents a successful HTTP response. -/
structure Success where
  ID : String := ""
  StatusCode : Int := 0
  Message : String := ""
  Data : GoValue := GoValue.nil
  Internal : GoValue := GoValue.nil

set_option linter.dupNamespace false in
/-- Error represents an HTTP error. -/
structure Error where
  ID : String := ""
  StatusCode : Int := 0
  Message : String := ""
  Error : GoValue := GoValue.nil
  Internal : GoValue := GoValue.nil

/-- The struct tags of Success: `id`, `statusCode`, `message` and `data`, each
with omitempty, and Internal left out.  An interface field is empty when it is
nil. -/
def Success.toValue (s : Success) : GoValue :=
  GoValue.struct (Fields.ofList
    ((if s.ID = "" then [] else [("id", GoValue.str s.ID)]) ++
     (if s.StatusCode = 0 then [] else [("statusCode", GoValue.int s.StatusCode)]) ++
     (if s.Message = "" then [] else [("message", GoValue.str s.Message)]) ++
     (if s.Data.isNil then [] else [("data", s.Data)])))

/-- The struct tags of Error: `id`, `statusCode`, `message` and `error`, each
with omitempty, and Internal left out. -/
def Error.toValue (e : request.Error) : GoValue :=
  GoValue.struct (Fields.ofList
    ((if e.ID = "" then [] else [("id", GoValue.str e.ID)]) ++
     (if e.StatusCode = 0 then [] else [("statusCode", GoValue.int e.StatusCode)]) ++
     (if e.Message = "" then [] else [("message", GoValue.str e.Message)]) ++
     (if e.Error.isNil then [] else [("error", e.Error)])))

/-- The dynamic value handed to Reply, by the case of the type switch it
takes.  A float64 carries the text FormatFloat gives for it; a value of any
other type carries the text fmt prints for it with the verb s. -/
inductive ReplyValue where
  | nil
  | bytes (b : String)
  | string (s : String)
  | int (n : Int)
  | int64 (n : Int)
  | float64 (formatted : String)
  | Success (s : Success)
  | Error (e : Error)
  | other (v : GoValue) (printed : String)

/-- The default maximum memory of multipart parsing: 32 MB. -/
def defaultMaxMemory : Int := 32 * 2 ^ 20

/-- Options of a new request.  The request and the writer are always given,
as they are by every caller in the repository; a new writer has no calls. -/
structure Options where
  Request : http.Request
  Writer : http.ResponseWriter := []
  MaxMemory : Int := 0

/-- Request represents an HTTP request. -/
structure Request where
  isInit : Bool
  w : http.ResponseWriter
  r : http.Request
  maxMemory : Int
  contentType : String
  isJSON : Bool

/-- The Content-Type of the request: the header value up to the first
semicolon. -/
def contentTypeOf (r : http.Request) : String :=
  match r.header.lookup "Content-Type" with
  | some v => ⟨v.data.takeWhile (fun c => c != ';')⟩
  | none => ""

/-- New returns a new HTTP request by the given options. -/
def New (o : Options) : Request :=
  let ct := contentTypeOf o.Request
  { isInit := true, w := o.Writer, r := o.Request,
    maxMemory := if o.MaxMemory = 0 then defaultMaxMemory else o.MaxMemory,
    contentType := ct,
    isJSON := decide (ct = "application/json") || decide (ct = "application/javascript") }

/-- ContentType returns the request content type. -/
def Request.ContentType (request : Request) : String :=
  request.contentType

/-- The kind reflect reports for a value after one Indirect is `struct`. -/
def indirectIsStruct : GoValue → Bool
  | GoValue.struct _ => true
  | GoValue.error _ => true
  | GoValue.ptr (GoValue.struct _) => true
  | _ => false

/-- What the type switch of Reply leaves in its local variables. -/
structure Classified where
  jsonTrig : Bool
  jsonData : GoValue
  result : String
  header : Int

/-- The type switch of Reply. -/
def classify : ReplyValue → Classified
  | ReplyValue.nil => { jsonTrig := false, jsonData := GoValue.nil, result := "", header := 200 }
  | ReplyValue.bytes b => { jsonTrig := false, jsonData := GoValue.nil, result := b, header := 200 }
  | ReplyValue.string s => { jsonTrig := false, jsonData := GoValue.nil, result := s, header := 200 }
  | ReplyValue.int n =>
    { jsonTrig := false, jsonData := GoValue.nil, result := strconv.Itoa n, header := 200 }
  | ReplyValue.int64 n =>
    { jsonTrig := false, jsonData := GoValue.nil, result := strconv.Itoa n, header := 200 }
  | ReplyValue.float64 formatted =>
    { jsonTrig := false, jsonData := GoValue.nil, result := formatted, header := 200 }
  | ReplyValue.Success s =>
    if s.StatusCode ≠ 0 then
      if http.StatusText s.StatusCode ≠ "" then
        let s1 : Success :=
          if s.Message = "" then { s with Message := http.StatusText s.StatusCode } else s
        { jsonTrig := true, jsonData := s1.toValue, result := "", header := s.StatusCode }
      else { jsonTrig := true, jsonData := s.toValue, result := "", header := 200 }
    else
      let s1 : Success := { s with StatusCode := 200, Message := http.StatusText 200 }
      { jsonTrig := true, jsonData := s1.toValue, result := "", header := 200 }
  | ReplyValue.Error e =>
    if e.StatusCode ≠ 0 then
      if http.StatusText e.StatusCode ≠ "" then
        let e1 : Error :=
          if e.Message = "" then { e with Message := http.StatusText e.StatusCode } else e
        { jsonTrig := true, jsonData := e1.toValue, result := "", header := e.StatusCode }
      else { jsonTrig := true, jsonData := e.toValue, result := "", header := 500 }
    else
      let e1 : Error := { e with StatusCode := 500, Message := http.StatusText 500 }
      { jsonTrig := true, jsonData := e1.toValue, result := "", header := 500 }
  | ReplyValue.other v printed =>
    if indirectIsStruct v then
      { jsonTrig := true, jsonData := v, result := "", header := 200 }
    else { jsonTrig := false, jsonData := GoValue.nil, result := printed, header := 200 }

/-- Reply replies an HTTP request: the calls on the writer after it. -/
def Request.Reply (request : Request) (rv : ReplyValue) : http.ResponseWriter :=
  let c := classify rv
  if c.jsonTrig then
    let cb := request.r.queryGet "callback"
    let w1 :=
      if cb ≠ "" then request.w.HeaderSet "Content-Type" "application/javascript"
      else request.w.HeaderSet "Content-Type" "application/json"
    let marshalled : Int × String :=
      match json.Marshal c.jsonData with
      | some text => (c.header, text)
      | none =>
        (500, "\x7b\"statusCode\":" ++ strconv.Itoa 500 ++ ",\"message\":\"" ++
          http.StatusText 500 ++ "\"\x7d")
    let result := if cb ≠ "" then cb ++ "(" ++ marshalled.2 ++ ")" else marshalled.2
    (w1.WriteHeader marshalled.1).Write result
  else request.w.Write c.result

end request

/-! ## Package page -/

namespace page

/-- A parsed html/template.  Executing it with data gives the chunks it
writes, in order, and the error it stops with, if any. -/
structure Template where
  Execute : GoValue → List String × Option String

/-- An open file: what reading it to the end gives. -/
structure File where
  ReadAll : Except String String

/-- An http.FileSystem. -/
structure FileSystem where
  Open : String → Except String File

/-- Options of a new page. -/
structure Options where
  URLPath : String := ""
  MatchAll : Bool := false
  FilePath : String := ""
  FileSystem : Option FileSystem := none
  Content : String := ""
  TemplateData : GoValue := GoValue.nil

/-- Page represents a web page. -/
structure Page where
  isInit : Bool := false
  urlPath : String := ""
  matchAll : Bool := false
  filePath : String := ""
  fileSystem : Option FileSystem := none
  content : String := ""
  templateData : GoValue := GoValue.nil
  template : Option Template := none

/-- New returns a page by the given options.  `parse name text` stands for
template.New(name).Parse(text). -/
def New (parse : String → String → Except String Template) (o : Options) :
    Except String Page :=
  if o.URLPath = "" then Except.error "invalid url path"
  else
    let read : Except String String :=
      if o.FilePath ≠ "" then
        match o.FileSystem with
        | some fs =>
          match fs.Open o.FilePath with
          | Except.error err => Except.error ("failed to open file due to " ++ err)
          | Except.ok f =>
            match f.ReadAll with
            | Except.error err => Except.error ("failed to read file due to " ++ err)
            | Except.ok b => Except.ok b
        | none => Except.error "invalid file system"
      else Except.ok o.Content
    match read with
    | Except.error err => Except.error err
    | Except.ok content =>
      let page : Page :=
        { isInit := true, urlPath := o.URLPath, matchAll := o.MatchAll, filePath := o.FilePath,
          fileSystem := o.FileSystem, content := content, templateData := o.TemplateData,
          template := none }
      if content ≠ "" then
        match parse o.URLPath content with
        | Except.error err => Except.error ("failed to parse template due to " ++ err)
        | Except.ok t => Except.ok { page with template := some t }
      else Except.ok page

/-- URLPath returns the url path. -/
def Page.URLPath (page : Page) : String := page.urlPath

/-- MatchAll returns whether the page url path should match all or not. -/
def Page.MatchAll (page : Page) : Bool := page.matchAll

/-- The writer after the chunks have been written to it, one Write each. -/
def writeAll (w : http.ResponseWriter) : List String → http.ResponseWriter
  | [] => w
  | chunk :: rest => writeAll (w.Write chunk) rest

/-- TemplateExecute executes the template by the given arguments: the writer
after it, and the error it returns. -/
def Page.TemplateExecute (page : Page) (w : http.ResponseWriter) (data : GoValue) :
    http.ResponseWriter × Option String :=
  match page.template with
  | none => (w, none)
  | some t =>
    let data := if data.isNil && !page.templateData.isNil then page.templateData else data
    match t.Execute data with
    | (chunks, some err) => (writeAll w chunks, some ("failed to execute template due to " ++ err))
    | (chunks, none) => (writeAll w chunks, none)

end page

/-! ## Package server: construction and registration -/

namespace server

/-- Options of a new server. -/
structure Options where
  ID : String := ""
  Address : String := ""
  PathPrefix : String := ""

/-- What New draws from outside the program: the random number behind the
default port, and the md5 checksum in hexadecimal. -/
structure Platform where
  randIntn : Nat → Nat
  md5hex : String → String

/-- Server represents a web server. -/
structure Server where
  isInit : Bool
  id : String
  address : String
  pathPrefix : String
  pathRoot : String
  pages : List page.Page
  mux : http.ServeMux
  http : Option http.Server

/-- New returns a new web server by the given options. -/
def New (env : Platform) (o : Options) : Server :=
  let address :=
    if o.Address = "" then "localhost:" ++ Nat.repr (env.randIntn (65535 - 3000) + 3000)
    else o.Address
  let id := if o.ID = "" then env.md5hex address else o.ID
  let pathRoot :=
    if o.PathPrefix ≠ "" then "/" ++ strings.Trim o.PathPrefix "/" ++ "/" else ""
  { isInit := true, id := id, address := address, pathPrefix := o.PathPrefix,
    pathRoot := pathRoot, pages := [], mux := http.NewServeMux, http := none }

/-- ID returns the server id. -/
def Server.ID (server : Server) : String := server.id

/-- Address returns the server address. -/
def Server.Address (server : Server) : String := server.address

/-- PathRoot returns the server path root. -/
def Server.PathRoot (server : Server) : String := server.pathRoot

/-- Routes returns the list of the routes. -/
def Server.Routes (server : Server) : List route.Route :=
  route.ListByMux server.mux

/-- The pattern AddHandler and AddHandlerFunc compute before they register. -/
def Server.effectivePattern (server : Server) (pattern : String) : String :=
  if server.pathRoot ≠ "" then server.pathRoot ++ strings.TrimLeft pattern "/"
  else "/" ++ strings.TrimLeft pattern "/"

/-- AddHandler adds a handler. -/
def Server.AddHandler (server : Server) (pattern : String) (handler : Option http.Handler) :
    Except String Server :=
  let pattern :=
    if server.pathRoot ≠ "" then server.pathRoot ++ strings.TrimLeft pattern "/"
    else "/" ++ strings.TrimLeft pattern "/"
  match server.mux.Handle pattern (http.StripPrefix pattern handler) with
  | Except.ok mux => Except.ok { server with mux := mux }
  | Except.error e => Except.error e

/-- AddHandlerFunc adds a handler function. -/
def Server.AddHandlerFunc (server : Server) (pattern : String)
    (handler : http.ResponseWriter → http.Request → Except String http.ResponseWriter) :
    Except String Server :=
  let pattern :=
    if server.pathRoot ≠ "" then server.pathRoot ++ strings.TrimLeft pattern "/"
    else "/" ++ strings.TrimLeft pattern "/"
  match server.mux.HandleFunc pattern handler with
  | Except.ok mux => Except.ok { server with mux := mux }
  | Except.error e => Except.error e

/-- The local variable `puf` of AddPage: the URL path of the page, behind the
pathRoot when the server has one. -/
def Server.puf (server : Server) (p : page.Page) : String :=
  if server.pathRoot ≠ "" then server.pathRoot ++ strings.TrimLeft p.URLPath "/"
  else p.URLPath

/-- The handler function AddPage defines for a page. -/
def Server.pageHandler (server : Server) (p : page.Page) (w : http.ResponseWriter)
    (r : http.Request) : http.ResponseWriter :=
  let puf := server.puf p
  let ts := strings.HasSuffix puf "/"
  if !p.MatchAll && ts && decide (puf ≠ r.urlPath) then
    (request.New { Request := r, Writer := w }).Reply
      (request.ReplyValue.Error { StatusCode := 404 })
  else
    match p.TemplateExecute w GoValue.nil with
    | (w1, some err) =>
      (request.New { Request := r, Writer := w1 }).Reply
        (request.ReplyValue.Error { StatusCode := 500, Internal := GoValue.error err })
    | (w1, none) => w1

/-- AddPage adds a page: the server after it and the error it returns; a
panic of the multiplexer is the error branch. -/
def Server.AddPage (server : Server) (p : page.Page) : Except String (Server × Option String) :=
  if p.URLPath = "" then Except.ok (server, some "invalid page url")
  else
    match server.AddHandlerFunc p.URLPath
        (fun w r => Except.ok (server.pageHandler p w r)) with
    | Except.ok s => Except.ok (s, none)
    | Except.error e => Except.error e

/-- AddPages adds pages. -/
def Server.AddPages (server : Server) : List page.Page → Except String (Server × Option String)
  | [] => Except.ok (server, none)
  | v :: rest =>
    match server.AddPage v with
    | Except.error e => Except.error e
    | Except.ok (s, some err) => Except.ok (s, some err)
    | Except.ok (s, none) => Server.AddPages s rest

end server

/-! ## Registration scripts and the expected map -/

namespace http

/-- A run of Handle calls, in order, from the given multiplexer. -/
def ServeMux.handleAll (mux : ServeMux) : List (String × Handler) → Except String ServeMux
  | [] => Except.ok mux
  | (pattern, h) :: rest =>
    match mux.Handle pattern (some h) with
    | Except.ok next => ServeMux.handleAll next rest
    | Except.error e => Except.error e

/-- The path the redirect of a subtree pattern points to. -/
def redirectPath (pattern : String) : String :=
  if strings.HasPrefix pattern "/" then pattern else fromFirstSlash pattern

/-- The entry the map is expected to hold at a key once the given patterns
are registered: the explicit entry of the key when it is registered, else the
redirect to the key followed by a slash when that is registered. -/
def expectedEntry (regs : List (String × Handler)) (key : String) : Option muxEntry :=
  match regs.lookup key with
  | some h => some { explicit := true, h := some h, pattern := key }
  | none =>
    if (regs.lookup (key ++ "/")).isSome then
      some { explicit := false, h := some (RedirectHandler (redirectPath (key ++ "/")) 301),
             pattern := key ++ "/" }
    else none

/-- The map holds one entry per key, and at every key the expected one. -/
def Registered (regs : List (String × Handler)) (mux : ServeMux) : Prop :=
  (mux.m.map Prod.fst).Nodup ∧ ∀ key, mux.m.lookup key = expectedEntry regs key

end http

namespace route

/-- The route list after a run of Handle calls on a new multiplexer. -/
def listAfter (script : List (String × http.Handler)) : Except String (List Route) :=
  match http.NewServeMux.handleAll script with
  | Except.ok mux => Except.ok (ListByMux mux)
  | Except.error e => Except.error e

/-- A handler function that writes nothing. -/
def idleHandler : http.ResponseWriter → http.Request → Except String http.ResponseWriter :=
  fun w _ => Except.ok w

end route

namespace server

/-- One registration on a server. -/
inductive Registration where
  | handler (pattern : String) (h : Option http.Handler)
  | handlerFunc (pattern : String)
      (f : http.ResponseWriter → http.Request → Except String http.ResponseWriter)
  | page (p : page.Page)

/-- The server after one registration; a panic is the error branch. -/
def Server.register (server : Server) : Registration → Except String Server
  | Registration.handler pattern h => server.AddHandler pattern h
  | Registration.handlerFunc pattern f => server.AddHandlerFunc pattern f
  | Registration.page p =>
    match server.AddPage p with
    | Except.ok (s, _) => Except.ok s
    | Except.error e => Except.error e

/-- The server after a run of registrations, in order. -/
def Server.registerAll (server : Server) : List Registration → Except String Server
  | [] => Except.ok server
  | reg :: rest =>
    match server.register reg with
    | Except.ok next => Server.registerAll next rest
    | Except.error e => Except.error e

/-- The effective pattern a registration puts on the multiplexer; none for a
page without URL path, which AddPage refuses. -/
def Registration.patterns (server : Server) : Registration → List String
  | Registration.handler pattern _ => [server.effectivePattern pattern]
  | Registration.handlerFunc pattern _ => [server.effectivePattern pattern]
  | Registration.page p => if p.URLPath = "" then [] else [server.effectivePattern p.URLPath]

/-- The effective patterns a run of registrations puts on the multiplexer. -/
def registeredPatterns (server : Server) (regs : List Registration) : List String :=
  regs.flatMap (Registration.patterns server)

/-- Routes() after a run of registrations on a new server. -/
def routesAfter (env : Platform) (o : Options) (regs : List Registration) :
    Except String (List route.Route) :=
  match (New env o).registerAll regs with
  | Except.ok s => Except.ok s.Routes
  | Except.error e => Except.error e

/-- A platform for examples: the random number is 0 and the checksum is the
text itself. -/
def examplePlatform : Platform :=
  { randIntn := fun _ => 0, md5hex := fun s => s }

end server

namespace request

/-- The Content-Type of a JSON reply: JSONP when the callback is given. -/
def jsonContentType (cb : String) : String :=
  if cb ≠ "" then "application/javascript" else "application/json"

/-- The body of a JSON reply: the JSON text, wrapped in a call of the callback
when one is given. -/
def jsonBody (cb text : String) : String :=
  if cb ≠ "" then cb ++ "(" ++ text ++ ")" else text

/-- The JSON text Reply sends when the encoder fails. -/
def fixedErrorText : String :=
  "\x7b\"statusCode\":500,\"message\":\"Internal Server Error\"\x7d"

/-- The status and the JSON text of a JSON reply: those of the value, or 500
and the fixed text when the encoder fails. -/
def jsonOutcome (c : Classified) : Int × String :=
  match json.Marshal c.jsonData with
  | some text => (c.header, text)
  | none => (500, fixedErrorText)

/-- A request for examples: a GET of `/` with the given callback parameter
(none when empty) and a new response writer. -/
def exampleRequest (cb : String) : Request :=
  New { Request := { urlPath := "/", query := if cb = "" then [] else [("callback", cb)],
                     header := [] } }

end request

namespace server

/-- A request for examples: a GET of the path, without query. -/
def exampleGet (path : String) : http.Request :=
  { urlPath := path, query := [], header := [] }

/-- A template for examples that writes `foo` and succeeds. -/
def fooTemplate : page.Template :=
  { Execute := fun _ => (["foo"], none) }

/-- A template for examples that fails on a missing field before writing. -/
def failingTemplate : page.Template :=
  { Execute := fun _ => ([], some "can't evaluate field Body") }

/-- A template for examples that writes `Hello ` and then fails on a missing
field, as the text `Hello {{.Body}}` does. -/
def partialTemplate : page.Template :=
  { Execute := fun _ => (["Hello "], some "can't evaluate field Body") }

end server

namespace request

/-- The three calls of a JSON reply, in order: the Content-Type is set, the
status header is written, the body is written. -/
def jsonCalls (cb : String) (code : Int) (text : String) : List http.Call :=
  [http.Call.setHeader "Content-Type" (jsonContentType cb), http.Call.writeHeader code,
   http.Call.write (jsonBody cb text)]

end request

namespace http

/-- The call is a WriteHeader. -/
def Call.isWriteHeader : Call → Bool
  | Call.writeHeader _ => true
  | _ => false

/-- The call is a Write. -/
def Call.isWrite : Call → Bool
  | Call.write _ => true
  | _ => false

/-- The call sets the Content-Type header. -/
def Call.isSetContentType : Call → Bool
  | Call.setHeader key _ => decide (key = "Content-Type")
  | _ => false

end http

namespace request

/-- The calls Reply itself makes: those after the calls the writer had
before. -/
def Request.replyCalls (request : Request) (rv : ReplyValue) : List http.Call :=
  (request.Reply rv).drop request.w.length

end request

/-- The fields of a struct, as a list. -/
def Fields.toList : Fields → List (String × GoValue)
  | Fields.nil => []
  | Fields.cons key value rest => (key, value) :: Fields.toList rest

/-- An exported field of a struct value as its type declares it: the name of
the field, the name its json tag gives it (when it has a tag with a name), and
the value. -/
structure StructField where
  name : String
  jsonTag : Option String := none
  value : GoValue

/-- The field is left out by the encoder: its json tag is `-`. -/
def StructField.skipped (f : StructField) : Bool :=
  decide (f.jsonTag = some "-")

/-- The key under which the encoder emits the field: the name of the tag, the
name of the field when there is no tag or an empty one. -/
def StructField.key (f : StructField) : String :=
  match f.jsonTag with
  | some t => if t = "" then f.name else t
  | none => f.name

/-- The fields the encoder emits for a struct, with their keys. -/
def emittedFields (fs : List StructField) : List (String × GoValue) :=
  (fs.filter (fun f => !f.skipped)).map (fun f => (f.key, f.value))

/-- A struct value, from its declared fields. -/
def GoValue.ofStruct (fs : List StructField) : GoValue :=
  GoValue.struct (Fields.ofList (emittedFields fs))

/-- The keys of the members the encoder writes for a struct value, in order. -/
def GoValue.memberKeys : GoValue → List String
  | GoValue.struct fields => fields.toList.map Prod.fst
  | _ => []

namespace request

/-- The Success as Reply leaves it after status defaulting, before it is
serialized. -/
def Success.afterDefaulting (s : Success) : Success :=
  if s.StatusCode ≠ 0 then
    if http.StatusText s.StatusCode ≠ "" then
      if s.Message = "" then { s with Message := http.StatusText s.StatusCode } else s
    else s
  else { s with StatusCode := 200, Message := http.StatusText 200 }

/-- The Error as Reply leaves it after status defaulting, before it is
serialized. -/
def Error.afterDefaulting (e : request.Error) : request.Error :=
  if e.StatusCode ≠ 0 then
    if http.StatusText e.StatusCode ≠ "" then
      if e.Message = "" then { e with Message := http.StatusText e.StatusCode } else e
    else e
  else { e with StatusCode := 500, Message := http.StatusText 500 }

end request

namespace page

/-- What New does outside the program, in the order it does it. -/
inductive Effect where
  | openFile (path : String)
  | readFile (path : String)
  | parseTemplate (name text : String)
deriving DecidableEq, Repr

/-- New with the effects it has had when it returns: the file it has opened
and read, the template it has parsed. -/
def NewTraced (parse : String → String → Except String Template) (o : Options) :
    List Effect × Except String Page :=
  if o.URLPath = "" then ([], Except.error "invalid url path")
  else
    let read : List Effect × Except String String :=
      if o.FilePath ≠ "" then
        match o.FileSystem with
        | some fs =>
          match fs.Open o.FilePath with
          | Except.error err =>
            ([Effect.openFile o.FilePath], Except.error ("failed to open file due to " ++ err))
          | Except.ok f =>
            match f.ReadAll with
            | Except.error err =>
              ([Effect.openFile o.FilePath, Effect.readFile o.FilePath],
                Except.error ("failed to read file due to " ++ err))
            | Except.ok b =>
              ([Effect.openFile o.FilePath, Effect.readFile o.FilePath], Except.ok b)
        | none => ([], Except.error "invalid file system")
      else ([], Except.ok o.Content)
    match read with
    | (log, Except.error err) => (log, Except.error err)
    | (log, Except.ok content) =>
      let page : Page :=
        { isInit := true, urlPath := o.URLPath, matchAll := o.MatchAll, filePath := o.FilePath,
          fileSystem := o.FileSystem, content := content, templateData := o.TemplateData,
          template := none }
      if content ≠ "" then
        match parse o.URLPath content with
        | Except.error err =>
          (log ++ [Effect.parseTemplate o.URLPath content],
            Except.error ("failed to parse template due to " ++ err))
        | Except.ok t =>
          (log ++ [Effect.parseTemplate o.URLPath content],
            Except.ok { page with template := some t })
      else (log, Except.ok page)

end page

namespace strconv

/-- The number a run of decimal digits stands for. -/
def decimalValue (digits : List Char) : Nat :=
  digits.foldl (fun acc c => 10 * acc + (c.toNat - 48)) 0

/-- The integer a decimal text stands for, as ParseInt reads it in base 10:
an optional sign and a non-empty run of digits. -/
def parseDecimal (s : String) : Option Int :=
  match s.data with
  | '-' :: ds =>
    if ds ≠ [] ∧ ds.all Char.isDigit = true then some (-(decimalValue ds : Int)) else none
  | '+' :: ds =>
    if ds ≠ [] ∧ ds.all Char.isDigit = true then some (decimalValue ds : Int) else none
  | ds =>
    if ds ≠ [] ∧ ds.all Char.isDigit = true then some (decimalValue ds : Int) else none

end strconv

/-! ## Errors, package sync, and the life cycle of a server -/

/-- A Go error value, as far as the repository tells errors apart: the
sentinel http.ErrServerClosed, or any other error, with its text. -/
inductive GoError where
  | ErrServerClosed
  | other (text : String)
deriving DecidableEq, Repr

namespace sync

/-- A WaitGroup: its counter. -/
structure WaitGroup where
  counter : Int := 0
deriving DecidableEq, Repr

/-- Add adds delta to the counter; it panics when the counter goes negative. -/
def WaitGroup.Add (wg : WaitGroup) (delta : Int) : Except String WaitGroup :=
  if wg.counter + delta < 0 then Except.error "sync: negative WaitGroup counter"
  else Except.ok { counter := wg.counter + delta }

/-- Done decrements the counter by one. -/
def WaitGroup.Done (wg : WaitGroup) : Except String WaitGroup :=
  wg.Add (-1)

end sync

namespace http

/-- The platform behind an http.Server: what ListenAndServe, Close and
Shutdown do to the server and which error they return. -/
structure Network where
  ListenAndServe : Server → Server × Option GoError
  Close : Server → Server × Option GoError
  Shutdown : Server → Server × Option GoError

end http

namespace server

/-- Listen initializes the server and listens for requests: the server after
it has returned, and the error it returns, which is that of ListenAndServe. -/
def Server.Listen (net : http.Network) (server : Server) : Server × Option GoError :=
  let served := net.ListenAndServe { Addr := server.address }
  ({ server with http := some served.1 }, served.2)

/-- Close closes all active listeners and connections immediately. -/
def Server.Close (net : http.Network) (server : Server) : Server × Option GoError :=
  match server.http with
  | some srv =>
    let closed := net.Close srv
    ({ server with http := some closed.1 }, closed.2)
  | none => (server, none)

/-- Shutdown gracefully shuts down the server. -/
def Server.Shutdown (net : http.Network) (server : Server) : Server × Option GoError :=
  match server.http with
  | some srv =>
    let closed := net.Shutdown srv
    ({ server with http := some closed.1 }, closed.2)
  | none => (server, none)

/-- A call of one of the methods of a server that can change it. -/
inductive Method where
  | AddHandler (pattern : String) (handler : Option http.Handler)
  | AddHandlerFunc (pattern : String)
      (handler : http.ResponseWriter → http.Request → Except String http.ResponseWriter)
  | AddPage (p : page.Page)
  | AddPages (ps : List page.Page)
  | Listen
  | Close
  | Shutdown

/-- The call is a call of Listen. -/
def Method.isListen : Method → Bool
  | Method.Listen => true
  | _ => false

/-- The call is a call of Close or of Shutdown. -/
def Method.isStop : Method → Bool
  | Method.Close => true
  | Method.Shutdown => true
  | _ => false

/-- The server after one call, and the error the call returns (none for the
methods without result); a panic is the error branch. -/
def Server.invoke (net : http.Network) (server : Server) :
    Method → Except String (Server × Option GoError)
  | Method.AddHandler pattern handler =>
    match server.AddHandler pattern handler with
    | Except.ok s => Except.ok (s, none)
    | Except.error e => Except.error e
  | Method.AddHandlerFunc pattern handler =>
    match server.AddHandlerFunc pattern handler with
    | Except.ok s => Except.ok (s, none)
    | Except.error e => Except.error e
  | Method.AddPage p =>
    match server.AddPage p with
    | Except.ok (s, err) => Except.ok (s, err.map GoError.other)
    | Except.error e => Except.error e
  | Method.AddPages ps =>
    match server.AddPages ps with
    | Except.ok (s, err) => Except.ok (s, err.map GoError.other)
    | Except.error e => Except.error e
  | Method.Listen => Except.ok (server.Listen net)
  | Method.Close => Except.ok (server.Close net)
  | Method.Shutdown => Except.ok (server.Shutdown net)

/-- The server after a run of calls, in order, and the errors the calls have
returned. -/
def Server.invokeAll (net : http.Network) (server : Server) :
    List Method → Except String (Server × List (Option GoError))
  | [] => Except.ok (server, [])
  | m :: rest =>
    match server.invoke net m with
    | Except.error e => Except.error e
    | Except.ok (next, err) =>
      match Server.invokeAll net next rest with
      | Except.error e => Except.error e
      | Except.ok (final, errs) => Except.ok (final, err :: errs)

/-- A network for examples: nothing listens, ListenAndServe fails to bind, and
Close and Shutdown report that the server is closed. -/
def exampleNetwork : http.Network :=
  { ListenAndServe := fun srv => (srv, some (GoError.other "listen tcp: missing port in address")),
    Close := fun srv => (srv, some GoError.ErrServerClosed),
    Shutdown := fun srv => (srv, some GoError.ErrServerClosed) }

end server

namespace server

/-- The variables the goroutines of ListenAll share with it: `result` and the
WaitGroup. -/
structure ListenAllShared where
  result : Option GoError
  wg : sync.WaitGroup
deriving DecidableEq, Repr

/-- The loop `for i := 0; i < sl; i++ { wg.Done() }`, by the number of
iterations it has left. -/
def doneLoop : Nat → sync.WaitGroup → Except String sync.WaitGroup
  | 0, wg => Except.ok wg
  | left + 1, wg =>
    match wg.Done with
    | Except.ok next => doneLoop left next
    | Except.error e => Except.error e

/-- The goroutine ListenAll starts for a server, from the point where Listen
has returned `err`: the shared variables after it; a panic is the error
branch. -/
def listenAllGoroutine (sl : Nat) (shared : ListenAllShared) (err : Option GoError) :
    Except String ListenAllShared :=
  if err ≠ none ∧ err ≠ some GoError.ErrServerClosed then
    if shared.result = none then
      match doneLoop sl shared.wg with
      | Except.ok wg => Except.ok { result := err, wg := wg }
      | Except.error e => Except.error e
    else Except.ok shared
  else
    if shared.result = none then
      match shared.wg.Done with
      | Except.ok wg => Except.ok { shared with wg := wg }
      | Except.error e => Except.error e
    else Except.ok shared

/-- The goroutines whose Listen has returned, run one after the other in the
order of the returns. -/
def runGoroutines (sl : Nat) :
    ListenAllShared → List (Option GoError) → Except String ListenAllShared
  | shared, [] => Except.ok shared
  | shared, err :: rest =>
    match listenAllGoroutine sl shared err with
    | Except.ok next => runGoroutines sl next rest
    | Except.error e => Except.error e

/-- How a call of ListenAll stands: it has returned an error value, after
calling Shutdown on the servers with the given ids, in order; or it still
waits on the WaitGroup. -/
inductive ListenAllOutcome where
  | returned (result : Option GoError) (shutdown : List String)
  | waiting
deriving DecidableEq, Repr

/-- ListenAll invokes listen for the given servers.  `returns` holds the
errors of the Listen calls that return, in the order in which they return,
each goroutine running to its end before the next Listen returns; the Listen
calls of the other servers do not return before ListenAll does.  A panic of a
goroutine ends the program: it is the error branch. -/
def ListenAll (s : List Server) (returns : List (Option GoError)) :
    Except String ListenAllOutcome :=
  let sl := s.length
  match ({ counter := 0 } : sync.WaitGroup).Add sl with
  | Except.error e => Except.error e
  | Except.ok wg =>
    match runGoroutines sl { result := none, wg := wg } returns with
    | Except.error e => Except.error e
    | Except.ok shared =>
      if shared.wg.counter = 0 then
        Except.ok (ListenAllOutcome.returned shared.result (s.map Server.ID))
      else Except.ok ListenAllOutcome.waiting

/-- The error makes ListenAll fail: it is not nil and not the sentinel
http.ErrServerClosed. -/
def listenFailed (err : Option GoError) : Bool :=
  match err with
  | none => false
  | some GoError.ErrServerClosed => false
  | some (GoError.other _) => true

end server

/-! # Properties -/

/-! ## The order of paths -/

theorem lexLess_irrefl (a : List Char) : lexLess a a = false := by
  induction a with
  | nil => rfl
  | cons c cs ih => simp [lexLess, ih]

theorem lexLess_trans {a b c : List Char} (hab : lexLess a b = true) (hbc : lexLess b c = true) :
    lexLess a c = true := by
  induction a generalizing b c with
  | nil =>
    cases b with
    | nil => simp [lexLess] at hab
    | cons y ys =>
      cases c with
      | nil => simp [lexLess] at hbc
      | cons z zs => simp [lexLess]
  | cons x xs ih =>
    cases b with
    | nil => simp [lexLess] at hab
    | cons y ys =>
      cases c with
      | nil => simp [lexLess] at hbc
      | cons z zs =>
        simp only [lexLess, Bool.or_eq_true, Bool.and_eq_true, decide_eq_true_eq] at hab hbc ⊢
        rcases hab with hxy | ⟨hxy, hrest⟩
        · rcases hbc with hyz | ⟨hyz, _⟩
          · exact Or.inl (lt_trans hxy hyz)
          · exact Or.inl (hyz ▸ hxy)
        · rcases hbc with hyz | ⟨hyz, hrest2⟩
          · exact Or.inl (hxy ▸ hyz)
          · exact Or.inr ⟨hxy.trans hyz, ih hrest hrest2⟩

theorem lexLess_trichotomy (a b : List Char) :
    lexLess a b = true ∨ a = b ∨ lexLess b a = true := by
  induction a generalizing b with
  | nil =>
    cases b with
    | nil => exact Or.inr (Or.inl rfl)
    | cons y ys => exact Or.inl (by simp [lexLess])
  | cons x xs ih =>
    cases b with
    | nil => exact Or.inr (Or.inr (by simp [lexLess]))
    | cons y ys =>
      simp only [lexLess, Bool.or_eq_true, Bool.and_eq_true, decide_eq_true_eq]
      rcases lt_trichotomy x y with h | h | h
      · exact Or.inl (Or.inl h)
      · subst h
        rcases ih ys with h2 | h2 | h2
        · exact Or.inl (Or.inr ⟨rfl, h2⟩)
        · exact Or.inr (Or.inl (by rw [h2]))
        · exact Or.inr (Or.inr (Or.inr ⟨rfl, h2⟩))
      · exact Or.inr (Or.inr (Or.inl h))

theorem lexLess_asymm {a b : List Char} (hab : lexLess a b = true) : lexLess b a = false := by
  cases h : lexLess b a with
  | false => rfl
  | true =>
    have := lexLess_trans hab h
    rw [lexLess_irrefl] at this
    exact absurd this (by simp)

theorem stringLess_irrefl (a : String) : stringLess a a = false :=
  lexLess_irrefl a.data

theorem stringLess_trans {a b c : String} (hab : stringLess a b = true)
    (hbc : stringLess b c = true) : stringLess a c = true :=
  lexLess_trans hab hbc

theorem stringLess_trichotomy (a b : String) :
    stringLess a b = true ∨ a = b ∨ stringLess b a = true := by
  rcases lexLess_trichotomy a.data b.data with h | h | h
  · exact Or.inl h
  · exact Or.inr (Or.inl (String.ext h))
  · exact Or.inr (Or.inr h)

theorem stringLess_asymm {a b : String} (hab : stringLess a b = true) : stringLess b a = false :=
  lexLess_asymm hab

namespace route

theorem notAfter_isTotal : IsTotal Route notAfter :=
  ⟨fun a b => by
    unfold notAfter Less
    cases h : stringLess b.Path a.Path with
    | false => exact Or.inl rfl
    | true => exact Or.inr (stringLess_asymm h)⟩

theorem notAfter_isTrans : IsTrans Route notAfter :=
  ⟨fun a b c hab hbc => by
    unfold notAfter Less at *
    cases h : stringLess c.Path a.Path with
    | false => rfl
    | true =>
      rcases stringLess_trichotomy b.Path c.Path with h1 | h1 | h1
      · rw [stringLess_trans h1 h] at hab; exact absurd hab (by simp)
      · rw [h1, h] at hab; exact absurd hab (by simp)
      · rw [h1] at hbc; exact absurd hbc (by simp)⟩

theorem sortByRoutePath_perm (l : List Route) : (sortByRoutePath l).Perm l :=
  List.perm_insertionSort notAfter l

theorem sortByRoutePath_sorted (l : List Route) : (sortByRoutePath l).Sorted notAfter :=
  @List.sorted_insertionSort Route notAfter _ notAfter_isTotal notAfter_isTrans l

theorem mem_ListByMux {mux : http.ServeMux} {r : Route} :
    r ∈ ListByMux mux ↔ ∃ kv ∈ mux.m, routeOfEntry kv = r := by
  unfold ListByMux
  rw [(sortByRoutePath_perm _).mem_iff]
  simp

end route

/-! ## The map of the multiplexer -/

namespace http

theorem lookup_cons_self (k : String) (e : muxEntry) (rest : List (String × muxEntry)) :
    List.lookup k ((k, e) :: rest) = some e := by
  simp [List.lookup]

theorem lookup_cons_ne {k k1 : String} (h : ¬ k = k1) (e : muxEntry)
    (rest : List (String × muxEntry)) :
    List.lookup k ((k1, e) :: rest) = List.lookup k rest := by
  have hb : (k == k1) = false := by simpa using h
  simp [List.lookup, hb]

theorem lookup_mapAssign (m : List (String × muxEntry)) (k : String) (e : muxEntry)
    (k2 : String) :
    (mapAssign m k e).lookup k2 = if k2 = k then some e else m.lookup k2 := by
  induction m with
  | nil =>
    by_cases h : k2 = k
    · subst h; simp [mapAssign, lookup_cons_self]
    · simp [mapAssign, lookup_cons_ne h, h]
  | cons kv rest ih =>
    obtain ⟨k1, v1⟩ := kv
    by_cases h1 : k1 = k
    · subst h1
      by_cases h : k2 = k1
      · subst h; simp [mapAssign, lookup_cons_self]
      · simp [mapAssign, lookup_cons_ne h, h]
    · by_cases h : k2 = k1
      · subst h
        simp [mapAssign, h1, lookup_cons_self]
      · simp [mapAssign, h1, lookup_cons_ne h, ih]

theorem keys_mapAssign (m : List (String × muxEntry)) (k : String) (e : muxEntry) (k2 : String) :
    k2 ∈ (mapAssign m k e).map Prod.fst ↔ k2 = k ∨ k2 ∈ m.map Prod.fst := by
  induction m with
  | nil => simp [mapAssign]
  | cons kv rest ih =>
    obtain ⟨k1, v1⟩ := kv
    by_cases h1 : k1 = k
    · subst h1
      simp [mapAssign]
    · simp only [mapAssign, h1, if_false, List.map_cons, List.mem_cons, ih]
      tauto

theorem nodup_keys_mapAssign (m : List (String × muxEntry)) (k : String) (e : muxEntry)
    (h : (m.map Prod.fst).Nodup) : ((mapAssign m k e).map Prod.fst).Nodup := by
  induction m with
  | nil => simp [mapAssign]
  | cons kv rest ih =>
    obtain ⟨k1, v1⟩ := kv
    simp only [List.map_cons, List.nodup_cons] at h
    by_cases h1 : k1 = k
    · subst h1
      simp only [mapAssign, if_true, List.map_cons, List.nodup_cons]
      exact h
    · simp only [mapAssign, h1, if_false, List.map_cons, List.nodup_cons]
      refine ⟨?_, ih h.2⟩
      rw [keys_mapAssign]
      rintro (h2 | h2)
      · exact h1 h2
      · exact h.1 h2

theorem mem_iff_lookup {β : Type} (m : List (String × β)) (h : (m.map Prod.fst).Nodup)
    (k : String) (e : β) : (k, e) ∈ m ↔ m.lookup k = some e := by
  induction m with
  | nil => simp [List.lookup]
  | cons kv rest ih =>
    obtain ⟨k1, v1⟩ := kv
    simp only [List.map_cons, List.nodup_cons] at h
    by_cases h1 : k = k1
    · subst h1
      simp only [List.mem_cons, Prod.mk.injEq, true_and, List.lookup, beq_self_eq_true,
        Option.some.injEq]
      constructor
      · rintro (h2 | h2)
        · exact h2.symm
        · exact absurd (List.mem_map_of_mem Prod.fst h2) h.1
      · intro h2
        exact Or.inl h2.symm
    · have h3 : (k == k1) = false := by simpa using h1
      simp only [List.mem_cons, Prod.mk.injEq, h1, false_and, false_or, List.lookup, h3]
      exact ih h.2

end http

namespace http

theorem list_suffix_slash (qd kd : List Char) :
    (['/'].isPrefixOf qd.reverse = true ∧ kd = qd.dropLast) ↔ qd = kd ++ ['/'] := by
  rcases List.eq_nil_or_concat qd with h | ⟨init, c, h⟩
  · subst h
    constructor
    · rintro ⟨h1, _⟩
      simp [List.isPrefixOf] at h1
    · intro h1
      exact absurd h1.symm (by simp)
  · subst h
    simp only [List.concat_eq_append, List.reverse_append, List.reverse_cons, List.reverse_nil,
      List.nil_append, List.singleton_append, List.dropLast_concat]
    constructor
    · rintro ⟨h1, h2⟩
      subst h2
      have : c = '/' := by
        simp [List.isPrefixOf] at h1
        exact h1.symm
      rw [this]
    · intro h1
      have h2 := List.append_inj_left' h1 rfl
      have h3 := List.append_inj_right' h1 rfl
      simp only [List.cons.injEq, and_true] at h3
      subst h2; subst h3
      simp [List.isPrefixOf]

theorem hasSuffix_slash_iff (q k : String) :
    (strings.HasSuffix q "/" = true ∧ k = dropLast q) ↔ q = k ++ "/" := by
  have hs : ("/" : String).data = ['/'] := rfl
  rw [String.ext_iff, String.ext_iff]
  simp only [strings.HasSuffix, dropLast, hs, List.reverse_cons, List.reverse_nil, List.nil_append,
    String.data_append]
  exact list_suffix_slash q.data k.data

theorem dropLast_ne_self {q : String} (h : q ≠ "") : dropLast q ≠ q := by
  intro h1
  rw [String.ext_iff] at h1
  simp only [dropLast] at h1
  have h2 := congrArg List.length h1
  simp only [List.length_dropLast] at h2
  have h3 : q.data ≠ [] := by
    intro h4
    exact h (String.ext h4)
  have := List.length_pos.mpr h3
  omega

theorem Handle_ok {mux mux2 : ServeMux} {q : String} {h : Handler}
    (hh : mux.Handle q (some h) = Except.ok mux2) :
    q ≠ "" ∧ (mapIndex mux.m q).explicit = false ∧
    mux2.m =
      (if strings.HasSuffix q "/" = true ∧ (mapIndex mux.m (dropLast q)).explicit = false then
        mapAssign (mapAssign mux.m q { explicit := true, h := some h, pattern := q })
          (dropLast q)
          { explicit := false, h := some (RedirectHandler (redirectPath q) 301), pattern := q }
      else mapAssign mux.m q { explicit := true, h := some h, pattern := q }) := by
  unfold ServeMux.Handle at hh
  by_cases h1 : q = ""
  · simp [h1] at hh
  · simp only [h1, if_false, Option.isNone_some, Bool.false_eq_true] at hh
    cases h2 : (mapIndex mux.m q).explicit with
    | true => simp [h2] at hh
    | false =>
      simp only [h2, Bool.false_eq_true, if_false] at hh
      refine ⟨h1, rfl, ?_⟩
      have h3 : mapIndex (mapAssign mux.m q { explicit := true, h := some h, pattern := q })
          (dropLast q) = mapIndex mux.m (dropLast q) := by
        unfold mapIndex
        rw [lookup_mapAssign]
        simp [dropLast_ne_self h1]
      rw [h3] at hh
      by_cases h4 : strings.HasSuffix q "/" = true ∧ (mapIndex mux.m (dropLast q)).explicit = false
      · simp only [h4.1, h4.2, Bool.not_false, Bool.and_self, if_true] at hh
        simp only [h4, and_self, if_true]
        injection hh with hh
        rw [← hh]
        rfl
      · have h5 : (strings.HasSuffix q "/" && !(mapIndex mux.m (dropLast q)).explicit) = false := by
          cases h6 : strings.HasSuffix q "/" <;> cases h7 : (mapIndex mux.m (dropLast q)).explicit <;>
            simp_all
        simp only [h5, Bool.false_eq_true, if_false] at hh
        simp only [h4, if_false]
        injection hh with hh
        rw [← hh]

end http

namespace http

theorem lookup_snoc_self (regs : List (String × Handler)) (q : String) (h : Handler)
    (hn : regs.lookup q = none) : (regs ++ [(q, h)]).lookup q = some h := by
  rw [List.lookup_append, hn]
  simp [List.lookup]

theorem lookup_snoc_ne (regs : List (String × Handler)) {q key : String} (h : Handler)
    (hne : ¬ key = q) : (regs ++ [(q, h)]).lookup key = regs.lookup key := by
  have hb : (key == q) = false := by simpa using hne
  rw [List.lookup_append]
  simp [List.lookup, hb]

theorem expectedEntry_explicit_false {regs : List (String × Handler)} {key : String}
    (hn : regs.lookup key = none) {m : List (String × muxEntry)}
    (hm : m.lookup key = expectedEntry regs key) : (mapIndex m key).explicit = false := by
  unfold mapIndex
  rw [hm]
  unfold expectedEntry
  rw [hn]
  by_cases h1 : (regs.lookup (key ++ "/")).isSome = true
  · simp [h1]
  · simp [h1, muxEntry.zero]

theorem expectedEntry_explicit_true {regs : List (String × Handler)} {key : String} {h : Handler}
    (hs : regs.lookup key = some h) {m : List (String × muxEntry)}
    (hm : m.lookup key = expectedEntry regs key) : (mapIndex m key).explicit = true := by
  unfold mapIndex
  rw [hm]
  unfold expectedEntry
  rw [hs]

theorem Registered_step {regs : List (String × Handler)} {mux mux2 : ServeMux} {q : String}
    {h : Handler} (inv : Registered regs mux) (hh : mux.Handle q (some h) = Except.ok mux2) :
    regs.lookup q = none ∧ Registered (regs ++ [(q, h)]) mux2 := by
  obtain ⟨hq, hexp, hm⟩ := Handle_ok hh
  obtain ⟨hnd, hlk⟩ := inv
  have hnone : regs.lookup q = none := by
    cases hr : regs.lookup q with
    | none => rfl
    | some h2 =>
      have := expectedEntry_explicit_true hr (hlk q)
      rw [hexp] at this
      exact absurd this (by simp)
  refine ⟨hnone, ?_, ?_⟩
  · rw [hm]
    split
    · exact nodup_keys_mapAssign _ _ _ (nodup_keys_mapAssign _ _ _ hnd)
    · exact nodup_keys_mapAssign _ _ _ hnd
  · intro key
    by_cases hk : key = q
    · subst hk
      have e1 : expectedEntry (regs ++ [(key, h)]) key
          = some { explicit := true, h := some h, pattern := key } := by
        unfold expectedEntry
        rw [lookup_snoc_self regs key h hnone]
      rw [e1, hm]
      have hd : ¬ key = dropLast key := fun h3 => dropLast_ne_self hq h3.symm
      split
      · rw [lookup_mapAssign, if_neg hd, lookup_mapAssign, if_pos rfl]
      · rw [lookup_mapAssign, if_pos rfl]
    · by_cases hsl : q = key ++ "/"
      · have hsuf := (hasSuffix_slash_iff q key).mpr hsl
        have hdrop : dropLast q = key := hsuf.2.symm
        cases hr : regs.lookup key with
        | some h2 =>
          have hex := expectedEntry_explicit_true hr (hlk key)
          have e1 : expectedEntry (regs ++ [(q, h)]) key = expectedEntry regs key := by
            unfold expectedEntry
            rw [lookup_snoc_ne regs h hk, hr]
          rw [e1, hm, hdrop, hex]
          simp only [Bool.true_eq_false, and_false, if_false]
          rw [lookup_mapAssign, if_neg hk]
          exact hlk key
        | none =>
          have hex := expectedEntry_explicit_false hr (hlk key)
          have e1 : expectedEntry (regs ++ [(q, h)]) key
              = some { explicit := false,
                       h := some (RedirectHandler (redirectPath q) 301),
                       pattern := q } := by
            unfold expectedEntry
            rw [lookup_snoc_ne regs h hk, hr, ← hsl, lookup_snoc_self regs q h hnone]
            simp
          rw [e1, hm, hdrop, hex, hsuf.1]
          simp only [and_self, if_true]
          rw [lookup_mapAssign, if_pos rfl]
      · have hne : ¬ (key ++ "/") = q := fun h3 => hsl h3.symm
        have e1 : expectedEntry (regs ++ [(q, h)]) key = expectedEntry regs key := by
          unfold expectedEntry
          rw [lookup_snoc_ne regs h hk, lookup_snoc_ne regs h hne]
        rw [e1, hm, ← hlk key]
        split
        · rename_i hc
          have hd : ¬ key = dropLast q := fun h3 =>
            hsl ((hasSuffix_slash_iff q key).mp ⟨hc.1, h3⟩)
          rw [lookup_mapAssign, if_neg hd, lookup_mapAssign, if_neg hk]
        · rw [lookup_mapAssign, if_neg hk]

theorem Registered_handleAll {script regs : List (String × Handler)} {mux mux2 : ServeMux}
    (inv : Registered regs mux) (hh : mux.handleAll script = Except.ok mux2) :
    Registered (regs ++ script) mux2 := by
  induction script generalizing regs mux with
  | nil =>
    simp only [ServeMux.handleAll] at hh
    injection hh with hh
    subst hh
    simpa using inv
  | cons qh rest ih =>
    obtain ⟨q, h⟩ := qh
    simp only [ServeMux.handleAll] at hh
    cases hstep : mux.Handle q (some h) with
    | error e => rw [hstep] at hh; simp at hh
    | ok next =>
      rw [hstep] at hh
      have := ih (Registered_step inv hstep).2 hh
      simpa using this

theorem Registered_new : Registered [] NewServeMux := by
  refine ⟨by simp [NewServeMux], ?_⟩
  intro key
  simp [NewServeMux, expectedEntry, List.lookup]

end http

namespace route

theorem routeOfEntry_explicit (q : String) (h : http.Handler) :
    routeOfEntry (q, { explicit := true, h := some h, pattern := q }) =
      { path := q, pattern := q, explicit := true,
        redirect := strings.Contains h.reflectString "http.redirectHandler" } := rfl

theorem routeOfEntry_synthetic (k url : String) (code : Int) :
    routeOfEntry (k, { explicit := false, h := some (http.RedirectHandler url code),
                       pattern := k ++ "/" }) =
      { path := k, pattern := k ++ "/", explicit := false, redirect := true } := by
  unfold routeOfEntry
  simp only [http.RedirectHandler]
  have : strings.Contains "<http.redirectHandler Value>" "http.redirectHandler" = true := by
    decide
  rw [this]

/-- The routes listed for a multiplexer in the expected state: one explicit
route per registered pattern, and one synthetic route per key that is not
registered while the key followed by a slash is. -/
theorem mem_ListByMux_of_Registered {regs : List (String × http.Handler)} {mux : http.ServeMux}
    (inv : http.Registered regs mux) (r : Route) :
    r ∈ ListByMux mux ↔
      (∃ q h, regs.lookup q = some h ∧
        r = { path := q, pattern := q, explicit := true,
              redirect := strings.Contains h.reflectString "http.redirectHandler" }) ∨
      (∃ k, regs.lookup k = none ∧ (regs.lookup (k ++ "/")).isSome = true ∧
        r = { path := k, pattern := k ++ "/", explicit := false, redirect := true }) := by
  obtain ⟨hnd, hlk⟩ := inv
  rw [mem_ListByMux]
  constructor
  · rintro ⟨⟨k, e⟩, hmem, hr⟩
    rw [http.mem_iff_lookup _ hnd, hlk] at hmem
    unfold http.expectedEntry at hmem
    cases hk : regs.lookup k with
    | some h =>
      rw [hk] at hmem
      simp only [Option.some.injEq] at hmem
      subst hmem
      exact Or.inl ⟨k, h, hk, by rw [← hr, routeOfEntry_explicit]⟩
    | none =>
      rw [hk] at hmem
      by_cases hs : (regs.lookup (k ++ "/")).isSome = true
      · simp only [hs, if_true, Option.some.injEq] at hmem
        subst hmem
        exact Or.inr ⟨k, hk, hs, by rw [← hr, routeOfEntry_synthetic]⟩
      · simp [hs] at hmem
  · rintro (⟨q, h, hq, hr⟩ | ⟨k, hk, hs, hr⟩)
    · refine ⟨(q, { explicit := true, h := some h, pattern := q }), ?_, ?_⟩
      · rw [http.mem_iff_lookup _ hnd, hlk]
        unfold http.expectedEntry
        rw [hq]
      · rw [hr, routeOfEntry_explicit]
    · refine ⟨(k, { explicit := false,
                    h := some (http.RedirectHandler (http.redirectPath (k ++ "/")) 301),
                    pattern := k ++ "/" }), ?_, ?_⟩
      · rw [http.mem_iff_lookup _ hnd, hlk]
        unfold http.expectedEntry
        rw [hk]
        simp [hs]
      · rw [hr, routeOfEntry_synthetic]

theorem ListByMux_paths_nodup {mux : http.ServeMux} (hnd : (mux.m.map Prod.fst).Nodup) :
    ((ListByMux mux).map Route.Path).Nodup := by
  have hp : ((ListByMux mux).map Route.Path).Perm ((mux.m.map routeOfEntry).map Route.Path) :=
    (sortByRoutePath_perm _).map _
  rw [hp.nodup_iff]
  have : (mux.m.map routeOfEntry).map Route.Path = mux.m.map Prod.fst := by
    simp [List.map_map, Function.comp_def, routeOfEntry, Route.Path]
  rw [this]
  exact hnd

theorem ListByMux_nodup {mux : http.ServeMux} (hnd : (mux.m.map Prod.fst).Nodup) :
    (ListByMux mux).Nodup :=
  List.Nodup.of_map _ (ListByMux_paths_nodup hnd)

theorem ListByMux_strict {mux : http.ServeMux} (hnd : (mux.m.map Prod.fst).Nodup) :
    (ListByMux mux).Pairwise (fun a b => Less a b = true) := by
  have h1 : (ListByMux mux).Pairwise notAfter := sortByRoutePath_sorted _
  have h2 : (ListByMux mux).Pairwise (fun a b => a.Path ≠ b.Path) := by
    have := ListByMux_paths_nodup hnd
    unfold List.Nodup at this
    rwa [List.pairwise_map] at this
  refine (h1.and h2).imp ?_
  rintro a b ⟨hab, hne⟩
  unfold notAfter Less at hab
  unfold Less
  rcases stringLess_trichotomy a.Path b.Path with h | h | h
  · exact h
  · exact absurd h hne
  · rw [h] at hab; exact absurd hab (by simp)

end route

namespace http

theorem lookup_none_iff_not_mem {β : Type} (m : List (String × β)) (k : String) :
    m.lookup k = none ↔ k ∉ m.map Prod.fst := by
  induction m with
  | nil => simp [List.lookup]
  | cons kv rest ih =>
    obtain ⟨k1, v1⟩ := kv
    by_cases h : k = k1
    · subst h
      simp [List.lookup]
    · have hb : (k == k1) = false := by simpa using h
      simp only [List.lookup, hb, List.map_cons, List.mem_cons, h, false_or]
      exact ih

theorem handleAll_keys_nodup {script regs : List (String × Handler)} {mux mux2 : ServeMux}
    (inv : Registered regs mux) (hn : (regs.map Prod.fst).Nodup)
    (hh : mux.handleAll script = Except.ok mux2) :
    ((regs ++ script).map Prod.fst).Nodup := by
  induction script generalizing regs mux with
  | nil => simpa using hn
  | cons qh rest ih =>
    obtain ⟨q, h⟩ := qh
    simp only [ServeMux.handleAll] at hh
    cases hstep : mux.Handle q (some h) with
    | error e => rw [hstep] at hh; simp at hh
    | ok next =>
      rw [hstep] at hh
      obtain ⟨hnone, inv2⟩ := Registered_step inv hstep
      have hn2 : ((regs ++ [(q, h)]).map Prod.fst).Nodup := by
        rw [List.map_append, List.nodup_append]
        refine ⟨hn, by simp, ?_⟩
        intro a ha hb
        simp only [List.map_cons, List.map_nil, List.mem_singleton] at hb
        subst hb
        exact (lookup_none_iff_not_mem regs a).mp hnone ha
      have := ih inv2 hn2 hh
      simpa using this

theorem handleAll_new {script : List (String × Handler)} {mux : ServeMux}
    (hh : NewServeMux.handleAll script = Except.ok mux) :
    Registered script mux ∧ (script.map Prod.fst).Nodup := by
  have h1 := Registered_handleAll Registered_new hh
  have h2 := handleAll_keys_nodup Registered_new (by simp) hh
  simp only [List.nil_append] at h1 h2
  exact ⟨h1, h2⟩

end http

theorem lexLess_append_cons (a : List Char) (c : Char) (cs : List Char) :
    lexLess a (a ++ c :: cs) = true := by
  induction a with
  | nil => simp [lexLess]
  | cons x xs ih => simp [lexLess, ih]

theorem stringLess_append_slash (p : String) : stringLess p (p ++ "/") = true := by
  unfold stringLess
  rw [String.data_append]
  exact lexLess_append_cons p.data '/' []

theorem append_slash_cancel {k p : String} (h : k ++ "/" = p ++ "/") : k = p := by
  rw [String.ext_iff, String.data_append, String.data_append] at h
  exact String.ext (List.append_cancel_right h)

theorem append_slash_ne_self (p : String) : p ++ "/" ≠ p := by
  intro h
  have := stringLess_append_slash p
  rw [h, stringLess_irrefl] at this
  exact absurd this (by simp)

namespace route

theorem Less_antisymm : IsAntisymm Route (fun a b => Less a b = true) :=
  ⟨fun a b hab hba => by
    unfold Less at hab hba
    rw [stringLess_asymm hab] at hba
    exact absurd hba (by simp)⟩

/-- The routes whose pattern is a registered subtree pattern `p/`, when the
bare `p` is not registered: the synthetic route at `p` and the explicit one. -/
theorem subtree_routes_mem {script : List (String × http.Handler)} {mux : http.ServeMux}
    (inv : http.Registered script mux) (hnd : (script.map Prod.fst).Nodup)
    (p : String) (h : http.Handler) (hreg : (p ++ "/", h) ∈ script)
    (hbare : p ∉ script.map Prod.fst) (r : Route) :
    (r ∈ ListByMux mux ∧ r.pattern = p ++ "/") ↔
      (r = { path := p, pattern := p ++ "/", explicit := false, redirect := true } ∨
       r = { path := p ++ "/", pattern := p ++ "/", explicit := true,
             redirect := strings.Contains h.reflectString "http.redirectHandler" }) := by
  have hlook : script.lookup (p ++ "/") = some h := (http.mem_iff_lookup script hnd _ _).mp hreg
  have hnone : script.lookup p = none := (http.lookup_none_iff_not_mem script p).mpr hbare
  rw [mem_ListByMux_of_Registered inv]
  constructor
  · rintro ⟨⟨q, h2, hq, hr⟩ | ⟨k, hk, hs, hr⟩, hpat⟩
    · subst hr
      simp only at hpat
      subst hpat
      rw [hlook] at hq
      injection hq with hq
      subst hq
      exact Or.inr rfl
    · subst hr
      simp only at hpat
      have := append_slash_cancel hpat
      subst this
      exact Or.inl rfl
  · rintro (hr | hr)
    · subst hr
      exact ⟨Or.inr ⟨p, hnone, by rw [hlook]; rfl, rfl⟩, rfl⟩
    · subst hr
      exact ⟨Or.inl ⟨p ++ "/", h, hlook, rfl⟩, rfl⟩

end route

namespace route

/-- The route list does not depend on the iteration order of the map: two
maps with the same entries in different orders, one entry per key, give the
same list. -/
theorem ListByMux_iteration_order (m1 m2 : List (String × http.muxEntry)) (hosts1 hosts2 : Bool)
    (hp : m1.Perm m2) (hnd : (m1.map Prod.fst).Nodup) :
    ListByMux { m := m1, hosts := hosts1 } = ListByMux { m := m2, hosts := hosts2 } := by
  have hnd2 : (m2.map Prod.fst).Nodup := (hp.map Prod.fst).nodup_iff.mp hnd
  have hperm : (ListByMux { m := m1, hosts := hosts1 }).Perm
      (ListByMux { m := m2, hosts := hosts2 }) :=
    ((sortByRoutePath_perm _).trans (hp.map routeOfEntry)).trans (sortByRoutePath_perm _).symm
  exact @List.eq_of_perm_of_sorted _ _ Less_antisymm _ _ hperm
    (@ListByMux_strict { m := m1, hosts := hosts1 } hnd)
    (@ListByMux_strict { m := m2, hosts := hosts2 } hnd2)

end route

namespace route

theorem listAfter_ok {script : List (String × http.Handler)} {routes : List Route}
    (hrun : listAfter script = Except.ok routes) :
    ∃ mux, http.NewServeMux.handleAll script = Except.ok mux ∧ routes = ListByMux mux := by
  unfold listAfter at hrun
  cases hm : http.NewServeMux.handleAll script with
  | error e => rw [hm] at hrun; simp at hrun
  | ok mux =>
    rw [hm] at hrun
    injection hrun with hrun
    exact ⟨mux, rfl, hrun.symm⟩

/-- C3 (amended): when a run of registrations on a new multiplexer registers
the subtree pattern `p/` with a handler whose reflected text (what
reflect.Indirect gives as String for it, such as `<http.HandlerFunc Value>`)
does not contain `http.redirectHandler`, and never registers the bare `p`,
the routes ListByMux lists for that pattern are exactly two, in this order:
the synthetic one with path `p`, pattern `p/`, explicit=false, redirect=true,
and the explicit one with path `p/`, pattern `p/`, explicit=true,
redirect=false. -/
theorem C3_subtree_pattern_lists_two_routes (script : List (String × http.Handler))
    (routes : List Route) (p : String) (h : http.Handler)
    (hrun : listAfter script = Except.ok routes)
    (hreg : (p ++ "/", h) ∈ script)
    (hbare : p ∉ script.map Prod.fst)
    (hh : strings.Contains h.reflectString "http.redirectHandler" = false) :
    routes.filter (fun r => decide (r.pattern = p ++ "/")) =
      [{ path := p, pattern := p ++ "/", explicit := false, redirect := true },
       { path := p ++ "/", pattern := p ++ "/", explicit := true, redirect := false }] := by
  obtain ⟨mux, hmux, hroutes⟩ := listAfter_ok hrun
  subst hroutes
  obtain ⟨inv, hnd⟩ := http.handleAll_new hmux
  have hsorted : ((ListByMux mux).filter (fun r => decide (r.pattern = p ++ "/"))).Pairwise
      (fun a b => Less a b = true) := (ListByMux_strict inv.1).filter _
  have htarget : List.Pairwise (fun a b => Less a b = true)
      [({ path := p, pattern := p ++ "/", explicit := false, redirect := true } : Route),
       { path := p ++ "/", pattern := p ++ "/", explicit := true, redirect := false }] := by
    simp [Less, Route.Path, stringLess_append_slash]
  have hnodupL : ((ListByMux mux).filter (fun r => decide (r.pattern = p ++ "/"))).Nodup :=
    (ListByMux_nodup inv.1).filter _
  have hnodupT : List.Nodup
      [({ path := p, pattern := p ++ "/", explicit := false, redirect := true } : Route),
       { path := p ++ "/", pattern := p ++ "/", explicit := true, redirect := false }] := by
    simp
  have hperm := (List.perm_ext_iff_of_nodup hnodupL hnodupT).mpr (fun r => by
    have := subtree_routes_mem inv hnd p h hreg hbare r
    rw [hh] at this
    simp only [List.mem_filter, decide_eq_true_eq, List.mem_cons, List.mem_singleton,
      List.not_mem_nil, or_false]
    exact this)
  exact @List.eq_of_perm_of_sorted _ _ Less_antisymm _ _ hperm hsorted htarget

/-- Witness of C3 (amended): the pattern `/foo/` alone on a new multiplexer. -/
theorem C3_subtree_pattern_lists_two_routes_witness :
    [({ path := "/foo", pattern := "/foo/", explicit := false, redirect := true } : Route),
     { path := "/foo/", pattern := "/foo/", explicit := true, redirect := false }].filter
        (fun r => decide (r.pattern = "/foo" ++ "/")) =
      [{ path := "/foo", pattern := "/foo" ++ "/", explicit := false, redirect := true },
       { path := "/foo" ++ "/", pattern := "/foo" ++ "/", explicit := true, redirect := false }] :=
  C3_subtree_pattern_lists_two_routes [("/foo/", http.HandlerFunc idleHandler)] _ "/foo"
    (http.HandlerFunc idleHandler) rfl (by simp) (by decide) (by decide)

/-- C3 as stated fails: with `/foo/` alone registered, the synthetic route has
the path `/foo`, not the empty path, and no route with the empty path is
listed; and when the handler registered for `/foo/` is a redirect handler the
explicit route is listed with redirect=true.  ListByMux tests the reflected
text of the handler for the substring `http.redirectHandler`, so the same
holds for a handler of a type named redirectHandler in another package whose
name ends in `http`. -/
theorem C3_counterexample :
    listAfter [("/foo/", http.HandlerFunc idleHandler)] =
      Except.ok [{ path := "/foo", pattern := "/foo/", explicit := false, redirect := true },
                 { path := "/foo/", pattern := "/foo/", explicit := true, redirect := false }] ∧
    ({ path := "", pattern := "/foo/", explicit := false, redirect := true } : Route) ∉
      [({ path := "/foo", pattern := "/foo/", explicit := false, redirect := true } : Route),
       { path := "/foo/", pattern := "/foo/", explicit := true, redirect := false }] ∧
    listAfter [("/foo/", http.RedirectHandler "/bar" 301)] =
      Except.ok [{ path := "/foo", pattern := "/foo/", explicit := false, redirect := true },
                 { path := "/foo/", pattern := "/foo/", explicit := true, redirect := true }] ∧
    listAfter [("/foo/", { reflectString := "<myhttp.redirectHandler Value>",
                           ServeHTTP := idleHandler })] =
      Except.ok [{ path := "/foo", pattern := "/foo/", explicit := false, redirect := true },
                 { path := "/foo/", pattern := "/foo/", explicit := true, redirect := true }] :=
  ⟨rfl, by decide, rfl, rfl⟩

/-- C8: ListByMux returns one route per entry of the map, nothing added or
dropped (the list is a permutation of the routes of the entries), and the
list is in ascending order of path: of two routes, the earlier one has the
same path as the later one or a smaller path. -/
theorem C8_ListByMux_permutation_sorted (mux : http.ServeMux) :
    (ListByMux mux).Perm (mux.m.map routeOfEntry) ∧
    (ListByMux mux).length = mux.m.length ∧
    (ListByMux mux).Pairwise
      (fun a b => a.Path = b.Path ∨ stringLess a.Path b.Path = true) := by
  refine ⟨sortByRoutePath_perm _, ?_, ?_⟩
  · have := (sortByRoutePath_perm (mux.m.map routeOfEntry)).length_eq
    simpa [ListByMux] using this
  · have h1 : (ListByMux mux).Pairwise notAfter := sortByRoutePath_sorted _
    refine h1.imp ?_
    intro a b hab
    unfold notAfter Less at hab
    rcases stringLess_trichotomy a.Path b.Path with h | h | h
    · exact Or.inr h
    · exact Or.inl h
    · rw [h] at hab; exact absurd hab (by simp)

end route

namespace server

theorem effectivePattern_ne_empty (server : Server) (pattern : String) :
    server.effectivePattern pattern ≠ "" := by
  unfold Server.effectivePattern
  intro h
  rw [String.ext_iff] at h
  by_cases hr : server.pathRoot = ""
  · simp [hr, String.data_append] at h
  · simp only [ne_eq, hr, not_false_eq_true, if_true, String.data_append] at h
    exact hr (String.ext (List.append_eq_nil.mp h).1)

theorem handleAll_append (mux : http.ServeMux) (a b : List (String × http.Handler)) :
    mux.handleAll (a ++ b) =
      (match mux.handleAll a with
       | Except.ok next => next.handleAll b
       | Except.error e => Except.error e) := by
  induction a generalizing mux with
  | nil => simp [http.ServeMux.handleAll]
  | cons qh rest ih =>
    obtain ⟨q, h⟩ := qh
    simp only [List.cons_append, http.ServeMux.handleAll]
    cases mux.Handle q (some h) with
    | error e => simp
    | ok next => simp [ih]

theorem script_of_Handle {mux mux2 : http.ServeMux} {q : String}
    {f : http.ResponseWriter → http.Request → Except String http.ResponseWriter}
    (hmux : mux.Handle q (some (http.HandlerFunc f)) = Except.ok mux2)
    (pats : List String) (hp : pats = [q]) :
    ∃ script : List (String × http.Handler),
      mux.handleAll script = Except.ok mux2 ∧
      script.map Prod.fst = pats ∧
      ∀ qh ∈ script, qh.2.reflectString = "<http.HandlerFunc Value>" := by
  refine ⟨[(q, http.HandlerFunc f)], ?_, ?_, ?_⟩
  · simp only [http.ServeMux.handleAll, hmux]
  · simp [hp]
  · intro qh hq
    simp only [List.mem_singleton] at hq
    subst hq
    rfl

theorem AddHandlerFunc_ok {server next : Server} {pattern : String}
    {f : http.ResponseWriter → http.Request → Except String http.ResponseWriter}
    (h : server.AddHandlerFunc pattern f = Except.ok next) :
    ∃ mux, server.mux.Handle (server.effectivePattern pattern) (some (http.HandlerFunc f))
        = Except.ok mux ∧ next = { server with mux := mux } := by
  simp only [Server.AddHandlerFunc, http.ServeMux.HandleFunc] at h
  unfold Server.effectivePattern
  split at h
  · rename_i mux hmux
    injection h with h
    exact ⟨mux, hmux, h.symm⟩
  · simp at h

theorem AddPage_ok {server next : Server} {p : page.Page} {err : Option String}
    (h : server.AddPage p = Except.ok (next, err)) :
    (p.URLPath = "" ∧ next = server) ∨
    (p.URLPath ≠ "" ∧
      server.AddHandlerFunc p.URLPath (fun w r => Except.ok (server.pageHandler p w r))
        = Except.ok next) := by
  unfold Server.AddPage at h
  by_cases hp : p.URLPath = ""
  · simp only [hp, if_true] at h
    injection h with h
    injection h with h1 h2
    exact Or.inl ⟨hp, h1.symm⟩
  · simp only [hp, if_false] at h
    refine Or.inr ⟨hp, ?_⟩
    cases hf : server.AddHandlerFunc p.URLPath
        (fun w r => Except.ok (server.pageHandler p w r)) with
    | error e => rw [hf] at h; simp at h
    | ok s1 =>
      rw [hf] at h
      injection h with h
      injection h with h1 h2
      rw [h1]

/-- The multiplexer script of one successful registration: at most one Handle
call, for the effective pattern, with a HandlerFunc. -/
theorem register_script {server next : Server} {reg : Registration}
    (h : server.register reg = Except.ok next) :
    next.pathRoot = server.pathRoot ∧
    ∃ script : List (String × http.Handler),
      server.mux.handleAll script = Except.ok next.mux ∧
      script.map Prod.fst = Registration.patterns server reg ∧
      ∀ qh ∈ script, qh.2.reflectString = "<http.HandlerFunc Value>" := by
  cases reg with
  | handler pattern oh =>
    simp only [Server.register, Server.AddHandler] at h
    have hne := effectivePattern_ne_empty server pattern
    unfold Server.effectivePattern at hne
    simp only [http.StripPrefix, hne, if_false] at h
    split at h
    · rename_i mux hmux
      injection h with h
      subst h
      exact ⟨rfl, script_of_Handle hmux _
        (by simp [Registration.patterns, Server.effectivePattern])⟩
    · simp at h
  | handlerFunc pattern f =>
    simp only [Server.register] at h
    obtain ⟨mux, hmux, hnext⟩ := AddHandlerFunc_ok h
    subst hnext
    exact ⟨rfl, script_of_Handle hmux _ (by simp [Registration.patterns])⟩
  | page p =>
    simp only [Server.register] at h
    cases hpage : server.AddPage p with
    | error e => rw [hpage] at h; simp at h
    | ok res =>
      obtain ⟨s1, err⟩ := res
      rw [hpage] at h
      injection h with h
      subst h
      rcases AddPage_ok hpage with ⟨hp, hs⟩ | ⟨hp, hs⟩
      · subst hs
        exact ⟨rfl, [], rfl, by simp [Registration.patterns, hp], by simp⟩
      · obtain ⟨mux, hmux, hnext⟩ := AddHandlerFunc_ok hs
        subst hnext
        exact ⟨rfl, script_of_Handle hmux _ (by simp [Registration.patterns, hp])⟩

theorem patterns_congr {s1 s2 : Server} (h : s1.pathRoot = s2.pathRoot) (reg : Registration) :
    Registration.patterns s1 reg = Registration.patterns s2 reg := by
  cases reg <;> simp [Registration.patterns, Server.effectivePattern, h]

theorem registerAll_script {server final : Server} {regs : List Registration}
    (h : server.registerAll regs = Except.ok final) :
    ∃ script : List (String × http.Handler),
      server.mux.handleAll script = Except.ok final.mux ∧
      script.map Prod.fst = registeredPatterns server regs ∧
      ∀ qh ∈ script, qh.2.reflectString = "<http.HandlerFunc Value>" := by
  induction regs generalizing server with
  | nil =>
    simp only [Server.registerAll] at h
    injection h with h
    subst h
    exact ⟨[], rfl, by simp [registeredPatterns], by simp⟩
  | cons reg rest ih =>
    simp only [Server.registerAll] at h
    cases hstep : server.register reg with
    | error e => rw [hstep] at h; simp at h
    | ok next =>
      rw [hstep] at h
      obtain ⟨hroot, s1, hs1, hk1, hr1⟩ := register_script hstep
      obtain ⟨s2, hs2, hk2, hr2⟩ := ih h
      refine ⟨s1 ++ s2, ?_, ?_, ?_⟩
      · rw [handleAll_append, hs1]
        exact hs2
      · rw [List.map_append, hk1, hk2]
        simp only [registeredPatterns, List.flatMap_cons]
        congr 1
        exact congrArg _ (funext (fun r => patterns_congr hroot r))
      · intro qh hq
        rcases List.mem_append.mp hq with hq | hq
        · exact hr1 qh hq
        · exact hr2 qh hq

end server

namespace http

theorem lookup_mem {β : Type} (m : List (String × β)) (k : String) (e : β)
    (h : m.lookup k = some e) : (k, e) ∈ m := by
  induction m with
  | nil => simp [List.lookup] at h
  | cons kv rest ih =>
    obtain ⟨k1, v1⟩ := kv
    by_cases hk : k = k1
    · subst hk
      simp only [List.lookup, beq_self_eq_true, Option.some.injEq] at h
      subst h
      exact List.mem_cons_self _ _
    · have hb : (k == k1) = false := by simpa using hk
      simp only [List.lookup, hb] at h
      exact List.mem_cons_of_mem _ (ih h)

theorem lookup_of_mem_keys {β : Type} (m : List (String × β)) (k : String)
    (h : k ∈ m.map Prod.fst) : ∃ e, m.lookup k = some e := by
  cases hl : m.lookup k with
  | some e => exact ⟨e, rfl⟩
  | none => exact absurd h ((lookup_none_iff_not_mem m k).mp hl)

end http

namespace server

theorem handlerFunc_not_redirect :
    strings.Contains "<http.HandlerFunc Value>" "http.redirectHandler" = false := by
  decide

theorem routesAfter_ok {env : Platform} {o : Options} {regs : List Registration}
    {routes : List route.Route} (hrun : routesAfter env o regs = Except.ok routes) :
    ∃ script mux, http.NewServeMux.handleAll script = Except.ok mux ∧
      routes = route.ListByMux mux ∧
      script.map Prod.fst = registeredPatterns (New env o) regs ∧
      ∀ qh ∈ script, qh.2.reflectString = "<http.HandlerFunc Value>" := by
  unfold routesAfter at hrun
  cases hs : (New env o).registerAll regs with
  | error e => rw [hs] at hrun; simp at hrun
  | ok s =>
    rw [hs] at hrun
    injection hrun with hrun
    obtain ⟨script, h1, h2, h3⟩ := registerAll_script hs
    exact ⟨script, s.mux, h1, hrun.symm, h2, h3⟩

/-- The explicit route of a registered effective pattern is listed, and it is
not a redirect. -/
theorem explicit_route_mem {script : List (String × http.Handler)} {mux : http.ServeMux}
    (inv : http.Registered script mux)
    (hrefl : ∀ qh ∈ script, qh.2.reflectString = "<http.HandlerFunc Value>")
    {q : String} (hq : q ∈ script.map Prod.fst) :
    ({ path := q, pattern := q, explicit := true, redirect := false } : route.Route)
      ∈ route.ListByMux mux := by
  obtain ⟨h, hl⟩ := http.lookup_of_mem_keys script q hq
  rw [route.mem_ListByMux_of_Registered inv]
  refine Or.inl ⟨q, h, hl, ?_⟩
  have := hrefl (q, h) (http.lookup_mem script q h hl)
  simp only at this
  rw [this, handlerFunc_not_redirect]

/-- Every route listed with explicit=true is the route of its own path, and is
not a redirect, when all handlers are handler functions. -/
theorem routes_cases {script : List (String × http.Handler)} {mux : http.ServeMux}
    (inv : http.Registered script mux)
    (hrefl : ∀ qh ∈ script, qh.2.reflectString = "<http.HandlerFunc Value>")
    {r : route.Route} (hr : r ∈ route.ListByMux mux) :
    (r.path ∈ script.map Prod.fst ∧
      r = { path := r.path, pattern := r.path, explicit := true, redirect := false }) ∨
    (r.path ∉ script.map Prod.fst ∧ (r.path ++ "/") ∈ script.map Prod.fst ∧
      r = { path := r.path, pattern := r.path ++ "/", explicit := false, redirect := true }) := by
  rw [route.mem_ListByMux_of_Registered inv] at hr
  rcases hr with ⟨q, h, hl, hr⟩ | ⟨k, hk, hs, hr⟩
  · have hmem := http.lookup_mem script q h hl
    have := hrefl (q, h) hmem
    simp only at this
    rw [this, handlerFunc_not_redirect] at hr
    subst hr
    exact Or.inl ⟨List.mem_map_of_mem Prod.fst hmem, rfl⟩
  · subst hr
    refine Or.inr ⟨(http.lookup_none_iff_not_mem script k).mp hk, ?_, rfl⟩
    cases hl : script.lookup (k ++ "/") with
    | none => rw [hl] at hs; simp at hs
    | some h => exact List.mem_map_of_mem Prod.fst (http.lookup_mem script _ h hl)

/-- C4: after a run of registrations on a new server, for every effective
subtree pattern `p/` that was registered, Routes() holds the explicit entry
with path `p/`, pattern `p/`, explicit=true, redirect=false.  When the bare
`p` was not registered it also holds the synthetic entry with path `p`,
pattern `p/`, explicit=false, redirect=true.  When `p` was registered, before
or after, the entry at path `p` is the explicit one with redirect=false, and
the only entry with pattern `p/` is the explicit one: no synthetic entry. -/
theorem C4_routes_of_subtree_pattern (env : Platform) (o : Options)
    (regs : List Registration) (routes : List route.Route) (p : String)
    (hrun : routesAfter env o regs = Except.ok routes)
    (hreg : p ++ "/" ∈ registeredPatterns (New env o) regs) :
    ({ path := p ++ "/", pattern := p ++ "/", explicit := true, redirect := false } :
      route.Route) ∈ routes ∧
    (p ∉ registeredPatterns (New env o) regs →
      ({ path := p, pattern := p ++ "/", explicit := false, redirect := true } :
        route.Route) ∈ routes) ∧
    (p ∈ registeredPatterns (New env o) regs →
      ({ path := p, pattern := p, explicit := true, redirect := false } : route.Route)
        ∈ routes ∧
      (∀ r ∈ routes, r.path = p →
        r = { path := p, pattern := p, explicit := true, redirect := false }) ∧
      (∀ r ∈ routes, r.pattern = p ++ "/" →
        r = { path := p ++ "/", pattern := p ++ "/", explicit := true, redirect := false })) := by
  obtain ⟨script, mux, hmux, hroutes, hkeys, hrefl⟩ := routesAfter_ok hrun
  subst hroutes
  obtain ⟨inv, hnd⟩ := http.handleAll_new hmux
  rw [← hkeys] at hreg ⊢
  refine ⟨explicit_route_mem inv hrefl hreg, ?_, ?_⟩
  · intro hbare
    rw [route.mem_ListByMux_of_Registered inv]
    obtain ⟨h, hl⟩ := http.lookup_of_mem_keys script _ hreg
    exact Or.inr ⟨p, (http.lookup_none_iff_not_mem script p).mpr hbare, by rw [hl]; rfl, rfl⟩
  · intro hp
    refine ⟨explicit_route_mem inv hrefl hp, ?_, ?_⟩
    · intro r hr hpath
      rcases routes_cases inv hrefl hr with ⟨_, h2⟩ | ⟨h1, _, _⟩
      · rw [hpath] at h2; exact h2
      · rw [hpath] at h1; exact absurd hp h1
    · intro r hr hpat
      rcases routes_cases inv hrefl hr with ⟨_, h2⟩ | ⟨h1, _, h3⟩
      · have h4 : r.path = p ++ "/" := by
          rw [h2] at hpat; exact hpat
        rw [h4] at h2; exact h2
      · have h4 : r.path ++ "/" = p ++ "/" := by
          rw [h3] at hpat; exact hpat
        rw [append_slash_cancel h4] at h1
        exact absurd hp h1

/-- Witness of C4: the three registrations of TestAddHandler under the prefix
`foo`; `/foo/` has no bare `/foo`, while `/foo/test/` has `/foo/test`. -/
theorem C4_routes_of_subtree_pattern_witness :
    (({ path := "/foo" ++ "/", pattern := "/foo" ++ "/", explicit := true, redirect := false } :
      route.Route) ∈
      [({ path := "/foo", pattern := "/foo/", explicit := false, redirect := true } :
          route.Route),
       { path := "/foo/", pattern := "/foo/", explicit := true, redirect := false },
       { path := "/foo/test", pattern := "/foo/test", explicit := true, redirect := false },
       { path := "/foo/test/", pattern := "/foo/test/", explicit := true, redirect := false }]) ∧
    (({ path := "/foo", pattern := "/foo" ++ "/", explicit := false, redirect := true } :
      route.Route) ∈
      [({ path := "/foo", pattern := "/foo/", explicit := false, redirect := true } :
          route.Route),
       { path := "/foo/", pattern := "/foo/", explicit := true, redirect := false },
       { path := "/foo/test", pattern := "/foo/test", explicit := true, redirect := false },
       { path := "/foo/test/", pattern := "/foo/test/", explicit := true, redirect := false }]) :=
  have h := C4_routes_of_subtree_pattern examplePlatform { PathPrefix := "foo" }
    [Registration.handler "/" none, Registration.handler "/test" none,
     Registration.handler "test/" none]
    [{ path := "/foo", pattern := "/foo/", explicit := false, redirect := true },
     { path := "/foo/", pattern := "/foo/", explicit := true, redirect := false },
     { path := "/foo/test", pattern := "/foo/test", explicit := true, redirect := false },
     { path := "/foo/test/", pattern := "/foo/test/", explicit := true, redirect := false }]
    "/foo" rfl (by decide)
  ⟨h.1, h.2.1 (by decide)⟩

end server

namespace strings

theorem dropWhile_slash_of_no_leading_slash (d : List Char) (h : ['/'].isPrefixOf d = false) :
    d.dropWhile (fun c => ['/'].contains c) = d := by
  cases d with
  | nil => rfl
  | cons c cs =>
    have hc : ¬ c = '/' := by
      intro hc
      subst hc
      simp [List.isPrefixOf] at h
    simp [List.dropWhile, hc]

theorem dropWhile_slash_cons (d : List Char) :
    ('/' :: d).dropWhile (fun c => ['/'].contains c) = d.dropWhile (fun c => ['/'].contains c) := by
  simp [List.dropWhile]

theorem isPrefixOf_append_of_ne_nil (d e : List Char) (hd : d ≠ [])
    (h : ['/'].isPrefixOf d = false) : ['/'].isPrefixOf (d ++ e) = false := by
  cases d with
  | nil => exact absurd rfl hd
  | cons c cs =>
    simp only [List.cons_append]
    simp only [List.isPrefixOf, Bool.and_true] at h ⊢
    exact h

theorem TrimLeft_of_no_leading_slash (p : String) (h : HasPrefix p "/" = false) :
    TrimLeft p "/" = p := by
  apply String.ext
  exact dropWhile_slash_of_no_leading_slash p.data h

theorem TrimRight_of_not_suffix (p : String) (h : HasSuffix p "/" = false) :
    TrimRight p "/" = p := by
  apply String.ext
  show (p.data.reverse.dropWhile (fun c => ['/'].contains c)).reverse = p.data
  rw [dropWhile_slash_of_no_leading_slash p.data.reverse h, List.reverse_reverse]

theorem TrimLeft_slash_append (s : String) : TrimLeft ("/" ++ s) "/" = TrimLeft s "/" := by
  apply String.ext
  show (("/" ++ s).data).dropWhile (fun c => ['/'].contains c)
    = s.data.dropWhile (fun c => ['/'].contains c)
  rw [String.data_append]
  exact dropWhile_slash_cons s.data

theorem TrimRight_append_slash (s : String) : TrimRight (s ++ "/") "/" = TrimRight s "/" := by
  apply String.ext
  show (((s ++ "/").data).reverse.dropWhile (fun c => ['/'].contains c)).reverse
    = (s.data.reverse.dropWhile (fun c => ['/'].contains c)).reverse
  rw [String.data_append]
  have : (s.data ++ ("/" : String).data).reverse = '/' :: s.data.reverse := by
    show (s.data ++ ['/']).reverse = _
    simp
  rw [this, dropWhile_slash_cons]

theorem HasPrefix_append_of_ne (p s : String) (hp : p ≠ "") (h : HasPrefix p "/" = false) :
    HasPrefix (p ++ s) "/" = false := by
  unfold HasPrefix
  rw [String.data_append]
  apply isPrefixOf_append_of_ne_nil _ _ _ h
  intro hd
  exact hp (String.ext hd)

theorem HasSuffix_append_of_ne (p s : String) (hp : p ≠ "") (h : HasSuffix p "/" = false) :
    HasSuffix (s ++ p) "/" = false := by
  unfold HasSuffix
  rw [String.data_append, List.reverse_append]
  apply isPrefixOf_append_of_ne_nil _ _ _ h
  intro hd
  exact hp (String.ext (List.reverse_eq_nil_iff.mp hd))

/-- Trim on the four spellings of a non-empty `p` without leading or trailing
slash. -/
theorem Trim_spellings (p : String) (hp : p ≠ "") (hs : HasPrefix p "/" = false)
    (he : HasSuffix p "/" = false) :
    Trim p "/" = p ∧ Trim ("/" ++ p) "/" = p ∧ Trim (p ++ "/") "/" = p ∧
    Trim ("/" ++ p ++ "/") "/" = p := by
  have h1 : Trim p "/" = p := by
    unfold Trim
    rw [TrimLeft_of_no_leading_slash p hs, TrimRight_of_not_suffix p he]
  have h2 : Trim ("/" ++ p) "/" = p := by
    unfold Trim
    rw [TrimLeft_slash_append, TrimLeft_of_no_leading_slash p hs, TrimRight_of_not_suffix p he]
  have h3 : Trim (p ++ "/") "/" = p := by
    unfold Trim
    rw [TrimLeft_of_no_leading_slash _ (HasPrefix_append_of_ne p "/" hp hs), TrimRight_append_slash,
      TrimRight_of_not_suffix p he]
  have h4 : Trim ("/" ++ p ++ "/") "/" = p := by
    unfold Trim
    rw [String.append_assoc, TrimLeft_slash_append,
      TrimLeft_of_no_leading_slash _ (HasPrefix_append_of_ne p "/" hp hs), TrimRight_append_slash,
      TrimRight_of_not_suffix p he]
  exact ⟨h1, h2, h3, h4⟩

end strings

namespace server

theorem New_pathRoot (env : Platform) (o : Options) :
    (New env o).PathRoot =
      if o.PathPrefix = "" then "" else "/" ++ strings.Trim o.PathPrefix "/" ++ "/" := by
  unfold New Server.PathRoot
  by_cases h : o.PathPrefix = ""
  · simp [h]
  · simp [h]

theorem append_ne_empty_left (a b : String) (h : a ≠ "") : a ++ b ≠ "" := by
  intro h1
  rw [String.ext_iff, String.data_append] at h1
  exact h (String.ext (List.append_eq_nil.mp h1).1)

theorem append_ne_empty_right (a b : String) (h : b ≠ "") : a ++ b ≠ "" := by
  intro h1
  rw [String.ext_iff, String.data_append] at h1
  exact h (String.ext (List.append_eq_nil.mp h1).2)

/-- C7 (amended): New gives the empty pathRoot for an empty pathPrefix and
`/` + t + `/` otherwise, t being the pathPrefix trimmed of slashes on both
sides; hence for every non-empty `p` that neither starts nor ends with a
slash the four spellings `p`, `/p`, `p/` and `/p/` all give the pathRoot
`/p/`. -/
theorem C7_pathRoot_of_pathPrefix (env : Platform) (o : Options) (p : String)
    (hp : p ≠ "") (hs : strings.HasPrefix p "/" = false) (he : strings.HasSuffix p "/" = false) :
    (New env { o with PathPrefix := "" }).PathRoot = "" ∧
    (New env o).PathRoot =
      (if o.PathPrefix = "" then "" else "/" ++ strings.Trim o.PathPrefix "/" ++ "/") ∧
    (New env { o with PathPrefix := p }).PathRoot = "/" ++ p ++ "/" ∧
    (New env { o with PathPrefix := "/" ++ p }).PathRoot = "/" ++ p ++ "/" ∧
    (New env { o with PathPrefix := p ++ "/" }).PathRoot = "/" ++ p ++ "/" ∧
    (New env { o with PathPrefix := "/" ++ p ++ "/" }).PathRoot = "/" ++ p ++ "/" := by
  obtain ⟨h1, h2, h3, h4⟩ := strings.Trim_spellings p hp hs he
  refine ⟨?_, New_pathRoot env o, ?_, ?_, ?_, ?_⟩
  · rw [New_pathRoot]; simp
  · rw [New_pathRoot]; simp only [hp, if_false, h1]
  · rw [New_pathRoot]
    simp only [append_ne_empty_right "/" p hp, if_false, h2]
  · rw [New_pathRoot]
    simp only [append_ne_empty_left p "/" hp, if_false, h3]
  · rw [New_pathRoot]
    simp only [append_ne_empty_left ("/" ++ p) "/" (append_ne_empty_right "/" p hp), if_false, h4]

/-- Witness of C7 (amended): the prefix `test` of TestPathRoot. -/
theorem C7_pathRoot_of_pathPrefix_witness :
    (New examplePlatform { PathPrefix := "test" }).PathRoot = "/" ++ "test" ++ "/" ∧
    (New examplePlatform { PathPrefix := "/" ++ "test" ++ "/" }).PathRoot = "/" ++ "test" ++ "/" :=
  have h := C7_pathRoot_of_pathPrefix examplePlatform {} "test" (by decide) (by decide)
    (by decide)
  ⟨h.2.2.1, h.2.2.2.2.2⟩

/-- C7 as stated fails at the empty `p`: it neither starts nor ends with a
slash, yet the spelling `p` itself gives the empty pathRoot, not `//`. -/
theorem C7_counterexample :
    strings.HasPrefix "" "/" = false ∧ strings.HasSuffix "" "/" = false ∧
    (New examplePlatform { PathPrefix := "" }).PathRoot = "" ∧
    (New examplePlatform { PathPrefix := "" }).PathRoot ≠ "/" ++ "" ++ "/" := by
  decide

end server

namespace http

theorem Handle_registers {mux mux2 : ServeMux} {q : String} {h : Handler}
    (hh : mux.Handle q (some h) = Except.ok mux2) :
    mux2.m.lookup q = some { explicit := true, h := some h, pattern := q } ∧
    ∀ k, k ≠ q → k ≠ dropLast q → mux2.m.lookup k = mux.m.lookup k := by
  obtain ⟨hq, _, hm⟩ := Handle_ok hh
  have hd : ¬ q = dropLast q := fun h3 => dropLast_ne_self hq h3.symm
  rw [hm]
  constructor
  · split
    · rw [lookup_mapAssign, if_neg hd, lookup_mapAssign, if_pos rfl]
    · rw [lookup_mapAssign, if_pos rfl]
  · intro k hk1 hk2
    split
    · rw [lookup_mapAssign, if_neg hk2, lookup_mapAssign, if_neg hk1]
    · rw [lookup_mapAssign, if_neg hk1]

end http

namespace server

theorem AddHandler_ok {server next : Server} {pattern : String} {h : Option http.Handler}
    (hadd : server.AddHandler pattern h = Except.ok next) :
    ∃ h2 mux, server.mux.Handle (server.effectivePattern pattern) (some h2) = Except.ok mux ∧
      next = { server with mux := mux } := by
  simp only [Server.AddHandler] at hadd
  have hne := effectivePattern_ne_empty server pattern
  unfold Server.effectivePattern at hne ⊢
  simp only [http.StripPrefix, hne, if_false] at hadd
  split at hadd
  · rename_i mux hmux
    injection hadd with hadd
    exact ⟨_, mux, hmux, hadd.symm⟩
  · simp at hadd

theorem TrimLeft_slashes (pattern : String) :
    ∃ n, pattern = String.mk (List.replicate n '/') ++ strings.TrimLeft pattern "/" := by
  obtain ⟨d⟩ := pattern
  induction d with
  | nil => exact ⟨0, rfl⟩
  | cons c cs ih =>
    by_cases hc : c = '/'
    · subst hc
      obtain ⟨n, hn⟩ := ih
      refine ⟨n + 1, ?_⟩
      apply String.ext
      have h1 := congrArg String.data hn
      simp only [String.data_append, strings.TrimLeft] at h1 ⊢
      rw [strings.dropWhile_slash_cons, List.replicate_succ, List.cons_append, ← h1]
    · refine ⟨0, ?_⟩
      apply String.ext
      have h2 : ("/" : String).data = ['/'] := rfl
      simp [String.data_append, strings.TrimLeft, h2, List.dropWhile, hc]

theorem TrimLeft_no_leading_slash (pattern : String) :
    strings.HasPrefix (strings.TrimLeft pattern "/") "/" = false := by
  obtain ⟨d⟩ := pattern
  have h2 : ("/" : String).data = ['/'] := rfl
  simp only [strings.HasPrefix, strings.TrimLeft, h2]
  induction d with
  | nil => rfl
  | cons c cs ih =>
    by_cases hc : c = '/'
    · subst hc
      rw [strings.dropWhile_slash_cons]
      exact ih
    · have : (c :: cs).dropWhile (fun c => ['/'].contains c) = c :: cs := by
        simp [List.dropWhile, hc]
      rw [this]
      have hc2 : ¬ '/' = c := fun h => hc h.symm
      simp [List.isPrefixOf, hc2]

/-- C6: AddHandler and AddHandlerFunc register on the multiplexer the pattern
pathRoot + t when the server has a pathRoot and `/` + t otherwise, where t is
the given pattern without its leading slashes (the given pattern is some
slashes followed by t, and t starts with no slash): after a successful call
the map holds, at that pattern, an explicit entry with that pattern, and the
keys other than the pattern and its bare path are as before.  A further
leading slash on the given pattern leaves the registered pattern the same. -/
theorem C6_registered_pattern (server next : Server) (pattern : String)
    (h : Option http.Handler)
    (f : http.ResponseWriter → http.Request → Except String http.ResponseWriter)
    (hadd : server.AddHandler pattern h = Except.ok next ∨
      server.AddHandlerFunc pattern f = Except.ok next) :
    (∃ n, pattern = String.mk (List.replicate n '/') ++ strings.TrimLeft pattern "/") ∧
    strings.HasPrefix (strings.TrimLeft pattern "/") "/" = false ∧
    server.effectivePattern pattern =
      (if server.pathRoot ≠ "" then server.pathRoot ++ strings.TrimLeft pattern "/"
       else "/" ++ strings.TrimLeft pattern "/") ∧
    (http.mapIndex next.mux.m (server.effectivePattern pattern)).explicit = true ∧
    (http.mapIndex next.mux.m (server.effectivePattern pattern)).pattern =
      server.effectivePattern pattern ∧
    (∀ k, k ≠ server.effectivePattern pattern →
      k ≠ http.dropLast (server.effectivePattern pattern) →
      next.mux.m.lookup k = server.mux.m.lookup k) ∧
    server.effectivePattern ("/" ++ pattern) = server.effectivePattern pattern := by
  have hreg : ∃ h2 mux, server.mux.Handle (server.effectivePattern pattern) (some h2)
      = Except.ok mux ∧ next = { server with mux := mux } := by
    rcases hadd with hadd | hadd
    · exact AddHandler_ok hadd
    · obtain ⟨mux, h1, h2⟩ := AddHandlerFunc_ok hadd
      exact ⟨_, mux, h1, h2⟩
  obtain ⟨h2, mux, hmux, hnext⟩ := hreg
  subst hnext
  obtain ⟨hl, hothers⟩ := http.Handle_registers hmux
  refine ⟨TrimLeft_slashes pattern, TrimLeft_no_leading_slash pattern, rfl, ?_, ?_, hothers, ?_⟩
  · simp only [http.mapIndex, hl]
  · simp only [http.mapIndex, hl]
  · unfold Server.effectivePattern
    rw [strings.TrimLeft_slash_append]

/-- Witness of C6: `test/` and `/test/` under the prefix `foo` both register
`/foo/test/`, and without prefix `/test/`. -/
theorem C6_registered_pattern_witness :
    (New examplePlatform { PathPrefix := "foo" }).effectivePattern "test/" = "/foo/test/" ∧
    (New examplePlatform { PathPrefix := "foo" }).effectivePattern ("/" ++ "test/") =
      "/foo/test/" ∧
    (New examplePlatform {}).effectivePattern "test/" = "/test/" ∧
    (New examplePlatform {}).effectivePattern ("/" ++ "test/") = "/test/" :=
  have h1 := C6_registered_pattern (New examplePlatform { PathPrefix := "foo" })
    { New examplePlatform { PathPrefix := "foo" } with
      mux := { m := [("/foo/test/", { explicit := true, h := some (http.HandlerFunc route.idleHandler),
                                      pattern := "/foo/test/" }),
                     ("/foo/test", { explicit := false,
                                     h := some (http.RedirectHandler "/foo/test/" 301),
                                     pattern := "/foo/test/" })],
               hosts := false } }
    "test/" none route.idleHandler (Or.inr rfl)
  have h2 := C6_registered_pattern (New examplePlatform {})
    { New examplePlatform {} with
      mux := { m := [("/test/", { explicit := true, h := some (http.HandlerFunc route.idleHandler),
                                  pattern := "/test/" }),
                     ("/test", { explicit := false,
                                 h := some (http.RedirectHandler "/test/" 301),
                                 pattern := "/test/" })],
               hosts := false } }
    "test/" none route.idleHandler (Or.inr rfl)
  ⟨by decide, h1.2.2.2.2.2.2.trans (by decide), by decide, h2.2.2.2.2.2.2.trans (by decide)⟩

end server

namespace request

theorem status_json (ct : String) (code : Int) (body : String) :
    http.ResponseWriter.status
      [http.Call.setHeader "Content-Type" ct, http.Call.writeHeader code, http.Call.write body]
      = code := rfl

theorem body_json (ct : String) (code : Int) (body : String) :
    http.ResponseWriter.body
      [http.Call.setHeader "Content-Type" ct, http.Call.writeHeader code, http.Call.write body]
      = body := by
  simp [http.ResponseWriter.body]

theorem contentType_json (ct : String) (code : Int) (body : String) :
    http.ResponseWriter.contentType
      [http.Call.setHeader "Content-Type" ct, http.Call.writeHeader code, http.Call.write body]
      = some ct := by
  simp [http.ResponseWriter.contentType, http.ResponseWriter.beforeHeader, http.headerValue]

/-- The calls of Reply on a JSON-classified value. -/
theorem Reply_json (request : Request) (rv : ReplyValue) (h : (classify rv).jsonTrig = true) :
    request.Reply rv = request.w ++
      [http.Call.setHeader "Content-Type" (jsonContentType (request.r.queryGet "callback")),
       http.Call.writeHeader (jsonOutcome (classify rv)).1,
       http.Call.write (jsonBody (request.r.queryGet "callback") (jsonOutcome (classify rv)).2)] := by
  unfold Request.Reply
  simp only [h, if_true]
  have hfix : "\x7b\"statusCode\":" ++ strconv.Itoa 500 ++ ",\"message\":\"" ++
      http.StatusText 500 ++ "\"\x7d" = fixedErrorText := by decide
  rw [hfix]
  by_cases hcb : request.r.queryGet "callback" = ""
  · cases hm : json.Marshal (classify rv).jsonData <;>
      simp [hcb, hm, jsonContentType, jsonBody, jsonOutcome, http.ResponseWriter.HeaderSet,
        http.ResponseWriter.WriteHeader, http.ResponseWriter.Write]
  · cases hm : json.Marshal (classify rv).jsonData <;>
      simp [hcb, hm, jsonContentType, jsonBody, jsonOutcome, http.ResponseWriter.HeaderSet,
        http.ResponseWriter.WriteHeader, http.ResponseWriter.Write]

/-- What the client sees of a JSON-classified reply on a new writer. -/
theorem Reply_json_seen (request : Request) (rv : ReplyValue)
    (h : (classify rv).jsonTrig = true) (fresh : request.w = []) :
    (request.Reply rv).status = (jsonOutcome (classify rv)).1 ∧
    (request.Reply rv).contentType = some (jsonContentType (request.r.queryGet "callback")) ∧
    (request.Reply rv).body =
      jsonBody (request.r.queryGet "callback") (jsonOutcome (classify rv)).2 := by
  rw [Reply_json request rv h, fresh, List.nil_append]
  exact ⟨status_json _ _ _, contentType_json _ _ _, body_json _ _ _⟩

theorem classify_Success_zero (s : Success) (h : s.StatusCode = 0) :
    classify (ReplyValue.Success s) =
      { jsonTrig := true,
        jsonData := ({ s with StatusCode := 200, Message := "OK" } : Success).toValue,
        result := "", header := 200 } := by
  simp [classify, h, http.StatusText]

theorem classify_Error_zero (e : Error) (h : e.StatusCode = 0) :
    classify (ReplyValue.Error e) =
      { jsonTrig := true,
        jsonData :=
          ({ e with StatusCode := 500, Message := "Internal Server Error" } : Error).toValue,
        result := "", header := 500 } := by
  simp [classify, h, http.StatusText]

theorem classify_Success_unknown (s : Success) (h : s.StatusCode ≠ 0)
    (hu : http.StatusText s.StatusCode = "") :
    classify (ReplyValue.Success s) =
      { jsonTrig := true, jsonData := s.toValue, result := "", header := 200 } := by
  simp [classify, h, hu]

theorem classify_Error_unknown (e : Error) (h : e.StatusCode ≠ 0)
    (hu : http.StatusText e.StatusCode = "") :
    classify (ReplyValue.Error e) =
      { jsonTrig := true, jsonData := e.toValue, result := "", header := 500 } := by
  simp [classify, h, hu]

theorem classify_Success_known (s : Success) (h : s.StatusCode ≠ 0)
    (hk : http.StatusText s.StatusCode ≠ "") :
    classify (ReplyValue.Success s) =
      { jsonTrig := true,
        jsonData := ({ s with Message :=
          if s.Message = "" then http.StatusText s.StatusCode else s.Message } : Success).toValue,
        result := "", header := s.StatusCode } := by
  by_cases hm : s.Message = ""
  · simp [classify, h, hk, hm]
  · simp [classify, h, hk, hm]

theorem classify_Error_known (e : Error) (h : e.StatusCode ≠ 0)
    (hk : http.StatusText e.StatusCode ≠ "") :
    classify (ReplyValue.Error e) =
      { jsonTrig := true,
        jsonData := ({ e with Message :=
          if e.Message = "" then http.StatusText e.StatusCode else e.Message } : Error).toValue,
        result := "", header := e.StatusCode } := by
  by_cases hm : e.Message = ""
  · simp [classify, h, hk, hm]
  · simp [classify, h, hk, hm]

end request

namespace request

theorem jsonOutcome_some {c : Classified} {text : String}
    (h : json.Marshal c.jsonData = some text) : jsonOutcome c = (c.header, text) := by
  simp [jsonOutcome, h]

theorem jsonOutcome_none {c : Classified} (h : json.Marshal c.jsonData = none) :
    jsonOutcome c = (500, fixedErrorText) := by
  simp [jsonOutcome, h]

/-- The calls of Reply on a JSON-classified value that serializes. -/
theorem Reply_json_some (request : Request) (rv : ReplyValue) (c : Classified) (text : String)
    (hc : classify rv = c) (ht : c.jsonTrig = true) (hm : json.Marshal c.jsonData = some text) :
    request.Reply rv = request.w ++ jsonCalls (request.r.queryGet "callback") c.header text := by
  subst hc
  rw [Reply_json request rv ht, jsonOutcome_some hm]
  rfl

/-- The calls of Reply on a JSON-classified value that does not serialize. -/
theorem Reply_json_none (request : Request) (rv : ReplyValue) (c : Classified)
    (hc : classify rv = c) (ht : c.jsonTrig = true) (hm : json.Marshal c.jsonData = none) :
    request.Reply rv = request.w ++ jsonCalls (request.r.queryGet "callback") 500
      "\x7b\"statusCode\":500,\"message\":\"Internal Server Error\"\x7d" := by
  subst hc
  rw [Reply_json request rv ht, jsonOutcome_none hm]
  rfl

theorem jsonCalls_no_callback (code : Int) (text : String) :
    jsonCalls "" code text =
      [http.Call.setHeader "Content-Type" "application/json", http.Call.writeHeader code,
       http.Call.write text] := by
  simp [jsonCalls, jsonContentType, jsonBody]

/-- C9 (amended): a structured reply whose StatusCode is zero gets the default
of its type, whatever Message it carries.  For a Success that serializes Reply
sets the JSON content type, writes the status 200 and writes the JSON of the
value with statusCode 200 and message OK.  For an Error it writes the status
500 and the JSON of the value with statusCode 500 and message Internal Server
Error, or the fixed text with the same two members when the value does not
serialize.  Without a callback the content type is application/json and the
body is the bare JSON text; Success and Error without any field give exactly
the two default bodies. -/
theorem C9_zero_status_code_uses_default (req : Request) (s : Success) (e : Error)
    (hs : s.StatusCode = 0) (he : e.StatusCode = 0) :
    (∀ text,
      json.Marshal ({ s with StatusCode := 200, Message := "OK" } : Success).toValue = some text →
      req.Reply (ReplyValue.Success s) =
        req.w ++ jsonCalls (req.r.queryGet "callback") 200 text) ∧
    (∀ text,
      json.Marshal ({ e with StatusCode := 500, Message := "Internal Server Error" } :
        Error).toValue = some text →
      req.Reply (ReplyValue.Error e) =
        req.w ++ jsonCalls (req.r.queryGet "callback") 500 text) ∧
    (json.Marshal ({ e with StatusCode := 500, Message := "Internal Server Error" } :
        Error).toValue = none →
      req.Reply (ReplyValue.Error e) =
        req.w ++ jsonCalls (req.r.queryGet "callback") 500
          "\x7b\"statusCode\":500,\"message\":\"Internal Server Error\"\x7d") ∧
    (∀ code text, jsonCalls "" code text =
      [http.Call.setHeader "Content-Type" "application/json", http.Call.writeHeader code,
       http.Call.write text]) ∧
    (req.r.queryGet "callback" = "" →
      req.Reply (ReplyValue.Success {}) = req.w ++
        [http.Call.setHeader "Content-Type" "application/json", http.Call.writeHeader 200,
         http.Call.write "\x7b\"statusCode\":200,\"message\":\"OK\"\x7d"] ∧
      req.Reply (ReplyValue.Error {}) = req.w ++
        [http.Call.setHeader "Content-Type" "application/json", http.Call.writeHeader 500,
         http.Call.write "\x7b\"statusCode\":500,\"message\":\"Internal Server Error\"\x7d"]) := by
  refine ⟨?_, ?_, ?_, jsonCalls_no_callback, ?_⟩
  · intro text hm
    exact Reply_json_some req _ _ text (classify_Success_zero s hs) rfl hm
  · intro text hm
    exact Reply_json_some req _ _ text (classify_Error_zero e he) rfl hm
  · intro hm
    exact Reply_json_none req _ _ (classify_Error_zero e he) rfl hm
  · intro hcb
    constructor
    · rw [Reply_json_some req _ _ "\x7b\"statusCode\":200,\"message\":\"OK\"\x7d"
        (classify_Success_zero {} rfl) rfl (by decide), hcb, jsonCalls_no_callback]
    · rw [Reply_json_some req _ _
        "\x7b\"statusCode\":500,\"message\":\"Internal Server Error\"\x7d"
        (classify_Error_zero {} rfl) rfl (by decide), hcb, jsonCalls_no_callback]

/-- Witness of C9 (amended): a Success with only a Message, on a request
without callback. -/
theorem C9_zero_status_code_uses_default_witness :
    (exampleRequest "").Reply (ReplyValue.Success { Message := "hello" }) =
      [] ++ jsonCalls "" 200 "\x7b\"statusCode\":200,\"message\":\"OK\"\x7d" :=
  (C9_zero_status_code_uses_default (exampleRequest "") { Message := "hello" }
    { Message := "hello" } rfl rfl).1 "\x7b\"statusCode\":200,\"message\":\"OK\"\x7d" (by decide)

/-- C9 as stated fails for a Success whose Data does not serialize: with a
channel as Data and StatusCode zero Reply writes the status 500 and the fixed
error text, not the status 200 and a body with message OK. -/
theorem C9_counterexample :
    (exampleRequest "").Reply (ReplyValue.Success { Data := GoValue.chan }) =
      [http.Call.setHeader "Content-Type" "application/json", http.Call.writeHeader 500,
       http.Call.write "\x7b\"statusCode\":500,\"message\":\"Internal Server Error\"\x7d"] ∧
    ((exampleRequest "").Reply (ReplyValue.Success { Data := GoValue.chan })).status = 500 := by
  decide

/-- C2 (amended): for a Success that serializes and whose StatusCode is
non-zero without a known reason phrase, Reply writes the status 200 rather
than the caller's code, and the body is the JSON of the value as the caller
gave it: its statusCode member is the caller's code and its message is the
caller's Message, left out when empty.  For every such Error Reply writes
the status 500, whether the Error serializes or not; when it serializes the
body is likewise the JSON of the value as given, and when it does not the body
is the fixed error text. -/
theorem C2_unknown_status_code (req : Request) (s : Success) (e : Error)
    (hs : s.StatusCode ≠ 0) (hsu : http.StatusText s.StatusCode = "")
    (he : e.StatusCode ≠ 0) (heu : http.StatusText e.StatusCode = "") :
    (∀ text, json.Marshal s.toValue = some text →
      req.Reply (ReplyValue.Success s) =
        req.w ++ jsonCalls (req.r.queryGet "callback") 200 text) ∧
    s.toValue = GoValue.struct (Fields.ofList
      ((if s.ID = "" then [] else [("id", GoValue.str s.ID)]) ++
       [("statusCode", GoValue.int s.StatusCode)] ++
       (if s.Message = "" then [] else [("message", GoValue.str s.Message)]) ++
       (if s.Data.isNil then [] else [("data", s.Data)]))) ∧
    (∀ text, json.Marshal e.toValue = some text →
      req.Reply (ReplyValue.Error e) =
        req.w ++ jsonCalls (req.r.queryGet "callback") 500 text) ∧
    e.toValue = GoValue.struct (Fields.ofList
      ((if e.ID = "" then [] else [("id", GoValue.str e.ID)]) ++
       [("statusCode", GoValue.int e.StatusCode)] ++
       (if e.Message = "" then [] else [("message", GoValue.str e.Message)]) ++
       (if e.Error.isNil then [] else [("error", e.Error)]))) ∧
    (json.Marshal e.toValue = none →
      req.Reply (ReplyValue.Error e) =
        req.w ++ jsonCalls (req.r.queryGet "callback") 500
          "\x7b\"statusCode\":500,\"message\":\"Internal Server Error\"\x7d") ∧
    (∃ text, req.Reply (ReplyValue.Error e) =
      req.w ++ jsonCalls (req.r.queryGet "callback") 500 text) ∧
    (req.w = [] → (req.Reply (ReplyValue.Error e)).status = 500) := by
  have hnone : json.Marshal e.toValue = none →
      req.Reply (ReplyValue.Error e) =
        req.w ++ jsonCalls (req.r.queryGet "callback") 500
          "\x7b\"statusCode\":500,\"message\":\"Internal Server Error\"\x7d" :=
    fun hm => Reply_json_none req _ _ (classify_Error_unknown e he heu) rfl hm
  have hsome : ∀ text, json.Marshal e.toValue = some text →
      req.Reply (ReplyValue.Error e) =
        req.w ++ jsonCalls (req.r.queryGet "callback") 500 text :=
    fun text hm => Reply_json_some req _ _ text (classify_Error_unknown e he heu) rfl hm
  have hany : ∃ text, req.Reply (ReplyValue.Error e) =
      req.w ++ jsonCalls (req.r.queryGet "callback") 500 text := by
    cases hm : json.Marshal e.toValue with
    | none => exact ⟨_, hnone hm⟩
    | some text => exact ⟨text, hsome text hm⟩
  refine ⟨?_, ?_, hsome, ?_, hnone, hany, ?_⟩
  · intro text hm
    exact Reply_json_some req _ _ text (classify_Success_unknown s hs hsu) rfl hm
  · simp [Success.toValue, hs]
  · simp [Error.toValue, he]
  · intro hw
    obtain ⟨text, ht⟩ := hany
    rw [ht, hw]
    rfl

/-- Witness of C2 (amended): the code 999 on a Success, without callback, and
on an Error whose Error value is a channel and does not serialize. -/
theorem C2_unknown_status_code_witness :
    (exampleRequest "").Reply (ReplyValue.Success { StatusCode := 999 }) =
      [] ++ jsonCalls "" 200 "\x7b\"statusCode\":999\x7d" ∧
    (exampleRequest "").Reply
        (ReplyValue.Error { StatusCode := 999, Error := GoValue.chan }) =
      [] ++ jsonCalls "" 500
        "\x7b\"statusCode\":500,\"message\":\"Internal Server Error\"\x7d" :=
  ⟨(C2_unknown_status_code (exampleRequest "") { StatusCode := 999 }
      { StatusCode := 999, Message := "odd" } (by decide) (by decide) (by decide)
      (by decide)).1 "\x7b\"statusCode\":999\x7d" (by decide),
   (C2_unknown_status_code (exampleRequest "") { StatusCode := 999 }
      { StatusCode := 999, Error := GoValue.chan } (by decide) (by decide) (by decide)
      (by decide)).2.2.2.2.1 (by decide)⟩

/-- C2 as stated fails: for the Success with the unknown code 999 Reply writes
the status 200 but the body keeps statusCode 999 and has no message, so it is
not the default success body; for the Error with code 999 the body keeps 999
as well; and with a channel as Data the Success is answered with the status 500
and the fixed error text. -/
theorem C2_counterexample :
    http.StatusText 999 = "" ∧
    (exampleRequest "").Reply (ReplyValue.Success { StatusCode := 999 }) =
      [http.Call.setHeader "Content-Type" "application/json", http.Call.writeHeader 200,
       http.Call.write "\x7b\"statusCode\":999\x7d"] ∧
    ((exampleRequest "").Reply (ReplyValue.Success { StatusCode := 999 })).body ≠
      "\x7b\"statusCode\":200,\"message\":\"OK\"\x7d" ∧
    (exampleRequest "").Reply (ReplyValue.Error { StatusCode := 999 }) =
      [http.Call.setHeader "Content-Type" "application/json", http.Call.writeHeader 500,
       http.Call.write "\x7b\"statusCode\":999\x7d"] ∧
    ((exampleRequest "").Reply (ReplyValue.Error { StatusCode := 999 })).body ≠
      "\x7b\"statusCode\":500,\"message\":\"Internal Server Error\"\x7d" ∧
    (exampleRequest "").Reply
        (ReplyValue.Success { StatusCode := 999, Data := GoValue.chan }) =
      [http.Call.setHeader "Content-Type" "application/json", http.Call.writeHeader 500,
       http.Call.write "\x7b\"statusCode\":500,\"message\":\"Internal Server Error\"\x7d"] := by
  decide

/-- C10 (amended): for a Success or an Error that serializes and whose
StatusCode is non-zero with a known reason phrase, Reply writes that
StatusCode as the HTTP status, and the body is the JSON of the value with that
statusCode and with the caller's Message when it is non-empty, the reason
phrase of the code otherwise. -/
theorem C10_known_status_code (req : Request) (s : Success) (e : Error)
    (hs : s.StatusCode ≠ 0) (hsk : http.StatusText s.StatusCode ≠ "")
    (he : e.StatusCode ≠ 0) (hek : http.StatusText e.StatusCode ≠ "") :
    (∀ text,
      json.Marshal ({ s with Message :=
        if s.Message = "" then http.StatusText s.StatusCode else s.Message } :
          Success).toValue = some text →
      req.Reply (ReplyValue.Success s) =
        req.w ++ jsonCalls (req.r.queryGet "callback") s.StatusCode text) ∧
    (∀ text,
      json.Marshal ({ e with Message :=
        if e.Message = "" then http.StatusText e.StatusCode else e.Message } :
          Error).toValue = some text →
      req.Reply (ReplyValue.Error e) =
        req.w ++ jsonCalls (req.r.queryGet "callback") e.StatusCode text) := by
  constructor
  · intro text hm
    exact Reply_json_some req _ _ text (classify_Success_known s hs hsk) rfl hm
  · intro text hm
    exact Reply_json_some req _ _ text (classify_Error_known e he hek) rfl hm

/-- Witness of C10 (amended): Success with code 200 and message done keeps
done; Error with code 400 and no message gets Bad Request. -/
theorem C10_known_status_code_witness :
    (exampleRequest "").Reply (ReplyValue.Success { StatusCode := 200, Message := "done" }) =
      [] ++ jsonCalls "" 200 "\x7b\"statusCode\":200,\"message\":\"done\"\x7d" ∧
    (exampleRequest "").Reply (ReplyValue.Error { StatusCode := 400 }) =
      [] ++ jsonCalls "" 400 "\x7b\"statusCode\":400,\"message\":\"Bad Request\"\x7d" :=
  have h := C10_known_status_code (exampleRequest "") { StatusCode := 200, Message := "done" }
    { StatusCode := 400 } (by decide) (by decide) (by decide) (by decide)
  ⟨h.1 "\x7b\"statusCode\":200,\"message\":\"done\"\x7d" (by decide),
   h.2 "\x7b\"statusCode\":400,\"message\":\"Bad Request\"\x7d" (by decide)⟩

/-- C10 as stated fails for a value that does not serialize: for the Error
with the known code 400 and a channel as Error value Reply writes the status
500 and the fixed error text, not the status 400 and message Bad Request. -/
theorem C10_counterexample :
    http.StatusText 400 = "Bad Request" ∧
    (exampleRequest "").Reply
        (ReplyValue.Error { StatusCode := 400, Error := GoValue.chan }) =
      [http.Call.setHeader "Content-Type" "application/json", http.Call.writeHeader 500,
       http.Call.write "\x7b\"statusCode\":500,\"message\":\"Internal Server Error\"\x7d"] := by
  decide

end request

namespace server

/-- The page handler in terms of `puf`: the structured 404 when matchAll is
false, `puf` ends in a slash and the request path differs from `puf`;
otherwise the template is executed, and a failure is answered with the
structured 500. -/
theorem pageHandler_cases (server : Server) (p : page.Page) (w : http.ResponseWriter)
    (r : http.Request) :
    ((p.MatchAll = false ∧ strings.HasSuffix (server.puf p) "/" = true ∧
        server.puf p ≠ r.urlPath) →
      server.pageHandler p w r =
        (request.New { Request := r, Writer := w }).Reply
          (request.ReplyValue.Error { StatusCode := 404 })) ∧
    (¬ (p.MatchAll = false ∧ strings.HasSuffix (server.puf p) "/" = true ∧
        server.puf p ≠ r.urlPath) →
      server.pageHandler p w r =
        (match p.TemplateExecute w GoValue.nil with
         | (w1, some err) =>
           (request.New { Request := r, Writer := w1 }).Reply
             (request.ReplyValue.Error { StatusCode := 500, Internal := GoValue.error err })
         | (w1, none) => w1)) := by
  constructor
  · rintro ⟨h1, h2, h3⟩
    unfold Server.pageHandler
    simp [h1, h2, h3]
  · intro h
    have hcond : (!p.MatchAll && strings.HasSuffix (server.puf p) "/" &&
        decide (server.puf p ≠ r.urlPath)) = false := by
      cases h1 : p.MatchAll
      · cases h2 : strings.HasSuffix (server.puf p) "/"
        · simp
        · by_cases h3 : server.puf p = r.urlPath
          · simp [h3]
          · exact absurd ⟨h1, h2, h3⟩ h
      · simp
    unfold Server.pageHandler
    simp only [hcond, Bool.false_eq_true, if_false]

/-- On a server with a path prefix `puf` is the pattern the page is registered
under; without one it is that pattern only when the URL path of the page
starts with exactly one slash. -/
theorem puf_eq_effectivePattern (server : Server) (p : page.Page) :
    (server.pathRoot ≠ "" → server.puf p = server.effectivePattern p.URLPath) ∧
    (server.pathRoot = "" → strings.HasPrefix p.URLPath "/" = true →
      strings.HasPrefix p.URLPath "//" = false →
      server.puf p = server.effectivePattern p.URLPath) := by
  constructor
  · intro h
    simp [Server.puf, Server.effectivePattern, h]
  · intro h h1 h2
    simp only [Server.puf, Server.effectivePattern, h, ne_eq, not_true_eq_false, if_false]
    apply String.ext
    rw [String.data_append]
    have hs : ("/" : String).data = ['/'] := rfl
    have hss : ("//" : String).data = ['/', '/'] := rfl
    simp only [strings.HasPrefix, strings.TrimLeft, hs, hss] at h1 h2 ⊢
    cases hd : p.URLPath.data with
    | nil => rw [hd] at h1; simp [List.isPrefixOf] at h1
    | cons c cs =>
      rw [hd] at h1 h2
      have hc : c = '/' := by
        simp [List.isPrefixOf] at h1
        exact h1.symm
      subst hc
      rw [strings.dropWhile_slash_cons]
      have h3 : ['/'].isPrefixOf cs = false := by
        cases cs with
        | nil => rfl
        | cons d ds =>
          simp only [List.isPrefixOf, beq_self_eq_true, Bool.true_and, Bool.and_true] at h2 ⊢
          exact h2
      rw [strings.dropWhile_slash_of_no_leading_slash cs h3]
      rfl

end server

namespace server

/-- C1 at its failing input: on a server without path prefix the page with
URL path `foo/` and matchAll=false is registered under `/foo/`, yet its
handler answers the request for `/foo/` with the structured 404, because it
compares the request path with the URL path as given; under the prefix `x`
the same page renders for `/x/foo/`. -/
theorem C1_page_without_leading_slash_gets_404 :
    (New examplePlatform {}).effectivePattern "foo/" = "/foo/" ∧
    (New examplePlatform {}).pageHandler
        { urlPath := "foo/", matchAll := false, template := some fooTemplate } []
        (exampleGet "/foo/") =
      [http.Call.setHeader "Content-Type" "application/json", http.Call.writeHeader 404,
       http.Call.write "\x7b\"statusCode\":404,\"message\":\"Not Found\"\x7d"] ∧
    (New examplePlatform { PathPrefix := "x" }).effectivePattern "foo/" = "/x/foo/" ∧
    (New examplePlatform { PathPrefix := "x" }).pageHandler
        { urlPath := "foo/", matchAll := false, template := some fooTemplate } []
        (exampleGet "/x/foo/") = [http.Call.write "foo"] := by
  decide

/-- C5 (amended): when the handler of a page executes the template on a new
writer and the execution fails before anything is written, the client gets
HTTP status 500, the content type of a JSON reply (application/json without a
callback) and the fixed error text as body (bare without a callback); the
render error travels only as Internal of the Error handed to Reply. -/
theorem C5_render_failure_gives_500 (server : Server) (p : page.Page) (r : http.Request)
    (err : String)
    (hserve : p.MatchAll = true ∨ strings.HasSuffix (server.puf p) "/" = false ∨
      server.puf p = r.urlPath)
    (hfail : p.TemplateExecute [] GoValue.nil = ([], some err)) :
    server.pageHandler p [] r =
      (request.New { Request := r, Writer := [] }).Reply
        (request.ReplyValue.Error { StatusCode := 500, Internal := GoValue.error err }) ∧
    (server.pageHandler p [] r).status = 500 ∧
    (server.pageHandler p [] r).contentType =
      some (request.jsonContentType (r.queryGet "callback")) ∧
    (server.pageHandler p [] r).body =
      request.jsonBody (r.queryGet "callback")
        "\x7b\"statusCode\":500,\"message\":\"Internal Server Error\"\x7d" ∧
    (r.queryGet "callback" = "" →
      (server.pageHandler p [] r).contentType = some "application/json" ∧
      (server.pageHandler p [] r).body =
        "\x7b\"statusCode\":500,\"message\":\"Internal Server Error\"\x7d") := by
  have hcond : (!p.MatchAll && strings.HasSuffix (server.puf p) "/" &&
      decide (server.puf p ≠ r.urlPath)) = false := by
    rcases hserve with h | h | h
    · simp [h]
    · simp [h]
    · simp [h]
  have hrun : server.pageHandler p [] r =
      (request.New { Request := r, Writer := [] }).Reply
        (request.ReplyValue.Error { StatusCode := 500, Internal := GoValue.error err }) := by
    unfold Server.pageHandler
    simp only [hcond, Bool.false_eq_true, if_false, hfail]
  have hclass : request.classify
      (request.ReplyValue.Error { StatusCode := 500, Internal := GoValue.error err }) =
      { jsonTrig := true,
        jsonData := ({ StatusCode := 500, Message := "Internal Server Error" } :
          request.Error).toValue,
        result := "", header := 500 } := by
    simp [request.classify, http.StatusText, request.Error.toValue]
  have hseen := request.Reply_json_seen (request.New { Request := r, Writer := [] })
    (request.ReplyValue.Error { StatusCode := 500, Internal := GoValue.error err })
    (by rw [hclass]) rfl
  have hout : request.jsonOutcome (request.classify
      (request.ReplyValue.Error { StatusCode := 500, Internal := GoValue.error err })) =
      (500, "\x7b\"statusCode\":500,\"message\":\"Internal Server Error\"\x7d") := by
    rw [hclass]
    decide
  rw [hout] at hseen
  rw [hrun]
  have hq : (request.New { Request := r, Writer := [] }).r.queryGet "callback"
      = r.queryGet "callback" := rfl
  rw [hq] at hseen
  refine ⟨rfl, hseen.1, hseen.2.1, hseen.2.2, ?_⟩
  intro hcb
  rw [hcb] at hseen
  exact ⟨hseen.2.1, hseen.2.2⟩

/-- Witness of C5 (amended): the page `/foo` whose template fails on a missing
field before writing, requested without callback. -/
theorem C5_render_failure_gives_500_witness :
    ((New examplePlatform {}).pageHandler
      { urlPath := "/foo", template := some failingTemplate } [] (exampleGet "/foo")).status
        = 500 ∧
    ((New examplePlatform {}).pageHandler
      { urlPath := "/foo", template := some failingTemplate } [] (exampleGet "/foo")).contentType
        = some "application/json" ∧
    ((New examplePlatform {}).pageHandler
      { urlPath := "/foo", template := some failingTemplate } [] (exampleGet "/foo")).body
        = "\x7b\"statusCode\":500,\"message\":\"Internal Server Error\"\x7d" :=
  have h := C5_render_failure_gives_500 (New examplePlatform {})
    { urlPath := "/foo", template := some failingTemplate } (exampleGet "/foo")
    "failed to execute template due to can't evaluate field Body" (Or.inr (Or.inl (by decide)))
    rfl
  ⟨h.2.1, (h.2.2.2.2 (by decide)).1, (h.2.2.2.2 (by decide)).2⟩

/-- C5 as stated fails in two ways.  When the template has written `Hello `
before it fails, the header has gone out with that output: the status is 200,
no JSON content type is sent, and the error text follows the partial output
in the body.  And when the request carries the callback `cb`, the content
type is application/javascript and the body is the error text wrapped in a
call of `cb`. -/
theorem C5_counterexample :
    ((New examplePlatform {}).pageHandler
      { urlPath := "/foo", template := some partialTemplate } [] (exampleGet "/foo")).status
        = 200 ∧
    ((New examplePlatform {}).pageHandler
      { urlPath := "/foo", template := some partialTemplate } [] (exampleGet "/foo")).contentType
        = none ∧
    ((New examplePlatform {}).pageHandler
      { urlPath := "/foo", template := some partialTemplate } [] (exampleGet "/foo")).body
        = "Hello \x7b\"statusCode\":500,\"message\":\"Internal Server Error\"\x7d" ∧
    ((New examplePlatform {}).pageHandler
      { urlPath := "/foo", template := some failingTemplate } []
      { urlPath := "/foo", query := [("callback", "cb")], header := [] }).contentType
        = some "application/javascript" ∧
    ((New examplePlatform {}).pageHandler
      { urlPath := "/foo", template := some failingTemplate } []
      { urlPath := "/foo", query := [("callback", "cb")], header := [] }).body
        = "cb(\x7b\"statusCode\":500,\"message\":\"Internal Server Error\"\x7d)" := by
  decide

end server

namespace request

theorem classify_json_iff (rv : ReplyValue) :
    (classify rv).jsonTrig = true ↔
      ((∃ s, rv = ReplyValue.Success s) ∨ (∃ e, rv = ReplyValue.Error e) ∨
       (∃ v printed, rv = ReplyValue.other v printed ∧ indirectIsStruct v = true)) := by
  cases rv with
  | nil => simp [classify]
  | bytes b => simp [classify]
  | string s => simp [classify]
  | int n => simp [classify]
  | int64 n => simp [classify]
  | float64 f => simp [classify]
  | Success s =>
    simp only [classify]
    split_ifs <;> simp
  | Error e =>
    simp only [classify]
    split_ifs <;> simp
  | other v printed =>
    simp only [classify]
    split_ifs with h <;> simp [h]

/-- C11: for every JSON-classified reply (every Success, every Error, every
other value of struct kind), with the JSON text Reply has produced for it:
when the callback parameter of the request is a non-empty `cb`, Reply sets the
content type application/javascript and writes as body exactly `cb`, an
opening bracket, the JSON text and a closing bracket; when the callback is
absent or empty, it sets application/json and writes the JSON text alone. -/
theorem C11_callback_selects_content_type_and_wrapping (req : Request) (rv : ReplyValue)
    (h : (classify rv).jsonTrig = true) :
    (req.r.queryGet "callback" ≠ "" →
      req.Reply rv = req.w ++
        [http.Call.setHeader "Content-Type" "application/javascript",
         http.Call.writeHeader (jsonOutcome (classify rv)).1,
         http.Call.write
           (req.r.queryGet "callback" ++ "(" ++ (jsonOutcome (classify rv)).2 ++ ")")]) ∧
    (req.r.queryGet "callback" = "" →
      req.Reply rv = req.w ++
        [http.Call.setHeader "Content-Type" "application/json",
         http.Call.writeHeader (jsonOutcome (classify rv)).1,
         http.Call.write (jsonOutcome (classify rv)).2]) ∧
    (∀ text, json.Marshal (classify rv).jsonData = some text →
      (jsonOutcome (classify rv)).2 = text) ∧
    (∀ s, (classify (ReplyValue.Success s)).jsonTrig = true) ∧
    (∀ e, (classify (ReplyValue.Error e)).jsonTrig = true) ∧
    (∀ fields printed,
      (classify (ReplyValue.other (GoValue.struct fields) printed)).jsonTrig = true) := by
  refine ⟨?_, ?_, ?_, ?_, ?_, ?_⟩
  · intro hcb
    rw [Reply_json req rv h]
    simp [jsonContentType, jsonBody, hcb]
  · intro hcb
    rw [Reply_json req rv h]
    simp [jsonContentType, jsonBody, hcb]
  · intro text hm
    rw [jsonOutcome_some hm]
  · intro s
    exact (classify_json_iff _).mpr (Or.inl ⟨s, rfl⟩)
  · intro e
    exact (classify_json_iff _).mpr (Or.inr (Or.inl ⟨e, rfl⟩))
  · intro fields printed
    exact (classify_json_iff _).mpr (Or.inr (Or.inr ⟨_, _, rfl, rfl⟩))

/-- Witness of C11: the replies of TestReply with the callback `cb`, an Error
with code 400 and a struct with one field. -/
theorem C11_callback_selects_content_type_and_wrapping_witness :
    (exampleRequest "cb").Reply (ReplyValue.Error { StatusCode := 400 }) =
      [http.Call.setHeader "Content-Type" "application/javascript", http.Call.writeHeader 400,
       http.Call.write "cb(\x7b\"statusCode\":400,\"message\":\"Bad Request\"\x7d)"] ∧
    (exampleRequest "").Reply
        (ReplyValue.other (GoValue.struct (Fields.cons "Test" (GoValue.str "test") Fields.nil))
          "") =
      [http.Call.setHeader "Content-Type" "application/json", http.Call.writeHeader 200,
       http.Call.write "\x7b\"Test\":\"test\"\x7d"] :=
  ⟨((C11_callback_selects_content_type_and_wrapping (exampleRequest "cb")
      (ReplyValue.Error { StatusCode := 400 }) (by decide)).1 (by decide)).trans (by decide),
   ((C11_callback_selects_content_type_and_wrapping (exampleRequest "")
      (ReplyValue.other (GoValue.struct (Fields.cons "Test" (GoValue.str "test") Fields.nil))
        "") (by decide)).2.1 (by decide)).trans (by decide)⟩

/-- C12: for every JSON-classified reply whose JSON serialization fails, Reply
still makes its three calls: it writes the status 500, whatever status the
reply carried, and the JSON text is exactly the fixed error text, wrapped in a
call of `cb` with content type application/javascript when the callback `cb`
is given, bare with application/json otherwise.  On a new writer the client
sees the status 500. -/
theorem C12_serialization_failure_gives_fixed_500 (req : Request) (rv : ReplyValue)
    (h : (classify rv).jsonTrig = true)
    (hm : json.Marshal (classify rv).jsonData = none) :
    (req.r.queryGet "callback" ≠ "" →
      req.Reply rv = req.w ++
        [http.Call.setHeader "Content-Type" "application/javascript",
         http.Call.writeHeader 500,
         http.Call.write (req.r.queryGet "callback" ++ "(" ++
           "\x7b\"statusCode\":500,\"message\":\"Internal Server Error\"\x7d" ++ ")")]) ∧
    (req.r.queryGet "callback" = "" →
      req.Reply rv = req.w ++
        [http.Call.setHeader "Content-Type" "application/json",
         http.Call.writeHeader 500,
         http.Call.write "\x7b\"statusCode\":500,\"message\":\"Internal Server Error\"\x7d"]) ∧
    (req.w = [] → (req.Reply rv).status = 500) := by
  have hr := Reply_json_none req rv _ rfl h hm
  refine ⟨?_, ?_, ?_⟩
  · intro hcb
    rw [hr]
    simp [jsonCalls, jsonContentType, jsonBody, hcb]
  · intro hcb
    rw [hr, hcb, jsonCalls_no_callback]
  · intro hw
    rw [hr, hw]
    rfl

/-- Witness of C12: the channel replies of TestReply, an Error that carries a
code and a channel with the callback `cb`, and a struct with a channel field
without callback. -/
theorem C12_serialization_failure_gives_fixed_500_witness :
    (exampleRequest "cb").Reply
        (ReplyValue.Error { StatusCode := 400, Error := GoValue.chan }) =
      [http.Call.setHeader "Content-Type" "application/javascript", http.Call.writeHeader 500,
       http.Call.write
         "cb(\x7b\"statusCode\":500,\"message\":\"Internal Server Error\"\x7d)"] ∧
    (exampleRequest "").Reply
        (ReplyValue.other (GoValue.struct (Fields.cons "Test" GoValue.chan Fields.nil)) "") =
      [http.Call.setHeader "Content-Type" "application/json", http.Call.writeHeader 500,
       http.Call.write "\x7b\"statusCode\":500,\"message\":\"Internal Server Error\"\x7d"] :=
  ⟨((C12_serialization_failure_gives_fixed_500 (exampleRequest "cb")
      (ReplyValue.Error { StatusCode := 400, Error := GoValue.chan }) (by decide)
      (by decide)).1 (by decide)).trans (by decide),
   ((C12_serialization_failure_gives_fixed_500 (exampleRequest "")
      (ReplyValue.other (GoValue.struct (Fields.cons "Test" GoValue.chan Fields.nil)) "")
      (by decide) (by decide)).2.1 (by decide)).trans (by decide)⟩

end request

namespace request

theorem Success_toValue_internal (s : Success) (v : GoValue) :
    ({ s with Internal := v } : Success).toValue = s.toValue := rfl

theorem Error_toValue_internal (e : Error) (v : GoValue) :
    ({ e with Internal := v } : Error).toValue = e.toValue := rfl

theorem classify_Success_internal (s : Success) (v : GoValue) :
    classify (ReplyValue.Success { s with Internal := v }) = classify (ReplyValue.Success s) := by
  simp only [classify]
  split_ifs <;> rfl

theorem classify_Error_internal (e : Error) (v : GoValue) :
    classify (ReplyValue.Error { e with Internal := v }) = classify (ReplyValue.Error e) := by
  simp only [classify]
  split_ifs <;> rfl

theorem Reply_of_classify_eq (req : Request) (rv1 rv2 : ReplyValue)
    (h : classify rv1 = classify rv2) : req.Reply rv1 = req.Reply rv2 := by
  unfold Request.Reply
  rw [h]

/-- C13: the Internal field never influences the response.  For every request
and every two Success values, or two Error values, that agree on every field
but Internal, Reply makes the same calls on the writer, so the HTTP status,
the content type and the body are the same, whatever Internal holds. -/
theorem C13_internal_never_influences_reply (req : Request) (s1 s2 : Success) (e1 e2 : Error)
    (hs : s1.ID = s2.ID ∧ s1.StatusCode = s2.StatusCode ∧ s1.Message = s2.Message ∧
      s1.Data = s2.Data)
    (he : e1.ID = e2.ID ∧ e1.StatusCode = e2.StatusCode ∧ e1.Message = e2.Message ∧
      e1.Error = e2.Error) :
    req.Reply (ReplyValue.Success s1) = req.Reply (ReplyValue.Success s2) ∧
    (req.Reply (ReplyValue.Success s1)).status = (req.Reply (ReplyValue.Success s2)).status ∧
    (req.Reply (ReplyValue.Success s1)).contentType =
      (req.Reply (ReplyValue.Success s2)).contentType ∧
    (req.Reply (ReplyValue.Success s1)).body = (req.Reply (ReplyValue.Success s2)).body ∧
    req.Reply (ReplyValue.Error e1) = req.Reply (ReplyValue.Error e2) ∧
    (req.Reply (ReplyValue.Error e1)).status = (req.Reply (ReplyValue.Error e2)).status ∧
    (req.Reply (ReplyValue.Error e1)).contentType =
      (req.Reply (ReplyValue.Error e2)).contentType ∧
    (req.Reply (ReplyValue.Error e1)).body = (req.Reply (ReplyValue.Error e2)).body := by
  have h1 : s1 = { s2 with Internal := s1.Internal } := by
    obtain ⟨a, b, c, d⟩ := hs
    cases s1
    cases s2
    simp only at a b c d
    subst a; subst b; subst c; subst d
    rfl
  have h2 : e1 = { e2 with Internal := e1.Internal } := by
    obtain ⟨a, b, c, d⟩ := he
    cases e1
    cases e2
    simp only at a b c d
    subst a; subst b; subst c; subst d
    rfl
  have hS : req.Reply (ReplyValue.Success s1) = req.Reply (ReplyValue.Success s2) := by
    rw [h1]
    exact Reply_of_classify_eq req _ _ (classify_Success_internal s2 s1.Internal)
  have hE : req.Reply (ReplyValue.Error e1) = req.Reply (ReplyValue.Error e2) := by
    rw [h2]
    exact Reply_of_classify_eq req _ _ (classify_Error_internal e2 e1.Internal)
  refine ⟨hS, ?_, ?_, ?_, hE, ?_, ?_, ?_⟩
  · rw [hS]
  · rw [hS]
  · rw [hS]
  · rw [hE]
  · rw [hE]
  · rw [hE]

/-- Witness of C13: a channel, which cannot be serialized, as Internal of a
Success and of an Error, against no Internal at all. -/
theorem C13_internal_never_influences_reply_witness :
    (exampleRequest "").Reply
        (ReplyValue.Success { ID := "a", Data := GoValue.int 7, Internal := GoValue.chan }) =
      (exampleRequest "").Reply (ReplyValue.Success { ID := "a", Data := GoValue.int 7 }) ∧
    (exampleRequest "").Reply
        (ReplyValue.Error { StatusCode := 404, Internal := GoValue.chan }) =
      (exampleRequest "").Reply (ReplyValue.Error { StatusCode := 404 }) :=
  have h := C13_internal_never_influences_reply (exampleRequest "")
    { ID := "a", Data := GoValue.int 7, Internal := GoValue.chan }
    { ID := "a", Data := GoValue.int 7 }
    { StatusCode := 404, Internal := GoValue.chan } { StatusCode := 404 }
    ⟨rfl, rfl, rfl, rfl⟩ ⟨rfl, rfl, rfl, rfl⟩
  ⟨h.1, h.2.2.2.2.1⟩

end request

namespace request

/-- The calls of Reply on a value that is not JSON-classified: one Write. -/
theorem Reply_plain (request : Request) (rv : ReplyValue)
    (h : (classify rv).jsonTrig = false) :
    request.Reply rv = request.w ++ [http.Call.write (classify rv).result] := by
  unfold Request.Reply
  simp [h, http.ResponseWriter.Write]

theorem replyCalls_json (request : Request) (rv : ReplyValue)
    (h : (classify rv).jsonTrig = true) :
    request.replyCalls rv =
      [http.Call.setHeader "Content-Type" (jsonContentType (request.r.queryGet "callback")),
       http.Call.writeHeader (jsonOutcome (classify rv)).1,
       http.Call.write (jsonBody (request.r.queryGet "callback") (jsonOutcome (classify rv)).2)] := by
  unfold Request.replyCalls
  rw [Reply_json request rv h, List.drop_left]

theorem replyCalls_plain (request : Request) (rv : ReplyValue)
    (h : (classify rv).jsonTrig = false) :
    request.replyCalls rv = [http.Call.write (classify rv).result] := by
  unfold Request.replyCalls
  rw [Reply_plain request rv h, List.drop_left]

/-- C15: the calls Reply itself makes on the writer.  For a JSON-classified
value (a Success, an Error, another value of struct kind) it writes the status
header exactly once; for any other value (nil, bytes, string, int, int64,
float64, unrecognized) it never writes the status header and never sets the
Content-Type header.  In every case it writes the body exactly once, as its
last call, hence after any status header. -/
theorem C15_status_header_once_body_once (req : Request) (rv : ReplyValue) :
    req.Reply rv = req.w ++ req.replyCalls rv ∧
    ((classify rv).jsonTrig = true →
      (req.replyCalls rv).countP http.Call.isWriteHeader = 1) ∧
    ((classify rv).jsonTrig = false →
      (req.replyCalls rv).countP http.Call.isWriteHeader = 0 ∧
      (req.replyCalls rv).countP http.Call.isSetContentType = 0) ∧
    (req.replyCalls rv).countP http.Call.isWrite = 1 ∧
    (∃ body, (req.replyCalls rv).getLast? = some (http.Call.write body)) ∧
    ((classify rv).jsonTrig = true ↔
      ((∃ s, rv = ReplyValue.Success s) ∨ (∃ e, rv = ReplyValue.Error e) ∨
       (∃ v printed, rv = ReplyValue.other v printed ∧ indirectIsStruct v = true))) := by
  cases h : (classify rv).jsonTrig with
  | true =>
    have hc := replyCalls_json req rv h
    refine ⟨?_, ?_, ?_, ?_, ?_, ?_⟩
    · rw [hc]; exact Reply_json req rv h
    · intro _
      rw [hc]
      simp [List.countP_cons, http.Call.isWriteHeader]
    · intro hf
      exact absurd hf (by simp)
    · rw [hc]
      simp [List.countP_cons, http.Call.isWrite]
    · rw [hc]
      exact ⟨_, rfl⟩
    · rw [← classify_json_iff, h]
  | false =>
    have hc := replyCalls_plain req rv h
    refine ⟨?_, ?_, ?_, ?_, ?_, ?_⟩
    · rw [hc]; exact Reply_plain req rv h
    · intro hf
      exact absurd hf (by simp)
    · intro _
      rw [hc]
      simp [List.countP_cons, http.Call.isWriteHeader, http.Call.isSetContentType]
    · rw [hc]
      simp [List.countP_cons, http.Call.isWrite]
    · rw [hc]
      exact ⟨_, rfl⟩
    · rw [← classify_json_iff, h]

end request

namespace request

theorem status_plain (body : String) :
    http.ResponseWriter.status [http.Call.write body] = 200 := rfl

theorem body_plain (body : String) :
    http.ResponseWriter.body [http.Call.write body] = body := by
  simp [http.ResponseWriter.body]

theorem contentType_plain (body : String) :
    http.ResponseWriter.contentType [http.Call.write body] = none := rfl

/-- C16: for a nil reply value Reply writes the empty body, for a byte slice
`b` it writes exactly `b`, for a string `s` exactly `s`, each in one Write and
without a status header; so on a new writer the client sees that body with the
default status 200, and no content type set by Reply. -/
theorem C16_nil_bytes_string_bodies (req : Request) (r : http.Request) (b s : String) :
    req.Reply ReplyValue.nil = req.w ++ [http.Call.write ""] ∧
    req.Reply (ReplyValue.bytes b) = req.w ++ [http.Call.write b] ∧
    req.Reply (ReplyValue.string s) = req.w ++ [http.Call.write s] ∧
    ((New { Request := r }).Reply ReplyValue.nil).body = "" ∧
    ((New { Request := r }).Reply ReplyValue.nil).status = 200 ∧
    ((New { Request := r }).Reply (ReplyValue.bytes b)).body = b ∧
    ((New { Request := r }).Reply (ReplyValue.bytes b)).status = 200 ∧
    ((New { Request := r }).Reply (ReplyValue.string s)).body = s ∧
    ((New { Request := r }).Reply (ReplyValue.string s)).status = 200 ∧
    ((New { Request := r }).Reply ReplyValue.nil).contentType = none ∧
    ((New { Request := r }).Reply (ReplyValue.bytes b)).contentType = none ∧
    ((New { Request := r }).Reply (ReplyValue.string s)).contentType = none := by
  have h1 : ∀ q : Request, q.Reply ReplyValue.nil = q.w ++ [http.Call.write ""] :=
    fun q => Reply_plain q _ rfl
  have h2 : ∀ q : Request, q.Reply (ReplyValue.bytes b) = q.w ++ [http.Call.write b] :=
    fun q => Reply_plain q _ rfl
  have h3 : ∀ q : Request, q.Reply (ReplyValue.string s) = q.w ++ [http.Call.write s] :=
    fun q => Reply_plain q _ rfl
  have hw : (New { Request := r }).w = [] := rfl
  refine ⟨h1 req, h2 req, h3 req, ?_, ?_, ?_, ?_, ?_, ?_, ?_, ?_, ?_⟩
  · rw [h1, hw]; exact body_plain ""
  · rw [h1, hw]; rfl
  · rw [h2, hw]; exact body_plain b
  · rw [h2, hw]; rfl
  · rw [h3, hw]; exact body_plain s
  · rw [h3, hw]; rfl
  · rw [h1, hw]; rfl
  · rw [h2, hw]; rfl
  · rw [h3, hw]; rfl

end request

namespace json

theorem identifier_char_range (c : Char) (h : c.isAlphanum = true ∨ c = '_') :
    48 ≤ c.toNat ∧ c.toNat ≤ 122 ∧ c.toNat ≠ 60 ∧ c.toNat ≠ 62 ∧ c.toNat ≠ 92 := by
  rcases h with h | h
  · simp only [Char.isAlphanum, Char.isAlpha, Char.isUpper, Char.isLower, Char.isDigit,
      Bool.or_eq_true, Bool.and_eq_true, decide_eq_true_eq] at h
    have e : c.toNat = c.val.toBitVec.toNat := rfl
    rw [e]
    simp only [ge_iff_le, UInt32.le_def, BitVec.le_def] at h
    have h65 : (65 : UInt32).toBitVec.toNat = 65 := rfl
    have h90 : (90 : UInt32).toBitVec.toNat = 90 := rfl
    have h97 : (97 : UInt32).toBitVec.toNat = 97 := rfl
    have h122 : (122 : UInt32).toBitVec.toNat = 122 := rfl
    have h48 : (48 : UInt32).toBitVec.toNat = 48 := rfl
    have h57 : (57 : UInt32).toBitVec.toNat = 57 := rfl
    rw [h65, h90, h97, h122, h48, h57] at h
    omega
  · subst h; decide

/-- A letter, a digit or an underscore is written as it is. -/
theorem encodeChar_identifier (c : Char) (h : c.isAlphanum = true ∨ c = '_') :
    encodeChar c = [c] := by
  obtain ⟨h1, h2, h3, h4, h5⟩ := identifier_char_range c h
  have ne : ∀ x : Char,
      (x.toNat < 48 ∨ 122 < x.toNat ∨ x.toNat = 60 ∨ x.toNat = 62 ∨ x.toNat = 92) → ¬ c = x := by
    intro x hx hcx
    subst hcx
    omega
  have n1 := ne '"' (by decide)
  have n2 := ne '\\' (by decide)
  have n3 := ne '\n' (by decide)
  have n4 := ne '\r' (by decide)
  have n5 := ne '\t' (by decide)
  have n6 := ne '<' (by decide)
  have n7 := ne '>' (by decide)
  have n8 := ne '&' (by decide)
  have n9 : ¬ c.toNat < 32 := by omega
  have n10 : ¬ c.toNat = 8232 := by omega
  have n11 : ¬ c.toNat = 8233 := by omega
  simp [encodeChar, n1, n2, n3, n4, n5, n6, n7, n8, n9, n10, n11]

/-- A name made of letters, digits and underscores is quoted verbatim. -/
theorem encodeString_identifier (key : String)
    (h : ∀ c ∈ key.data, c.isAlphanum = true ∨ c = '_') :
    encodeString key = "\"" ++ key ++ "\"" := by
  have hflat : key.data.flatMap encodeChar = key.data := by
    generalize key.data = l at h
    induction l with
    | nil => rfl
    | cons c cs ih =>
      rw [List.flatMap_cons, encodeChar_identifier c (h c (List.mem_cons_self _ _)),
        ih (fun d hd => h d (List.mem_cons_of_mem _ hd))]
      rfl
  unfold encodeString
  rw [hflat]

/-- The members the encoder writes for the fields of a struct: one per field,
in order, each the quoted key, a colon and the JSON text of the value. -/
theorem encodeFields_members : ∀ (fields : Fields) (parts : List String),
    encodeFields fields = some parts →
    List.Forall₂
      (fun kv part => ∃ valueText, encode kv.2 = some valueText ∧
        part = encodeString kv.1 ++ ":" ++ valueText)
      fields.toList parts
  | Fields.nil, parts, h => by
    simp only [encodeFields, Option.some.injEq] at h
    subst h
    exact List.Forall₂.nil
  | Fields.cons key value rest, parts, h => by
    simp only [encodeFields] at h
    cases hv : encode value with
    | none => rw [hv] at h; simp at h
    | some a =>
      cases hr : encodeFields rest with
      | none => rw [hv, hr] at h; simp at h
      | some ps =>
        rw [hv, hr] at h
        simp only [Option.some.injEq] at h
        subst h
        exact List.Forall₂.cons ⟨a, hv, rfl⟩ (encodeFields_members rest ps hr)

end json

theorem Fields.toList_ofList (l : List (String × GoValue)) :
    (Fields.ofList l).toList = l := by
  induction l with
  | nil => rfl
  | cons kv rest ih =>
    obtain ⟨k, v⟩ := kv
    simp [Fields.ofList, Fields.toList, ih]

namespace request

/-- The calls of Reply on a value of struct kind that serializes, and the
members of the JSON text. -/
theorem Reply_struct (req : Request) (fields : Fields) (printed text : String)
    (hm : json.Marshal (GoValue.struct fields) = some text) :
    (classify (ReplyValue.other (GoValue.struct fields) printed)).jsonData =
      GoValue.struct fields ∧
    req.Reply (ReplyValue.other (GoValue.struct fields) printed) =
      req.w ++ jsonCalls (req.r.queryGet "callback") 200 text ∧
    (∃ parts, json.encodeFields fields = some parts ∧
      text = "\x7b" ++ json.joinComma parts ++ "\x7d" ∧
      List.Forall₂
        (fun kv part => ∃ valueText, json.encode kv.2 = some valueText ∧
          part = json.encodeString kv.1 ++ ":" ++ valueText)
        fields.toList parts) := by
  have hc : classify (ReplyValue.other (GoValue.struct fields) printed) =
      { jsonTrig := true, jsonData := GoValue.struct fields, result := "", header := 200 } := by
    simp [classify, indirectIsStruct]
  refine ⟨by rw [hc], ?_, ?_⟩
  · exact Reply_json_some req _ _ text hc rfl hm
  · simp only [json.Marshal, json.encode] at hm
    cases hf : json.encodeFields fields with
    | none => rw [hf] at hm; simp at hm
    | some parts =>
      rw [hf] at hm
      simp only [Option.some.injEq] at hm
      exact ⟨parts, rfl, hm.symm, json.encodeFields_members fields parts hf⟩

/-- C18 (amended): for a reply value that is a struct other than Success and
Error and that serializes, Reply hands the value itself to the encoder,
without any status or message defaulting, and writes the status 200 and the
JSON text of the value.  That text is an object with one member per field the
encoder emits (a field tagged `-` is left out), in order, each the quoted key,
a colon and the JSON text of the field.  The key is the name the json tag of
the field gives, and the name of the field when it has no tag; a name made of
letters, digits and underscores is written verbatim. -/
theorem C18_other_struct_serialized_as_is (req : Request) (fs : List StructField)
    (printed text : String)
    (hm : json.Marshal (GoValue.ofStruct fs) = some text) :
    (classify (ReplyValue.other (GoValue.ofStruct fs) printed)).jsonData = GoValue.ofStruct fs ∧
    req.Reply (ReplyValue.other (GoValue.ofStruct fs) printed) =
      req.w ++ jsonCalls (req.r.queryGet "callback") 200 text ∧
    (∃ parts,
      text = "\x7b" ++ json.joinComma parts ++ "\x7d" ∧
      List.Forall₂
        (fun f part => ∃ valueText, json.encode f.value = some valueText ∧
          part = json.encodeString f.key ++ ":" ++ valueText)
        (fs.filter (fun f => !f.skipped)) parts) ∧
    (∀ f ∈ fs, f.jsonTag = none → f.skipped = false ∧ f.key = f.name) ∧
    (∀ key : String, (∀ c ∈ key.data, c.isAlphanum = true ∨ c = '_') →
      json.encodeString key = "\"" ++ key ++ "\"") := by
  obtain ⟨h1, h2, parts, _, h4, h5⟩ := Reply_struct req _ printed text hm
  refine ⟨h1, h2, ⟨parts, h4, ?_⟩, ?_, json.encodeString_identifier⟩
  · rw [Fields.toList_ofList] at h5
    unfold emittedFields at h5
    rw [List.forall₂_map_left_iff] at h5
    exact h5
  · intro f _ hf
    simp [StructField.skipped, StructField.key, hf]

/-- Witness of C18 (amended): the two structs of TestReply, the empty one and
the one with the field Test, without callback. -/
theorem C18_other_struct_serialized_as_is_witness :
    (exampleRequest "").Reply (ReplyValue.other (GoValue.ofStruct []) "") =
      [] ++ jsonCalls "" 200 "\x7b\x7d" ∧
    (exampleRequest "").Reply
        (ReplyValue.other (GoValue.ofStruct [{ name := "Test", value := GoValue.str "test" }])
          "") =
      [] ++ jsonCalls "" 200 "\x7b\"Test\":\"test\"\x7d" :=
  ⟨(C18_other_struct_serialized_as_is (exampleRequest "") [] "" "\x7b\x7d" (by decide)).2.1,
   (C18_other_struct_serialized_as_is (exampleRequest "")
      [{ name := "Test", value := GoValue.str "test" }] "" "\x7b\"Test\":\"test\"\x7d"
      (by decide)).2.1⟩

/-- C18 as stated fails for a struct whose fields carry json tags: the struct
with the one field StatusCode, tagged `statusCode` as the field of Error is,
is written with the key of the tag and not with the name of the field. -/
theorem C18_counterexample :
    (exampleRequest "").Reply
        (ReplyValue.other
          (GoValue.ofStruct
            [{ name := "StatusCode", jsonTag := some "statusCode", value := GoValue.int 400 }])
          "") =
      [http.Call.setHeader "Content-Type" "application/json", http.Call.writeHeader 200,
       http.Call.write "\x7b\"statusCode\":400\x7d"] ∧
    "\x7b\"statusCode\":400\x7d" ≠ "\x7b\"StatusCode\":400\x7d" := by
  decide

end request

namespace request

theorem classify_Success_jsonData (s : Success) :
    (classify (ReplyValue.Success s)).jsonTrig = true ∧
    (classify (ReplyValue.Success s)).jsonData = s.afterDefaulting.toValue := by
  simp only [classify, Success.afterDefaulting]
  split_ifs <;> exact ⟨rfl, rfl⟩

theorem classify_Error_jsonData (e : Error) :
    (classify (ReplyValue.Error e)).jsonTrig = true ∧
    (classify (ReplyValue.Error e)).jsonData = e.afterDefaulting.toValue := by
  simp only [classify, Error.afterDefaulting]
  split_ifs <;> exact ⟨rfl, rfl⟩

theorem Success_memberKeys (s : Success) :
    s.toValue.memberKeys =
      (if s.ID = "" then [] else ["id"]) ++
      (if s.StatusCode = 0 then [] else ["statusCode"]) ++
      (if s.Message = "" then [] else ["message"]) ++
      (if s.Data.isNil then [] else ["data"]) := by
  simp only [Success.toValue, GoValue.memberKeys, Fields.toList_ofList]
  split_ifs <;> rfl

theorem Error_memberKeys (e : Error) :
    e.toValue.memberKeys =
      (if e.ID = "" then [] else ["id"]) ++
      (if e.StatusCode = 0 then [] else ["statusCode"]) ++
      (if e.Message = "" then [] else ["message"]) ++
      (if e.Error.isNil then [] else ["error"]) := by
  simp only [Error.toValue, GoValue.memberKeys, Fields.toList_ofList]
  split_ifs <;> rfl

/-- The JSON text of a struct value is an object with one member per key. -/
theorem Marshal_struct_members (v : GoValue) (fields : Fields) (text : String)
    (hv : v = GoValue.struct fields) (hm : json.Marshal v = some text) :
    ∃ parts, text = "\x7b" ++ json.joinComma parts ++ "\x7d" ∧
      List.Forall₂ (fun key part => ∃ valueText, part = json.encodeString key ++ ":" ++ valueText)
        v.memberKeys parts := by
  subst hv
  simp only [json.Marshal, json.encode] at hm
  cases hf : json.encodeFields fields with
  | none => rw [hf] at hm; simp at hm
  | some parts =>
    rw [hf] at hm
    simp only [Option.some.injEq] at hm
    refine ⟨parts, hm.symm, ?_⟩
    have := json.encodeFields_members fields parts hf
    simp only [GoValue.memberKeys]
    rw [List.forall₂_map_left_iff]
    exact this.imp (fun _ _ h => by
      obtain ⟨vt, _, h2⟩ := h
      exact ⟨vt, h2⟩)

end request

namespace request

theorem Success_afterDefaulting_frame (s : Success) :
    s.afterDefaulting.ID = s.ID ∧ s.afterDefaulting.Data = s.Data := by
  simp only [Success.afterDefaulting]
  split_ifs <;> exact ⟨rfl, rfl⟩

theorem Error_afterDefaulting_frame (e : Error) :
    e.afterDefaulting.ID = e.ID ∧ e.afterDefaulting.Error = e.Error := by
  simp only [Error.afterDefaulting]
  split_ifs <;> exact ⟨rfl, rfl⟩

theorem Success_key_iff (s : Success) :
    ("id" ∈ s.toValue.memberKeys ↔ s.ID ≠ "") ∧
    ("statusCode" ∈ s.toValue.memberKeys ↔ s.StatusCode ≠ 0) ∧
    ("message" ∈ s.toValue.memberKeys ↔ s.Message ≠ "") ∧
    ("data" ∈ s.toValue.memberKeys ↔ s.Data.isNil = false) := by
  rw [Success_memberKeys]
  refine ⟨?_, ?_, ?_, ?_⟩ <;> split_ifs <;> simp_all

theorem Error_key_iff (e : Error) :
    ("id" ∈ e.toValue.memberKeys ↔ e.ID ≠ "") ∧
    ("statusCode" ∈ e.toValue.memberKeys ↔ e.StatusCode ≠ 0) ∧
    ("message" ∈ e.toValue.memberKeys ↔ e.Message ≠ "") ∧
    ("error" ∈ e.toValue.memberKeys ↔ e.Error.isNil = false) := by
  rw [Error_memberKeys]
  refine ⟨?_, ?_, ?_, ?_⟩ <;> split_ifs <;> simp_all

/-- C14 (amended): for a Success, resp. an Error, that serializes, the body
Reply writes is the JSON object of the value after status defaulting, with one
member per key, and each optional key is present exactly when its field is
non-empty after the defaulting: `id` iff ID is not the empty string,
`statusCode` iff StatusCode is not 0, `message` iff Message is not the empty
string, and `data`, resp. `error`, iff the Data, resp. Error, value is not
nil. -/
theorem C14_optional_keys_present_iff_non_empty (req : Request) (s : Success) (e : Error)
    (textS textE : String)
    (hs : json.Marshal s.afterDefaulting.toValue = some textS)
    (he : json.Marshal e.afterDefaulting.toValue = some textE) :
    req.Reply (ReplyValue.Success s) = req.w ++
      jsonCalls (req.r.queryGet "callback") (classify (ReplyValue.Success s)).header textS ∧
    (∃ parts, textS = "\x7b" ++ json.joinComma parts ++ "\x7d" ∧
      List.Forall₂ (fun key part => ∃ valueText, part = json.encodeString key ++ ":" ++ valueText)
        s.afterDefaulting.toValue.memberKeys parts) ∧
    ("id" ∈ s.afterDefaulting.toValue.memberKeys ↔ s.ID ≠ "") ∧
    ("statusCode" ∈ s.afterDefaulting.toValue.memberKeys ↔ s.afterDefaulting.StatusCode ≠ 0) ∧
    ("message" ∈ s.afterDefaulting.toValue.memberKeys ↔ s.afterDefaulting.Message ≠ "") ∧
    ("data" ∈ s.afterDefaulting.toValue.memberKeys ↔ s.Data.isNil = false) ∧
    req.Reply (ReplyValue.Error e) = req.w ++
      jsonCalls (req.r.queryGet "callback") (classify (ReplyValue.Error e)).header textE ∧
    (∃ parts, textE = "\x7b" ++ json.joinComma parts ++ "\x7d" ∧
      List.Forall₂ (fun key part => ∃ valueText, part = json.encodeString key ++ ":" ++ valueText)
        e.afterDefaulting.toValue.memberKeys parts) ∧
    ("id" ∈ e.afterDefaulting.toValue.memberKeys ↔ e.ID ≠ "") ∧
    ("statusCode" ∈ e.afterDefaulting.toValue.memberKeys ↔ e.afterDefaulting.StatusCode ≠ 0) ∧
    ("message" ∈ e.afterDefaulting.toValue.memberKeys ↔ e.afterDefaulting.Message ≠ "") ∧
    ("error" ∈ e.afterDefaulting.toValue.memberKeys ↔ e.Error.isNil = false) := by
  obtain ⟨hSt, hSd⟩ := classify_Success_jsonData s
  obtain ⟨hEt, hEd⟩ := classify_Error_jsonData e
  obtain ⟨k1, k2, k3, k4⟩ := Success_key_iff s.afterDefaulting
  obtain ⟨j1, j2, j3, j4⟩ := Error_key_iff e.afterDefaulting
  rw [(Success_afterDefaulting_frame s).1] at k1
  rw [(Success_afterDefaulting_frame s).2] at k4
  rw [(Error_afterDefaulting_frame e).1] at j1
  rw [(Error_afterDefaulting_frame e).2] at j4
  refine ⟨?_, ?_, k1, k2, k3, k4, ?_, ?_, j1, j2, j3, j4⟩
  · exact Reply_json_some req _ _ textS rfl hSt (by rw [hSd]; exact hs)
  · exact Marshal_struct_members _ _ textS rfl hs
  · exact Reply_json_some req _ _ textE rfl hEt (by rw [hEd]; exact he)
  · exact Marshal_struct_members _ _ textE rfl he

/-- Witness of C14 (amended): a Success with an ID and the number 0 as Data,
and an Error without any field. -/
theorem C14_optional_keys_present_iff_non_empty_witness :
    (exampleRequest "").Reply (ReplyValue.Success { ID := "a", Data := GoValue.int 0 }) =
      [] ++ jsonCalls "" 200
        "\x7b\"id\":\"a\",\"statusCode\":200,\"message\":\"OK\",\"data\":0\x7d" ∧
    ("data" ∈ (Success.afterDefaulting { ID := "a", Data := GoValue.int 0 }).toValue.memberKeys ↔
      (GoValue.int 0).isNil = false) :=
  have h := C14_optional_keys_present_iff_non_empty (exampleRequest "")
    { ID := "a", Data := GoValue.int 0 } {}
    "\x7b\"id\":\"a\",\"statusCode\":200,\"message\":\"OK\",\"data\":0\x7d"
    "\x7b\"statusCode\":500,\"message\":\"Internal Server Error\"\x7d" (by decide) (by decide)
  ⟨h.1, h.2.2.2.2.2.1⟩

/-- C14 as stated fails: a Data that is the empty string, the number 0 or
false is not nil and is written, as `"data":""`, `"data":0` and
`"data":false`; the same holds for the Error value of an Error.  And for a
value that does not serialize the body is the fixed error text, without the
`id` member of a non-empty ID. -/
theorem C14_counterexample :
    ((exampleRequest "").Reply (ReplyValue.Success { Data := GoValue.str "" })).body =
      "\x7b\"statusCode\":200,\"message\":\"OK\",\"data\":\"\"\x7d" ∧
    ((exampleRequest "").Reply (ReplyValue.Success { Data := GoValue.int 0 })).body =
      "\x7b\"statusCode\":200,\"message\":\"OK\",\"data\":0\x7d" ∧
    ((exampleRequest "").Reply (ReplyValue.Success { Data := GoValue.bool false })).body =
      "\x7b\"statusCode\":200,\"message\":\"OK\",\"data\":false\x7d" ∧
    ((exampleRequest "").Reply (ReplyValue.Error { Error := GoValue.str "" })).body =
      "\x7b\"statusCode\":500,\"message\":\"Internal Server Error\",\"error\":\"\"\x7d" ∧
    ((exampleRequest "").Reply
      (ReplyValue.Success { ID := "a", Data := GoValue.chan })).body =
      "\x7b\"statusCode\":500,\"message\":\"Internal Server Error\"\x7d" := by
  decide

end request

namespace server

theorem mem_writeAll (w : http.ResponseWriter) (chunks : List String) (c : http.Call)
    (h : c ∈ page.writeAll w chunks) : c ∈ w ∨ ∃ d, c = http.Call.write d := by
  induction chunks generalizing w with
  | nil => exact Or.inl h
  | cons chunk rest ih =>
    simp only [page.writeAll] at h
    rcases ih _ h with h1 | h1
    · simp only [http.ResponseWriter.Write, List.mem_append, List.mem_singleton] at h1
      rcases h1 with h2 | h2
      · exact Or.inl h2
      · exact Or.inr ⟨chunk, h2⟩
    · exact Or.inr h1

theorem mem_TemplateExecute (p : page.Page) (w : http.ResponseWriter) (data : GoValue)
    (c : http.Call) (h : c ∈ (p.TemplateExecute w data).1) :
    c ∈ w ∨ ∃ d, c = http.Call.write d := by
  unfold page.Page.TemplateExecute at h
  cases ht : p.template with
  | none => rw [ht] at h; exact Or.inl h
  | some t =>
    rw [ht] at h
    simp only at h
    split at h <;> exact mem_writeAll _ _ _ h

/-- The calls of the structured 500 the page handler sends for a render
error. -/
theorem Reply_render_error (r : http.Request) (w : http.ResponseWriter) (err : String) :
    (request.New { Request := r, Writer := w }).Reply
        (request.ReplyValue.Error { StatusCode := 500, Internal := GoValue.error err }) =
      w ++ request.jsonCalls (r.queryGet "callback") 500
        "\x7b\"statusCode\":500,\"message\":\"Internal Server Error\"\x7d" := by
  have hclass : request.classify
      (request.ReplyValue.Error { StatusCode := 500, Internal := GoValue.error err }) =
      { jsonTrig := true,
        jsonData := ({ StatusCode := 500, Message := "Internal Server Error" } :
          request.Error).toValue,
        result := "", header := 500 } := by
    simp [request.classify, http.StatusText, request.Error.toValue]
  exact request.Reply_json_some (request.New { Request := r, Writer := w }) _ _ _ hclass rfl
    (by decide)

/-- C19: the handler of a page with matchAll=true never takes the branch of
the structured 404: it executes the template whatever the request path is,
and its calls on the writer are the same for every request path, the rest of
the request being the same.  It never writes the status 404. -/
theorem C19_matchAll_ignores_request_path (server : Server) (p : page.Page)
    (w : http.ResponseWriter) (r : http.Request) (path : String)
    (hm : p.MatchAll = true) :
    server.pageHandler p w { r with urlPath := path } = server.pageHandler p w r ∧
    server.pageHandler p w r =
      (match p.TemplateExecute w GoValue.nil with
       | (w1, some err) =>
         (request.New { Request := r, Writer := w1 }).Reply
           (request.ReplyValue.Error { StatusCode := 500, Internal := GoValue.error err })
       | (w1, none) => w1) ∧
    (http.Call.writeHeader 404 ∉ w → http.Call.writeHeader 404 ∉ server.pageHandler p w r) ∧
    (w = [] → (server.pageHandler p w r).status ≠ 404) := by
  have hrender : ∀ q : http.Request, server.pageHandler p w q =
      (match p.TemplateExecute w GoValue.nil with
       | (w1, some err) =>
         (request.New { Request := q, Writer := w1 }).Reply
           (request.ReplyValue.Error { StatusCode := 500, Internal := GoValue.error err })
       | (w1, none) => w1) := by
    intro q
    apply (pageHandler_cases server p w q).2
    rintro ⟨h1, _, _⟩
    rw [hm] at h1
    exact absurd h1 (by simp)
  have hno : http.Call.writeHeader 404 ∉ w →
      http.Call.writeHeader 404 ∉ server.pageHandler p w r := by
    intro hw hmem
    rw [hrender r] at hmem
    have hexec := mem_TemplateExecute p w GoValue.nil (http.Call.writeHeader 404)
    cases hte : p.TemplateExecute w GoValue.nil with
    | mk w1 oerr =>
      rw [hte] at hmem hexec
      cases oerr with
      | none =>
        rcases hexec hmem with h1 | ⟨d, h1⟩
        · exact hw h1
        · simp at h1
      | some err =>
        simp only at hmem
        rw [Reply_render_error] at hmem
        rcases List.mem_append.mp hmem with h1 | h1
        · rcases hexec h1 with h2 | ⟨d, h2⟩
          · exact hw h2
          · simp at h2
        · simp [request.jsonCalls] at h1
  refine ⟨?_, hrender r, hno, ?_⟩
  · rw [hrender, hrender]
    cases hte : p.TemplateExecute w GoValue.nil with
    | mk w1 oerr =>
      cases oerr with
      | none => rfl
      | some err =>
        simp only
        rw [Reply_render_error, Reply_render_error]
        rfl
  · intro hw
    subst hw
    rw [hrender r]
    have hexec := mem_TemplateExecute p [] GoValue.nil
    cases hte : p.TemplateExecute [] GoValue.nil with
    | mk w1 oerr =>
      rw [hte] at hexec
      have hw1 : ∀ c ∈ w1, ∃ d, c = http.Call.write d := by
        intro c hc
        rcases hexec c hc with h1 | h1
        · simp at h1
        · exact h1
      have hstatus : ∀ rest : List http.Call,
          (∀ c ∈ rest, c = http.Call.writeHeader 500 ∨ ∃ k v d, c = http.Call.setHeader k v ∨
            c = http.Call.write d) →
          http.ResponseWriter.status (w1 ++ rest) ≠ 404 := by
        intro rest hrest
        cases w1 with
        | nil =>
          simp only [List.nil_append]
          induction rest with
          | nil => simp [http.ResponseWriter.status]
          | cons c cs ih =>
            rcases hrest c (List.mem_cons_self _ _) with h1 | ⟨k, v, d, h1 | h1⟩
            · subst h1; simp [http.ResponseWriter.status]
            · subst h1
              simp only [http.ResponseWriter.status]
              exact ih (fun c hc => hrest c (List.mem_cons_of_mem _ hc))
            · subst h1; simp [http.ResponseWriter.status]
        | cons c cs =>
          obtain ⟨d, hd⟩ := hw1 c (List.mem_cons_self _ _)
          subst hd
          simp [http.ResponseWriter.status]
      cases oerr with
      | none =>
        simp only
        have := hstatus [] (by simp)
        simpa using this
      | some err =>
        simp only
        rw [Reply_render_error]
        apply hstatus
        intro c hc
        simp only [request.jsonCalls, List.mem_cons, List.mem_singleton, List.not_mem_nil,
          or_false] at hc
        rcases hc with h1 | h1 | h1
        · exact Or.inr ⟨_, _, "", Or.inl h1⟩
        · exact Or.inl h1
        · exact Or.inr ⟨"", "", _, Or.inr h1⟩

/-- Witness of C19: the page `/foo/` with matchAll, asked for `/foo`, `/foo/`,
`/foo/bar` and `/foo/bar/baz`, writes `foo` each time. -/
theorem C19_matchAll_ignores_request_path_witness :
    (New examplePlatform {}).pageHandler
        { urlPath := "/foo/", matchAll := true, template := some fooTemplate } []
        (exampleGet "/foo") = [http.Call.write "foo"] ∧
    (New examplePlatform {}).pageHandler
        { urlPath := "/foo/", matchAll := true, template := some fooTemplate } []
        (exampleGet "/foo/bar") = [http.Call.write "foo"] ∧
    (New examplePlatform {}).pageHandler
        { urlPath := "/foo/", matchAll := true, template := some fooTemplate } []
        (exampleGet "/foo/bar/baz") = [http.Call.write "foo"] :=
  have h := fun path => (C19_matchAll_ignores_request_path (New examplePlatform {})
    { urlPath := "/foo/", matchAll := true, template := some fooTemplate } []
    (exampleGet "/foo/") path rfl).1
  ⟨(h "/foo").trans (by decide), (h "/foo/bar").trans (by decide),
   (h "/foo/bar/baz").trans (by decide)⟩

end server

namespace page

/-- The traced New returns what New returns. -/
theorem NewTraced_result (parse : String → String → Except String Template) (o : Options) :
    (NewTraced parse o).2 = New parse o := by
  unfold NewTraced New
  by_cases hu : o.URLPath = ""
  · simp [hu]
  · simp only [hu, if_false]
    by_cases hf : o.FilePath = ""
    · simp only [hf, ne_eq, not_true_eq_false, if_false]
      by_cases hc : o.Content = ""
      · simp [hc]
      · simp only [hc, ne_eq, not_false_eq_true, if_true]
        cases parse o.URLPath o.Content <;> rfl
    · simp only [hf, ne_eq, not_false_eq_true, if_true]
      cases o.FileSystem with
      | none => rfl
      | some fs =>
        simp only
        cases fs.Open o.FilePath with
        | error err => rfl
        | ok f =>
          simp only
          cases f.ReadAll with
          | error err => rfl
          | ok b =>
            simp only
            by_cases hb : b = ""
            · simp [hb]
            · simp only [hb, ne_eq, not_false_eq_true, if_true]
              cases parse o.URLPath b <;> rfl

end page

namespace page

/-- The errors New returns for a non-empty URLPath. -/
theorem New_error_cases (parse : String → String → Except String Template) (o : Options)
    (e : String) (hu : o.URLPath ≠ "") (h : New parse o = Except.error e) :
    (∃ x, e = "failed to open file due to " ++ x) ∨
    (∃ x, e = "failed to read file due to " ++ x) ∨
    e = "invalid file system" ∨
    (∃ x, e = "failed to parse template due to " ++ x) := by
  unfold New at h
  simp only [hu, if_false] at h
  by_cases hf : o.FilePath = ""
  · simp only [hf, ne_eq, not_true_eq_false, if_false] at h
    by_cases hc : o.Content = ""
    · simp [hc] at h
    · simp only [hc, ne_eq, not_false_eq_true, if_true] at h
      cases hp : parse o.URLPath o.Content with
      | error err =>
        rw [hp] at h
        injection h with h
        exact Or.inr (Or.inr (Or.inr ⟨err, h.symm⟩))
      | ok t => rw [hp] at h; simp at h
  · simp only [hf, ne_eq, not_false_eq_true, if_true] at h
    cases hfs : o.FileSystem with
    | none =>
      rw [hfs] at h
      injection h with h
      exact Or.inr (Or.inr (Or.inl h.symm))
    | some fs =>
      rw [hfs] at h
      simp only at h
      cases ho : fs.Open o.FilePath with
      | error err =>
        rw [ho] at h
        injection h with h
        exact Or.inl ⟨err, h.symm⟩
      | ok f =>
        rw [ho] at h
        simp only at h
        cases hr : f.ReadAll with
        | error err =>
          rw [hr] at h
          injection h with h
          exact Or.inr (Or.inl ⟨err, h.symm⟩)
        | ok b =>
          rw [hr] at h
          simp only at h
          by_cases hb : b = ""
          · simp [hb] at h
          · simp only [hb, ne_eq, not_false_eq_true, if_true] at h
            cases hp : parse o.URLPath b with
            | error err =>
              rw [hp] at h
              injection h with h
              exact Or.inr (Or.inr (Or.inr ⟨err, h.symm⟩))
            | ok t => rw [hp] at h; simp at h

theorem failed_ne_invalid_url_path (pre x : String) (hpre : pre.data.head? = some 'f') :
    pre ++ x ≠ "invalid url path" := by
  intro h
  have h1 := congrArg (fun s : String => s.data.head?) h
  simp only [String.data_append] at h1
  cases hd : pre.data with
  | nil => rw [hd] at hpre; simp at hpre
  | cons c cs =>
    rw [hd] at hpre h1
    simp only [List.head?_cons, Option.some.injEq] at hpre
    subst hpre
    have h2 : ("invalid url path" : String).data.head? = some 'i' := rfl
    rw [h2] at h1
    simp only [List.cons_append, List.head?_cons, Option.some.injEq] at h1
    exact absurd h1 (by decide)

/-- C20: for every options value whose URLPath is empty, whatever the other
options and the parser are, New fails with the error `invalid url path`,
returns no page, and has opened no file and parsed no template when it
returns; and for a non-empty URLPath it never returns that error. -/
theorem C20_empty_url_path_is_refused_first
    (parse : String → String → Except String Template) (o : Options) :
    (o.URLPath = "" →
      New parse o = Except.error "invalid url path" ∧ (NewTraced parse o).1 = []) ∧
    (o.URLPath ≠ "" → New parse o ≠ Except.error "invalid url path") ∧
    (NewTraced parse o).2 = New parse o := by
  refine ⟨?_, ?_, NewTraced_result parse o⟩
  · intro hu
    constructor
    · simp [New, hu]
    · simp [NewTraced, hu]
  · intro hu h
    rcases New_error_cases parse o _ hu h with ⟨x, hx⟩ | ⟨x, hx⟩ | hx | ⟨x, hx⟩
    · exact failed_ne_invalid_url_path "failed to open file due to " x rfl hx.symm
    · exact failed_ne_invalid_url_path "failed to read file due to " x rfl hx.symm
    · exact absurd hx (by decide)
    · exact failed_ne_invalid_url_path "failed to parse template due to " x rfl hx.symm

end page

namespace strconv

theorem digitChar_isDigit (m : Nat) (hm : m < 10) : (Nat.digitChar m).isDigit = true := by
  interval_cases m <;> decide

theorem digitChar_value (m : Nat) (hm : m < 10) : (Nat.digitChar m).toNat - 48 = m := by
  interval_cases m <;> decide

theorem digitChar_ne_zero (m : Nat) (hm : m < 10) (h0 : 0 < m) : Nat.digitChar m ≠ '0' := by
  interval_cases m <;> decide

theorem decimalValue_snoc (ds : List Char) (d : Char) :
    decimalValue (ds ++ [d]) = 10 * decimalValue ds + (d.toNat - 48) := by
  simp [decimalValue, List.foldl_append]

/-- The accumulator of toDigitsCore stays behind the digits it produces. -/
theorem toDigitsCore_acc (fuel : Nat) :
    ∀ (n : Nat) (acc : List Char),
      Nat.toDigitsCore 10 fuel n acc = Nat.toDigitsCore 10 fuel n [] ++ acc := by
  induction fuel with
  | zero => intro n acc; rfl
  | succ fuel ih =>
    intro n acc
    simp only [Nat.toDigitsCore]
    split
    · rfl
    · rw [ih (n / 10) (Nat.digitChar (n % 10) :: acc), ih (n / 10) [Nat.digitChar (n % 10)]]
      simp

/-- One round of toDigitsCore: the last digit is that of `n % 10`, and the
digits before it are those of `n / 10` when that is not zero. -/
theorem toDigitsCore_succ (fuel n : Nat) :
    Nat.toDigitsCore 10 (fuel + 1) n [] =
      (if n / 10 = 0 then [] else Nat.toDigitsCore 10 fuel (n / 10) []) ++
        [Nat.digitChar (n % 10)] := by
  simp only [Nat.toDigitsCore]
  split
  · rfl
  · exact toDigitsCore_acc fuel (n / 10) [Nat.digitChar (n % 10)]

theorem toDigitsCore_ne_nil (fuel n : Nat) : Nat.toDigitsCore 10 (fuel + 1) n [] ≠ [] := by
  rw [toDigitsCore_succ]
  simp

theorem toDigitsCore_isDigit (fuel : Nat) :
    ∀ n : Nat, ∀ c ∈ Nat.toDigitsCore 10 fuel n [], c.isDigit = true := by
  induction fuel with
  | zero => intro n c hc; simp [Nat.toDigitsCore] at hc
  | succ fuel ih =>
    intro n c hc
    rw [toDigitsCore_succ, List.mem_append, List.mem_singleton] at hc
    rcases hc with hc | hc
    · split at hc
      · simp at hc
      · exact ih (n / 10) c hc
    · rw [hc]
      exact digitChar_isDigit _ (Nat.mod_lt _ (by decide))

theorem toDigitsCore_value (fuel : Nat) :
    ∀ n : Nat, n < fuel → decimalValue (Nat.toDigitsCore 10 fuel n []) = n := by
  induction fuel with
  | zero => intro n h; omega
  | succ fuel ih =>
    intro n hn
    rw [toDigitsCore_succ, decimalValue_snoc, digitChar_value _ (Nat.mod_lt _ (by decide))]
    split
    · rename_i hq
      simp only [decimalValue, List.foldl_nil]
      omega
    · rw [ih (n / 10) (by omega)]
      omega

theorem toDigitsCore_head (fuel : Nat) :
    ∀ n : Nat, n < fuel → 0 < n → (Nat.toDigitsCore 10 fuel n []).head? ≠ some '0' := by
  induction fuel with
  | zero => intro n h; omega
  | succ fuel ih =>
    intro n hn hpos
    rw [toDigitsCore_succ]
    split
    · rename_i hq
      simp only [List.nil_append, List.head?_cons, ne_eq, Option.some.injEq]
      exact digitChar_ne_zero _ (Nat.mod_lt _ (by decide)) (by omega)
    · rename_i hq
      have hlt : n / 10 < fuel := by omega
      have hne : Nat.toDigitsCore 10 fuel (n / 10) [] ≠ [] := by
        obtain ⟨k, hk⟩ : ∃ k, fuel = k + 1 := ⟨fuel - 1, by omega⟩
        rw [hk]
        exact toDigitsCore_ne_nil k (n / 10)
      have hih := ih (n / 10) hlt (by omega)
      cases hds : Nat.toDigitsCore 10 fuel (n / 10) [] with
      | nil => exact absurd hds hne
      | cons c cs =>
        rw [hds] at hih
        simpa using hih

/-- The text of a natural number: a non-empty run of digits, without a leading
zero unless it is the single digit 0, that stands for the number. -/
theorem repr_decimal (n : Nat) :
    (Nat.repr n).data ≠ [] ∧ (∀ c ∈ (Nat.repr n).data, c.isDigit = true) ∧
      ((Nat.repr n).data.head? = some '0' → (Nat.repr n).data = ['0']) ∧
      decimalValue (Nat.repr n).data = n := by
  have hd : (Nat.repr n).data = Nat.toDigitsCore 10 (n + 1) n [] := rfl
  rw [hd]
  refine ⟨toDigitsCore_ne_nil n n, toDigitsCore_isDigit (n + 1) n, ?_,
    toDigitsCore_value (n + 1) n (by omega)⟩
  intro h
  rcases Nat.eq_zero_or_pos n with h0 | hpos
  · subst h0; rfl
  · exact absurd h (toDigitsCore_head (n + 1) n (by omega) hpos)

/-- The text of Itoa: a minus sign for a negative number, then the decimal
digits of the absolute value; parsing it gives the number back. -/
theorem Itoa_canonical (n : Int) :
    ∃ ds, (Itoa n).data = (if n < 0 then ['-'] else []) ++ ds ∧ ds ≠ [] ∧
      (∀ c ∈ ds, c.isDigit = true) ∧ (ds.head? = some '0' → ds = ['0']) ∧
      decimalValue ds = n.natAbs ∧ parseDecimal (Itoa n) = some n := by
  by_cases hn : n < 0
  · have hr := repr_decimal n.natAbs
    generalize h1 : (Nat.repr n.natAbs).data = ds at hr
    obtain ⟨h2, h3, h4, h5⟩ := hr
    have hdata : (Itoa n).data = '-' :: ds := by
      simp only [Itoa, hn, if_true, String.data_append, h1]
      rfl
    refine ⟨ds, by simp [hn, hdata], h2, h3, h4, h5, ?_⟩
    unfold parseDecimal
    rw [hdata]
    have hall : ds.all Char.isDigit = true := List.all_eq_true.mpr h3
    simp only [h2, ne_eq, not_false_eq_true, hall, and_self, if_true, h5]
    congr 1
    omega
  · have hr := repr_decimal n.toNat
    generalize h1 : (Nat.repr n.toNat).data = ds at hr
    obtain ⟨h2, h3, h4, h5⟩ := hr
    have hdata : (Itoa n).data = ds := by
      simp only [Itoa, hn, if_false, h1]
    have hnat : n.toNat = n.natAbs := by omega
    refine ⟨ds, by simp [hn, hdata], h2, h3, h4, by rw [h5, hnat], ?_⟩
    unfold parseDecimal
    rw [hdata]
    have hall : ds.all Char.isDigit = true := List.all_eq_true.mpr h3
    cases ds with
    | nil => exact absurd rfl h2
    | cons c cs =>
      have hc := h3 c (List.mem_cons_self _ _)
      have hm : ¬ c = '-' := by
        intro h; subst h; exact absurd hc (by decide)
      have hp : ¬ c = '+' := by
        intro h; subst h; exact absurd hc (by decide)
      split
      · rename_i heq
        simp only [List.cons.injEq] at heq
        exact absurd heq.1 hm
      · rename_i heq
        simp only [List.cons.injEq] at heq
        exact absurd heq.1 hp
      · simp only [ne_eq, not_false_eq_true, hall, and_self, if_true, h5, reduceCtorEq]
        congr 1
        omega

end strconv

namespace request

/-- C17: for every int or int64 reply value `n` Reply writes, in one Write and
without a status header, the decimal text of `n`: a minus sign when `n` is
negative and no sign otherwise, then a non-empty run of digits without a
leading zero (the single digit 0 apart) that stands for the absolute value of
`n`; parsing the text as a decimal integer gives `n` back.  On a new writer
the client sees that body with the default status 200. -/
theorem C17_integer_bodies_are_canonical_decimal (req : Request) (r : http.Request) (n : Int) :
    req.Reply (ReplyValue.int n) = req.w ++ [http.Call.write (strconv.Itoa n)] ∧
    req.Reply (ReplyValue.int64 n) = req.w ++ [http.Call.write (strconv.Itoa n)] ∧
    (∃ ds, (strconv.Itoa n).data = (if n < 0 then ['-'] else []) ++ ds ∧ ds ≠ [] ∧
      (∀ c ∈ ds, c.isDigit = true) ∧ (ds.head? = some '0' → ds = ['0']) ∧
      strconv.decimalValue ds = n.natAbs) ∧
    strconv.parseDecimal (strconv.Itoa n) = some n ∧
    ((New { Request := r }).Reply (ReplyValue.int n)).body = strconv.Itoa n ∧
    ((New { Request := r }).Reply (ReplyValue.int n)).status = 200 ∧
    ((New { Request := r }).Reply (ReplyValue.int64 n)).body = strconv.Itoa n ∧
    ((New { Request := r }).Reply (ReplyValue.int64 n)).status = 200 := by
  have h1 : ∀ q : Request, q.Reply (ReplyValue.int n) = q.w ++ [http.Call.write (strconv.Itoa n)] :=
    fun q => Reply_plain q _ rfl
  have h2 : ∀ q : Request,
      q.Reply (ReplyValue.int64 n) = q.w ++ [http.Call.write (strconv.Itoa n)] :=
    fun q => Reply_plain q _ rfl
  have hw : (New { Request := r }).w = [] := rfl
  obtain ⟨ds, d1, d2, d3, d4, d5, d6⟩ := strconv.Itoa_canonical n
  refine ⟨h1 req, h2 req, ⟨ds, d1, d2, d3, d4, d5⟩, d6, ?_, ?_, ?_, ?_⟩
  · rw [h1, hw]; exact body_plain _
  · rw [h1, hw]; rfl
  · rw [h2, hw]; exact body_plain _
  · rw [h2, hw]; rfl

end request

namespace page

/-- What New returns once the file has been opened and read: the page holds
the bytes of the file, and the template parsed from them when there are any. -/
theorem New_of_file_read (parse : String → String → Except String Template) (o : Options)
    (hu : o.URLPath ≠ "") (hf : o.FilePath ≠ "") (fs : FileSystem) (f : File) (b : String)
    (hfs : o.FileSystem = some fs) (hopen : fs.Open o.FilePath = Except.ok f)
    (hread : f.ReadAll = Except.ok b) :
    New parse o =
      (if b ≠ "" then
        match parse o.URLPath b with
        | Except.error err => Except.error ("failed to parse template due to " ++ err)
        | Except.ok t =>
          Except.ok { isInit := true, urlPath := o.URLPath, matchAll := o.MatchAll,
                      filePath := o.FilePath, fileSystem := o.FileSystem, content := b,
                      templateData := o.TemplateData, template := some t }
      else
        Except.ok { isInit := true, urlPath := o.URLPath, matchAll := o.MatchAll,
                    filePath := o.FilePath, fileSystem := o.FileSystem, content := b,
                    templateData := o.TemplateData, template := none }) := by
  unfold New
  simp only [hu, if_false, ne_eq, hf, not_false_eq_true, if_true, hfs, hopen, hread]

/-- C21: for every options value with a non-empty URLPath and a non-empty
FilePath, whatever the literal Content is: without a FileSystem, New fails
with the error `invalid file system`, returns no page, and has opened no file
and parsed no template; with a FileSystem whose file is opened and read, the
literal Content plays no part, the text handed to the template parser is the
bytes of the file, and every page New returns has these bytes as content (New
returns one when the bytes are empty or parse as a template). -/
theorem C21_file_path_needs_file_system
    (parse : String → String → Except String Template) (o : Options)
    (hu : o.URLPath ≠ "") (hf : o.FilePath ≠ "") :
    (o.FileSystem = none →
      New parse o = Except.error "invalid file system" ∧ (NewTraced parse o).1 = []) ∧
    (∀ c : String, New parse { o with Content := c } = New parse o) ∧
    (∀ (fs : FileSystem) (f : File) (b : String), o.FileSystem = some fs →
      fs.Open o.FilePath = Except.ok f → f.ReadAll = Except.ok b →
      (∀ p : Page, New parse o = Except.ok p → p.content = b) ∧
      (b = "" → ∃ p : Page, New parse o = Except.ok p ∧ p.content = b ∧ p.template = none) ∧
      (∀ t : Template, b ≠ "" → parse o.URLPath b = Except.ok t →
        ∃ p : Page, New parse o = Except.ok p ∧ p.content = b ∧ p.template = some t) ∧
      (∀ err : String, b ≠ "" → parse o.URLPath b = Except.error err →
        New parse o = Except.error ("failed to parse template due to " ++ err))) := by
  refine ⟨?_, ?_, ?_⟩
  · intro hn
    constructor
    · simp [New, hu, hf, hn]
    · simp [NewTraced, hu, hf, hn]
  · intro c
    simp only [New, hu, if_false, ne_eq, hf, not_false_eq_true, if_true]
  · intro fs f b hfs hopen hread
    have hnew := New_of_file_read parse o hu hf fs f b hfs hopen hread
    refine ⟨?_, ?_, ?_, ?_⟩
    · intro p hp
      rw [hnew] at hp
      by_cases hb : b = ""
      · simp only [hb, ne_eq, not_true_eq_false, if_false, Except.ok.injEq] at hp
        rw [← hp, hb]
      · simp only [ne_eq, hb, not_false_eq_true, if_true] at hp
        cases hparse : parse o.URLPath b with
        | error err => rw [hparse] at hp; simp at hp
        | ok t =>
          rw [hparse] at hp
          simp only [Except.ok.injEq] at hp
          rw [← hp]
    · intro hb
      rw [hnew]
      simp only [hb, ne_eq, not_true_eq_false, if_false]
      exact ⟨_, rfl, rfl, rfl⟩
    · intro t hb hparse
      rw [hnew]
      simp only [ne_eq, hb, not_false_eq_true, if_true, hparse]
      exact ⟨_, rfl, rfl, rfl⟩
    · intro err hb hparse
      rw [hnew]
      simp only [ne_eq, hb, not_false_eq_true, if_true, hparse]

/-- Witness of C21: the options of TestNew, `/test` with the file path
`error.html`, with literal content and without file system; and `/test` with
literal content and a file system whose file holds `test`. -/
theorem C21_file_path_needs_file_system_witness :
    New (fun _ _ => Except.error "unclosed action")
        { URLPath := "/test", FilePath := "error.html", Content := "literal" } =
      Except.error "invalid file system" ∧
    (∃ p : Page,
      New (fun _ _ => Except.ok { Execute := fun _ => (["test"], none) })
        { URLPath := "/test", FilePath := "/test.html", Content := "literal",
          FileSystem := some { Open := fun _ => Except.ok { ReadAll := Except.ok "test" } } } =
        Except.ok p ∧ p.content = "test" ∧
      p.template = some { Execute := fun _ => (["test"], none) }) :=
  ⟨((C21_file_path_needs_file_system (fun _ _ => Except.error "unclosed action")
      { URLPath := "/test", FilePath := "error.html", Content := "literal" }
      (by decide) (by decide)).1 rfl).1,
   ((C21_file_path_needs_file_system
      (fun _ _ => Except.ok { Execute := fun _ => (["test"], none) })
      { URLPath := "/test", FilePath := "/test.html", Content := "literal",
        FileSystem := some { Open := fun _ => Except.ok { ReadAll := Except.ok "test" } } }
      (by decide) (by decide)).2.2
      { Open := fun _ => Except.ok { ReadAll := Except.ok "test" } }
      { ReadAll := Except.ok "test" } "test" rfl rfl rfl).2.2.1
      { Execute := fun _ => (["test"], none) } (by decide) rfl⟩

end page

namespace page

theorem New_tail_template (parse : String → String → Except String Template) (o : Options)
    (content : String) (p : Page)
    (h : (if content ≠ "" then
            match parse o.URLPath content with
            | Except.error err => Except.error ("failed to parse template due to " ++ err)
            | Except.ok t =>
              Except.ok { isInit := true, urlPath := o.URLPath, matchAll := o.MatchAll,
                          filePath := o.FilePath, fileSystem := o.FileSystem, content := content,
                          templateData := o.TemplateData, template := some t }
          else
            Except.ok { isInit := true, urlPath := o.URLPath, matchAll := o.MatchAll,
                        filePath := o.FilePath, fileSystem := o.FileSystem, content := content,
                        templateData := o.TemplateData, template := none }) =
        (Except.ok p : Except String Page)) :
    p.template = none ↔ p.content = "" := by
  by_cases hc : content = ""
  · simp only [hc, ne_eq, not_true_eq_false, if_false, Except.ok.injEq] at h
    rw [← h]
    simp
  · simp only [ne_eq, hc, not_false_eq_true, if_true] at h
    cases hparse : parse o.URLPath content with
    | error err => rw [hparse] at h; simp at h
    | ok t =>
      rw [hparse] at h
      simp only [Except.ok.injEq] at h
      rw [← h]
      simp [hc]

/-- A page New returns has a compiled template exactly when its content is
not empty. -/
theorem New_template_none_iff (parse : String → String → Except String Template) (o : Options)
    (p : Page) (h : New parse o = Except.ok p) : p.template = none ↔ p.content = "" := by
  by_cases hu : o.URLPath = ""
  · simp [New, hu] at h
  · by_cases hf : o.FilePath = ""
    · have hno : ¬ (o.FilePath ≠ "") := fun hne => hne hf
      simp only [New, hu, if_false] at h
      rw [if_neg hno] at h
      exact New_tail_template parse o o.Content p h
    · cases hfs : o.FileSystem with
      | none => simp [New, hu, hf, hfs] at h
      | some fs =>
        cases hopen : fs.Open o.FilePath with
        | error err => simp [New, hu, hf, hfs, hopen] at h
        | ok f =>
          cases hread : f.ReadAll with
          | error err => simp [New, hu, hf, hfs, hopen, hread] at h
          | ok b =>
            rw [New_of_file_read parse o hu hf fs f b hfs hopen hread] at h
            exact New_tail_template parse o b p h

/-- C22: TemplateExecute on a page with a compiled template executes the
template once, writes its output to the writer and returns its error behind
the text `failed to execute template due to `; the data it executes with is
the given data when that is not nil, the TemplateData of the page when the
given data is nil and the TemplateData is not, and nil when both are nil.  On
a page without a compiled template it returns no error and leaves the writer
as it was; a page New returns has no compiled template exactly when its
content is empty. -/
theorem C22_template_data_selection (p : Page) (w : http.ResponseWriter) (data : GoValue) :
    (∀ t : Template, p.template = some t →
      (data.isNil = false →
        p.TemplateExecute w data =
          (writeAll w (t.Execute data).1,
            (t.Execute data).2.map (fun err => "failed to execute template due to " ++ err))) ∧
      (data.isNil = true → p.templateData.isNil = false →
        p.TemplateExecute w data =
          (writeAll w (t.Execute p.templateData).1,
            (t.Execute p.templateData).2.map
              (fun err => "failed to execute template due to " ++ err))) ∧
      (data.isNil = true → p.templateData.isNil = true →
        p.TemplateExecute w data =
          (writeAll w (t.Execute GoValue.nil).1,
            (t.Execute GoValue.nil).2.map
              (fun err => "failed to execute template due to " ++ err)))) ∧
    (p.template = none → p.TemplateExecute w data = (w, none)) ∧
    (∀ (parse : String → String → Except String Template) (o : Options),
      New parse o = Except.ok p → (p.template = none ↔ p.content = "")) := by
  have key : ∀ (t : Template) (d : GoValue), p.template = some t →
      (if data.isNil && !p.templateData.isNil then p.templateData else data) = d →
      p.TemplateExecute w data =
        (writeAll w (t.Execute d).1,
          (t.Execute d).2.map (fun err => "failed to execute template due to " ++ err)) := by
    intro t d ht hd
    unfold Page.TemplateExecute
    simp only [ht, hd]
    rcases hx : t.Execute d with ⟨chunks, _ | err⟩ <;> rfl
  refine ⟨?_, ?_, ?_⟩
  · intro t ht
    refine ⟨?_, ?_, ?_⟩
    · intro hd
      exact key t data ht (by simp [hd])
    · intro hd hp
      exact key t p.templateData ht (by simp [hd, hp])
    · intro hd hp
      have hnil : data = GoValue.nil := by
        cases data <;> simp [GoValue.isNil] at hd ⊢
      exact key t GoValue.nil ht (by simp [hd, hp, hnil])
  · intro ht
    unfold Page.TemplateExecute
    simp only [ht]
  · intro parse o h
    exact New_template_none_iff parse o p h

end page

namespace server

theorem AddPage_empty_url (server : Server) (p : page.Page) (h : p.URLPath = "") :
    server.AddPage p = Except.ok (server, some "invalid page url") := by
  simp [Server.AddPage, h]

/-- The only error AddPage returns is that of a page without URL path, and it
returns it with the server as it was. -/
theorem AddPage_error (server next : Server) (p : page.Page) (err : String)
    (h : server.AddPage p = Except.ok (next, some err)) :
    p.URLPath = "" ∧ err = "invalid page url" ∧ next = server := by
  unfold Server.AddPage at h
  by_cases hp : p.URLPath = ""
  · simp only [hp, if_true, Except.ok.injEq, Prod.mk.injEq, Option.some.injEq] at h
    exact ⟨hp, h.2.symm, h.1.symm⟩
  · simp only [hp, if_false] at h
    split at h <;> simp at h

theorem AddPages_append (server : Server) (pre rest : List page.Page) :
    server.AddPages (pre ++ rest) =
      (match server.AddPages pre with
       | Except.error e => Except.error e
       | Except.ok (s, some err) => Except.ok (s, some err)
       | Except.ok (s, none) => s.AddPages rest) := by
  induction pre generalizing server with
  | nil => simp [Server.AddPages]
  | cons v more ih =>
    simp only [List.cons_append, Server.AddPages]
    rcases hv : server.AddPage v with e | ⟨s, _ | err⟩
    · rfl
    · exact ih s
    · rfl

/-- When AddPages returns an error, the pages split at the first page AddPage
refuses: those before it are added, the refused one has no URL path, and the
server returned is the one after the pages before it. -/
theorem AddPages_error (server s : Server) (ps : List page.Page) (err : String)
    (h : server.AddPages ps = Except.ok (s, some err)) :
    ∃ pre v rest, ps = pre ++ v :: rest ∧ server.AddPages pre = Except.ok (s, none) ∧
      s.AddPage v = Except.ok (s, some err) ∧ v.URLPath = "" ∧ err = "invalid page url" := by
  induction ps generalizing server with
  | nil => simp [Server.AddPages] at h
  | cons v more ih =>
    simp only [Server.AddPages] at h
    rcases hv : server.AddPage v with e | ⟨s1, _ | err1⟩
    · rw [hv] at h; simp at h
    · rw [hv] at h
      obtain ⟨pre, v2, rest, hps, hpre, hadd, hurl, herr⟩ := ih s1 h
      refine ⟨v :: pre, v2, rest, by rw [hps]; rfl, ?_, hadd, hurl, herr⟩
      simp only [Server.AddPages, hv]
      exact hpre
    · rw [hv] at h
      simp only [Except.ok.injEq, Prod.mk.injEq, Option.some.injEq] at h
      obtain ⟨h1, h2⟩ := h
      subst h1
      subst h2
      obtain ⟨hurl, herr, hsame⟩ := AddPage_error server s1 v err1 hv
      subst hsame
      exact ⟨[], v, more, rfl, rfl, hv, hurl, herr⟩

/-- C23: AddPage on a page whose URL path is empty returns the error
`invalid page url` and the server as it was, so with the same routes.
AddPages returns the error of the first page AddPage refuses, with the server
as it was after the pages before that one: whatever pages follow, none of
them is registered.  Whenever AddPages returns an error it is that one. -/
theorem C23_invalid_page_url (server : Server) :
    (∀ p : page.Page, p.URLPath = "" →
      server.AddPage p = Except.ok (server, some "invalid page url")) ∧
    (∀ (p : page.Page) (next : Server) (err : Option String), p.URLPath = "" →
      server.AddPage p = Except.ok (next, err) → next.Routes = server.Routes) ∧
    (∀ (pre rest : List page.Page) (v : page.Page) (s : Server),
      server.AddPages pre = Except.ok (s, none) → v.URLPath = "" →
      server.AddPages (pre ++ v :: rest) = Except.ok (s, some "invalid page url")) ∧
    (∀ (ps : List page.Page) (s : Server) (err : String),
      server.AddPages ps = Except.ok (s, some err) →
      ∃ pre v rest, ps = pre ++ v :: rest ∧ server.AddPages pre = Except.ok (s, none) ∧
        s.AddPage v = Except.ok (s, some err) ∧ v.URLPath = "" ∧ err = "invalid page url") := by
  refine ⟨fun p hp => AddPage_empty_url server p hp, ?_, ?_, ?_⟩
  · intro p next err hp h
    rw [AddPage_empty_url server p hp] at h
    simp only [Except.ok.injEq, Prod.mk.injEq] at h
    rw [← h.1]
  · intro pre rest v s hpre hv
    rw [AddPages_append, hpre]
    simp only [Server.AddPages, AddPage_empty_url s v hv]
  · intro ps s err h
    exact AddPages_error server s ps err h

end server

namespace request

/-- The status the type switch leaves in `header`: 200, 500, or the
StatusCode of a Success or an Error that has a reason phrase. -/
theorem classify_header_cases (rv : ReplyValue) :
    (classify rv).header = 200 ∨ (classify rv).header = 500 ∨
    (∃ s : Success, rv = ReplyValue.Success s ∧ s.StatusCode = (classify rv).header ∧
      s.StatusCode ≠ 0 ∧ http.StatusText s.StatusCode ≠ "") ∨
    (∃ e : Error, rv = ReplyValue.Error e ∧ e.StatusCode = (classify rv).header ∧
      e.StatusCode ≠ 0 ∧ http.StatusText e.StatusCode ≠ "") := by
  cases rv with
  | nil => exact Or.inl rfl
  | bytes b => exact Or.inl rfl
  | string s => exact Or.inl rfl
  | int n => exact Or.inl rfl
  | int64 n => exact Or.inl rfl
  | float64 f => exact Or.inl rfl
  | Success s =>
    by_cases h0 : s.StatusCode = 0
    · rw [classify_Success_zero s h0]
      exact Or.inl rfl
    · by_cases hk : http.StatusText s.StatusCode = ""
      · rw [classify_Success_unknown s h0 hk]
        exact Or.inl rfl
      · rw [classify_Success_known s h0 hk]
        exact Or.inr (Or.inr (Or.inl ⟨s, rfl, rfl, h0, hk⟩))
  | Error e =>
    by_cases h0 : e.StatusCode = 0
    · rw [classify_Error_zero e h0]
      exact Or.inr (Or.inl rfl)
    · by_cases hk : http.StatusText e.StatusCode = ""
      · rw [classify_Error_unknown e h0 hk]
        exact Or.inr (Or.inl rfl)
      · rw [classify_Error_known e h0 hk]
        exact Or.inr (Or.inr (Or.inr ⟨e, rfl, rfl, h0, hk⟩))
  | other v printed =>
    by_cases hs : indirectIsStruct v = true
    · left
      simp [classify, hs]
    · left
      simp [classify, hs]

/-- C29: whenever Reply itself writes a status header, the code it writes is
200, or 500, or the StatusCode the caller gave in a Success or an Error, that
code being non-zero and having a reason phrase; so the code written always
has a reason phrase, and a code without one (zero, negative, non-standard) is
never written. -/
theorem C29_written_status_has_reason_phrase (req : Request) (rv : ReplyValue) (code : Int)
    (h : http.Call.writeHeader code ∈ req.replyCalls rv) :
    (code = 200 ∨ code = 500 ∨
      (∃ s : Success, rv = ReplyValue.Success s ∧ s.StatusCode = code ∧ s.StatusCode ≠ 0 ∧
        http.StatusText s.StatusCode ≠ "") ∨
      (∃ e : Error, rv = ReplyValue.Error e ∧ e.StatusCode = code ∧ e.StatusCode ≠ 0 ∧
        http.StatusText e.StatusCode ≠ "")) ∧
    http.StatusText code ≠ "" ∧ 0 < code := by
  have hcases : code = 200 ∨ code = 500 ∨
      (∃ s : Success, rv = ReplyValue.Success s ∧ s.StatusCode = code ∧ s.StatusCode ≠ 0 ∧
        http.StatusText s.StatusCode ≠ "") ∨
      (∃ e : Error, rv = ReplyValue.Error e ∧ e.StatusCode = code ∧ e.StatusCode ≠ 0 ∧
        http.StatusText e.StatusCode ≠ "") := by
    cases ht : (classify rv).jsonTrig with
    | false =>
      rw [replyCalls_plain req rv ht] at h
      simp at h
    | true =>
      rw [replyCalls_json req rv ht] at h
      simp only [List.mem_cons, reduceCtorEq, http.Call.writeHeader.injEq, List.mem_singleton,
        false_or, or_false, List.not_mem_nil] at h
      subst h
      cases hm : json.Marshal (classify rv).jsonData with
      | none =>
        rw [jsonOutcome_none hm]
        exact Or.inr (Or.inl rfl)
      | some text =>
        rw [jsonOutcome_some hm]
        exact classify_header_cases rv
  have hknown : http.StatusText code ≠ "" := by
    rcases hcases with h1 | h1 | ⟨s, _, h2, _, h3⟩ | ⟨e, _, h2, _, h3⟩
    · subst h1; decide
    · subst h1; decide
    · rw [← h2]; exact h3
    · rw [← h2]; exact h3
  refine ⟨hcases, hknown, ?_⟩
  by_contra hneg
  apply hknown
  have hle : code ≤ 0 := by omega
  unfold http.StatusText
  repeat (first | rw [if_neg (by omega)] | rfl)

/-- Witness of C29: the calls of Reply on an Error with StatusCode 404 hold
the status header 404, which has the reason phrase `Not Found`. -/
theorem C29_written_status_has_reason_phrase_witness :
    http.Call.writeHeader 404 ∈
      (exampleRequest "").replyCalls (ReplyValue.Error { StatusCode := 404 }) ∧
    http.StatusText 404 ≠ "" :=
  ⟨by decide,
   (C29_written_status_has_reason_phrase (exampleRequest "")
      (ReplyValue.Error { StatusCode := 404 }) 404 (by decide)).2.1⟩

end request

namespace request

theorem classify_ptr_struct (fields : Fields) (printed : String) :
    classify (ReplyValue.other (GoValue.ptr (GoValue.struct fields)) printed) =
      { jsonTrig := true, jsonData := GoValue.ptr (GoValue.struct fields), result := "",
        header := 200 } := by
  simp [classify, indirectIsStruct]

theorem Marshal_ptr (v : GoValue) : json.Marshal (GoValue.ptr v) = json.Marshal v := by
  simp [json.Marshal, json.encode]

/-- C30 (amended): a pointer to a Success or to an Error takes the default
branch of the type switch and is classified as a struct: the value handed to
the encoder is the pointer itself, without status or message defaulting, and
when the pointed-to value serializes the reply has the status 200 and the JSON
text of the pointed-to value as it is.  So a pointer to `Error{}` gives the
status 200 and the body `{}`, while the value `Error{}` gives the status 500
and the body `{"statusCode":500,"message":"Internal Server Error"}`. -/
theorem C30_pointer_is_generic_struct (req : Request) (s : Success) (e : Error)
    (printedS printedE textS textE : String)
    (hs : json.Marshal s.toValue = some textS) (he : json.Marshal e.toValue = some textE) :
    (classify (ReplyValue.other (GoValue.ptr s.toValue) printedS)).jsonData =
      GoValue.ptr s.toValue ∧
    (classify (ReplyValue.other (GoValue.ptr e.toValue) printedE)).jsonData =
      GoValue.ptr e.toValue ∧
    req.Reply (ReplyValue.other (GoValue.ptr s.toValue) printedS) =
      req.w ++ jsonCalls (req.r.queryGet "callback") 200 textS ∧
    req.Reply (ReplyValue.other (GoValue.ptr e.toValue) printedE) =
      req.w ++ jsonCalls (req.r.queryGet "callback") 200 textE ∧
    (req.w = [] →
      (req.Reply (ReplyValue.other (GoValue.ptr s.toValue) printedS)).status = 200 ∧
      (req.Reply (ReplyValue.other (GoValue.ptr e.toValue) printedE)).status = 200) ∧
    (exampleRequest "").Reply
        (ReplyValue.other (GoValue.ptr (Error.toValue {})) "") =
      [http.Call.setHeader "Content-Type" "application/json", http.Call.writeHeader 200,
       http.Call.write "\x7b\x7d"] ∧
    (exampleRequest "").Reply (ReplyValue.Error {}) =
      [http.Call.setHeader "Content-Type" "application/json", http.Call.writeHeader 500,
       http.Call.write "\x7b\"statusCode\":500,\"message\":\"Internal Server Error\"\x7d"] := by
  have hS : ∃ fields, s.toValue = GoValue.struct fields := ⟨_, rfl⟩
  have hE : ∃ fields, e.toValue = GoValue.struct fields := ⟨_, rfl⟩
  obtain ⟨fs, hfs⟩ := hS
  obtain ⟨fe, hfe⟩ := hE
  rw [hfs] at hs ⊢
  rw [hfe] at he ⊢
  have cS := classify_ptr_struct fs printedS
  have cE := classify_ptr_struct fe printedE
  have rS : req.Reply (ReplyValue.other (GoValue.ptr (GoValue.struct fs)) printedS) =
      req.w ++ jsonCalls (req.r.queryGet "callback") 200 textS :=
    Reply_json_some req _ _ textS cS rfl (by rw [Marshal_ptr]; exact hs)
  have rE : req.Reply (ReplyValue.other (GoValue.ptr (GoValue.struct fe)) printedE) =
      req.w ++ jsonCalls (req.r.queryGet "callback") 200 textE :=
    Reply_json_some req _ _ textE cE rfl (by rw [Marshal_ptr]; exact he)
  refine ⟨by rw [cS], by rw [cE], rS, rE, ?_, by decide, by decide⟩
  intro hw
  rw [rS, rE, hw]
  exact ⟨rfl, rfl⟩

/-- Witness of C30 (amended): a pointer to a Success with the ID `a` and a
pointer to the empty Error, without callback. -/
theorem C30_pointer_is_generic_struct_witness :
    (exampleRequest "").Reply
        (ReplyValue.other (GoValue.ptr (Success.toValue { ID := "a" })) "") =
      [] ++ jsonCalls "" 200 "\x7b\"id\":\"a\"\x7d" ∧
    (exampleRequest "").Reply
        (ReplyValue.other (GoValue.ptr (Error.toValue {})) "") =
      [] ++ jsonCalls "" 200 "\x7b\x7d" :=
  have h := C30_pointer_is_generic_struct (exampleRequest "") { ID := "a" } {} "" ""
    "\x7b\"id\":\"a\"\x7d" "\x7b\x7d" (by decide) (by decide)
  ⟨h.2.2.1, h.2.2.2.1⟩

/-- C30 as stated fails for a pointer whose pointed-to value does not
serialize: a pointer to a Success that holds a channel as Data is answered
with the status 500 and the fixed error text, not with the status 200. -/
theorem C30_counterexample :
    (exampleRequest "").Reply
        (ReplyValue.other (GoValue.ptr (Success.toValue { Data := GoValue.chan })) "") =
      [http.Call.setHeader "Content-Type" "application/json", http.Call.writeHeader 500,
       http.Call.write "\x7b\"statusCode\":500,\"message\":\"Internal Server Error\"\x7d"] ∧
    ((exampleRequest "").Reply
        (ReplyValue.other (GoValue.ptr (Success.toValue { Data := GoValue.chan })) "")).status
      ≠ 200 := by
  decide

end request

namespace server

theorem Close_of_no_http (net : http.Network) (server : Server) (h : server.http = none) :
    server.Close net = (server, none) := by
  simp [Server.Close, h]

theorem Shutdown_of_no_http (net : http.Network) (server : Server) (h : server.http = none) :
    server.Shutdown net = (server, none) := by
  simp [Server.Shutdown, h]

theorem AddHandlerFunc_http {server next : Server} {pattern : String}
    {f : http.ResponseWriter → http.Request → Except String http.ResponseWriter}
    (h : server.AddHandlerFunc pattern f = Except.ok next) : next.http = server.http := by
  obtain ⟨mux, _, hnext⟩ := AddHandlerFunc_ok h
  rw [hnext]

theorem AddPage_http {server next : Server} {p : page.Page} {err : Option String}
    (h : server.AddPage p = Except.ok (next, err)) : next.http = server.http := by
  rcases AddPage_ok h with ⟨_, hs⟩ | ⟨_, hs⟩
  · rw [hs]
  · exact AddHandlerFunc_http hs

theorem AddPages_http {server next : Server} {ps : List page.Page} {err : Option String}
    (h : server.AddPages ps = Except.ok (next, err)) : next.http = server.http := by
  induction ps generalizing server with
  | nil =>
    simp only [Server.AddPages, Except.ok.injEq, Prod.mk.injEq] at h
    rw [← h.1]
  | cons v rest ih =>
    simp only [Server.AddPages] at h
    rcases hv : server.AddPage v with e | ⟨s1, _ | err1⟩
    · rw [hv] at h; simp at h
    · rw [hv] at h
      rw [ih h, AddPage_http hv]
    · rw [hv] at h
      simp only [Except.ok.injEq, Prod.mk.injEq] at h
      rw [← h.1, AddPage_http hv]

/-- A call other than Listen on a server that holds no http.Server leaves it
without one. -/
theorem invoke_no_http (net : http.Network) {server next : Server} {m : Method}
    {err : Option GoError} (hm : m.isListen = false) (h0 : server.http = none)
    (h : server.invoke net m = Except.ok (next, err)) : next.http = none := by
  cases m with
  | AddHandler pattern handler =>
    simp only [Server.invoke] at h
    cases ha : server.AddHandler pattern handler with
    | error e => rw [ha] at h; simp at h
    | ok s =>
      rw [ha] at h
      simp only [Except.ok.injEq, Prod.mk.injEq] at h
      obtain ⟨_, mux, _, hs⟩ := AddHandler_ok ha
      rw [← h.1, hs]
      exact h0
  | AddHandlerFunc pattern handler =>
    simp only [Server.invoke] at h
    cases ha : server.AddHandlerFunc pattern handler with
    | error e => rw [ha] at h; simp at h
    | ok s =>
      rw [ha] at h
      simp only [Except.ok.injEq, Prod.mk.injEq] at h
      rw [← h.1, AddHandlerFunc_http ha]
      exact h0
  | AddPage p =>
    simp only [Server.invoke] at h
    rcases ha : server.AddPage p with e | ⟨s, err1⟩
    · rw [ha] at h; simp at h
    · rw [ha] at h
      simp only [Except.ok.injEq, Prod.mk.injEq] at h
      rw [← h.1, AddPage_http ha]
      exact h0
  | AddPages ps =>
    simp only [Server.invoke] at h
    rcases ha : server.AddPages ps with e | ⟨s, err1⟩
    · rw [ha] at h; simp at h
    · rw [ha] at h
      simp only [Except.ok.injEq, Prod.mk.injEq] at h
      rw [← h.1, AddPages_http ha]
      exact h0
  | Listen => simp [Method.isListen] at hm
  | Close =>
    simp only [Server.invoke, Close_of_no_http net server h0, Except.ok.injEq,
      Prod.mk.injEq] at h
    rw [← h.1]
    exact h0
  | Shutdown =>
    simp only [Server.invoke, Shutdown_of_no_http net server h0, Except.ok.injEq,
      Prod.mk.injEq] at h
    rw [← h.1]
    exact h0

theorem invokeAll_no_http (net : http.Network) {server final : Server} {history : List Method}
    {errs : List (Option GoError)} (hm : ∀ m ∈ history, m.isListen = false)
    (h0 : server.http = none)
    (h : server.invokeAll net history = Except.ok (final, errs)) : final.http = none := by
  induction history generalizing server errs with
  | nil =>
    simp only [Server.invokeAll, Except.ok.injEq, Prod.mk.injEq] at h
    rw [← h.1]
    exact h0
  | cons m rest ih =>
    simp only [Server.invokeAll] at h
    rcases hstep : server.invoke net m with e | ⟨next, err⟩
    · rw [hstep] at h; simp at h
    · rw [hstep] at h
      simp only at h
      rcases hrest : next.invokeAll net rest with e | ⟨fin, errs2⟩
      · rw [hrest] at h; simp at h
      · rw [hrest] at h
        simp only [Except.ok.injEq, Prod.mk.injEq] at h
        obtain ⟨h1, _⟩ := h
        subst h1
        exact ih (fun m2 hm2 => hm m2 (List.mem_cons_of_mem _ hm2))
          (invoke_no_http net (hm m (List.mem_cons_self _ _)) h0 hstep) hrest

/-- Any run of Close and Shutdown calls on a server without http.Server
returns no error and the server as it was. -/
theorem stops_of_no_http (net : http.Network) (server : Server) (h0 : server.http = none)
    (stops : List Method) (hs : ∀ m ∈ stops, m.isStop = true) :
    server.invokeAll net stops = Except.ok (server, stops.map (fun _ => none)) := by
  induction stops with
  | nil => rfl
  | cons m rest ih =>
    have hrest := ih (fun m2 hm2 => hs m2 (List.mem_cons_of_mem _ hm2))
    have hm := hs m (List.mem_cons_self _ _)
    cases m with
    | Close =>
      simp only [Server.invokeAll, Server.invoke, Close_of_no_http net server h0, hrest,
        List.map_cons]
    | Shutdown =>
      simp only [Server.invokeAll, Server.invoke, Shutdown_of_no_http net server h0, hrest,
        List.map_cons]
    | AddHandler _ _ => simp [Method.isStop] at hm
    | AddHandlerFunc _ _ => simp [Method.isStop] at hm
    | AddPage _ => simp [Method.isStop] at hm
    | AddPages _ => simp [Method.isStop] at hm
    | Listen => simp [Method.isStop] at hm

/-- C24: on a server that holds no http.Server, Close and Shutdown each
return no error and leave the server as it was, and so does any run of Close
and Shutdown calls, however long and in whatever order.  A server holds no
http.Server exactly as long as Listen has not been called on it: a new server
holds none, no call of another method gives it one, and Listen gives it
one. -/
theorem C24_close_and_shutdown_before_listen (net : http.Network) (server : Server)
    (h0 : server.http = none) :
    server.Close net = (server, none) ∧
    server.Shutdown net = (server, none) ∧
    (∀ stops : List Method, (∀ m ∈ stops, m.isStop = true) →
      server.invokeAll net stops = Except.ok (server, stops.map (fun _ => none))) ∧
    (∀ (env : Platform) (o : Options), (New env o).http = none) ∧
    (∀ (history : List Method) (final : Server) (errs : List (Option GoError)),
      (∀ m ∈ history, m.isListen = false) →
      server.invokeAll net history = Except.ok (final, errs) → final.http = none) ∧
    (server.Listen net).1.http ≠ none := by
  refine ⟨Close_of_no_http net server h0, Shutdown_of_no_http net server h0,
    stops_of_no_http net server h0, fun _ _ => rfl, ?_, ?_⟩
  · intro history final errs hm h
    exact invokeAll_no_http net hm h0 h
  · simp [Server.Listen]

/-- Witness of C24: a new server, as in TestClose and TestShutdown, on a
network whose Close and Shutdown would report an error for a listening
server. -/
theorem C24_close_and_shutdown_before_listen_witness :
    (New examplePlatform {}).http = none ∧
    (New examplePlatform {}).invokeAll exampleNetwork
        [Method.Close, Method.Shutdown, Method.Shutdown, Method.Close] =
      Except.ok (New examplePlatform {},
        [Method.Close, Method.Shutdown, Method.Shutdown, Method.Close].map (fun _ => none)) :=
  ⟨rfl,
   (C24_close_and_shutdown_before_listen exampleNetwork (New examplePlatform {}) rfl).2.2.1
     [Method.Close, Method.Shutdown, Method.Shutdown, Method.Close]
     (by
      intro m hm
      simp only [List.mem_cons, List.mem_singleton, List.not_mem_nil, or_false] at hm
      rcases hm with h | h | h | h <;> subst h <;> rfl)⟩

end server

namespace server

theorem AddPages_script {server next : Server} {ps : List page.Page} {err : Option String}
    (h : server.AddPages ps = Except.ok (next, err)) :
    next.pathRoot = server.pathRoot ∧
    ∃ script : List (String × http.Handler),
      server.mux.handleAll script = Except.ok next.mux ∧
      ∀ qh ∈ script, qh.2.reflectString = "<http.HandlerFunc Value>" := by
  induction ps generalizing server with
  | nil =>
    simp only [Server.AddPages, Except.ok.injEq, Prod.mk.injEq] at h
    obtain ⟨h1, _⟩ := h
    subst h1
    exact ⟨rfl, [], rfl, by simp⟩
  | cons v rest ih =>
    simp only [Server.AddPages] at h
    rcases hv : server.AddPage v with e | ⟨s1, _ | err1⟩
    · rw [hv] at h; simp at h
    · rw [hv] at h
      have hreg : server.register (Registration.page v) = Except.ok s1 := by
        simp [Server.register, hv]
      obtain ⟨hroot, s1script, hs1, _, hr1⟩ := register_script hreg
      obtain ⟨hroot2, s2script, hs2, hr2⟩ := ih h
      refine ⟨by rw [hroot2, hroot], s1script ++ s2script, ?_, ?_⟩
      · rw [handleAll_append, hs1]
        exact hs2
      · intro qh hq
        rcases List.mem_append.mp hq with hq | hq
        · exact hr1 qh hq
        · exact hr2 qh hq
    · rw [hv] at h
      simp only [Except.ok.injEq, Prod.mk.injEq] at h
      obtain ⟨h1, _⟩ := h
      subst h1
      have hreg : server.register (Registration.page v) = Except.ok s1 := by
        simp [Server.register, hv]
      obtain ⟨hroot, s1script, hs1, _, hr1⟩ := register_script hreg
      exact ⟨hroot, s1script, hs1, hr1⟩

/-- The multiplexer script of one call: Handle calls with handler functions
only, and none for Listen, Close and Shutdown. -/
theorem invoke_script (net : http.Network) {server next : Server} {m : Method}
    {err : Option GoError} (h : server.invoke net m = Except.ok (next, err)) :
    next.pathRoot = server.pathRoot ∧
    ∃ script : List (String × http.Handler),
      server.mux.handleAll script = Except.ok next.mux ∧
      ∀ qh ∈ script, qh.2.reflectString = "<http.HandlerFunc Value>" := by
  cases m with
  | AddHandler pattern handler =>
    simp only [Server.invoke] at h
    cases ha : server.AddHandler pattern handler with
    | error e => rw [ha] at h; simp at h
    | ok s =>
      rw [ha] at h
      simp only [Except.ok.injEq, Prod.mk.injEq] at h
      obtain ⟨h1, _⟩ := h
      subst h1
      have hreg : server.register (Registration.handler pattern handler) = Except.ok s := ha
      obtain ⟨hroot, script, hs, _, hr⟩ := register_script hreg
      exact ⟨hroot, script, hs, hr⟩
  | AddHandlerFunc pattern handler =>
    simp only [Server.invoke] at h
    cases ha : server.AddHandlerFunc pattern handler with
    | error e => rw [ha] at h; simp at h
    | ok s =>
      rw [ha] at h
      simp only [Except.ok.injEq, Prod.mk.injEq] at h
      obtain ⟨h1, _⟩ := h
      subst h1
      have hreg : server.register (Registration.handlerFunc pattern handler) = Except.ok s := ha
      obtain ⟨hroot, script, hs, _, hr⟩ := register_script hreg
      exact ⟨hroot, script, hs, hr⟩
  | AddPage p =>
    simp only [Server.invoke] at h
    rcases ha : server.AddPage p with e | ⟨s, err1⟩
    · rw [ha] at h; simp at h
    · rw [ha] at h
      simp only [Except.ok.injEq, Prod.mk.injEq] at h
      obtain ⟨h1, _⟩ := h
      subst h1
      have hreg : server.register (Registration.page p) = Except.ok s := by
        simp [Server.register, ha]
      obtain ⟨hroot, script, hs, _, hr⟩ := register_script hreg
      exact ⟨hroot, script, hs, hr⟩
  | AddPages ps =>
    simp only [Server.invoke] at h
    rcases ha : server.AddPages ps with e | ⟨s, err1⟩
    · rw [ha] at h; simp at h
    · rw [ha] at h
      simp only [Except.ok.injEq, Prod.mk.injEq] at h
      obtain ⟨h1, _⟩ := h
      subst h1
      exact AddPages_script ha
  | Listen =>
    simp only [Server.invoke, Server.Listen, Except.ok.injEq, Prod.mk.injEq] at h
    obtain ⟨h1, _⟩ := h
    subst h1
    exact ⟨rfl, [], rfl, by simp⟩
  | Close =>
    cases hh : server.http with
    | none =>
      simp only [Server.invoke, Server.Close, hh, Except.ok.injEq, Prod.mk.injEq] at h
      obtain ⟨h1, _⟩ := h
      subst h1
      exact ⟨rfl, [], rfl, by simp⟩
    | some srv =>
      simp only [Server.invoke, Server.Close, hh, Except.ok.injEq, Prod.mk.injEq] at h
      obtain ⟨h1, _⟩ := h
      subst h1
      exact ⟨rfl, [], rfl, by simp⟩
  | Shutdown =>
    cases hh : server.http with
    | none =>
      simp only [Server.invoke, Server.Shutdown, hh, Except.ok.injEq, Prod.mk.injEq] at h
      obtain ⟨h1, _⟩ := h
      subst h1
      exact ⟨rfl, [], rfl, by simp⟩
    | some srv =>
      simp only [Server.invoke, Server.Shutdown, hh, Except.ok.injEq, Prod.mk.injEq] at h
      obtain ⟨h1, _⟩ := h
      subst h1
      exact ⟨rfl, [], rfl, by simp⟩

theorem invokeAll_script (net : http.Network) {server final : Server} {history : List Method}
    {errs : List (Option GoError)}
    (h : server.invokeAll net history = Except.ok (final, errs)) :
    ∃ script : List (String × http.Handler),
      server.mux.handleAll script = Except.ok final.mux ∧
      ∀ qh ∈ script, qh.2.reflectString = "<http.HandlerFunc Value>" := by
  induction history generalizing server errs with
  | nil =>
    simp only [Server.invokeAll, Except.ok.injEq, Prod.mk.injEq] at h
    obtain ⟨h1, _⟩ := h
    subst h1
    exact ⟨[], rfl, by simp⟩
  | cons m rest ih =>
    simp only [Server.invokeAll] at h
    rcases hstep : server.invoke net m with e | ⟨next, err⟩
    · rw [hstep] at h; simp at h
    · rw [hstep] at h
      simp only at h
      rcases hrest : next.invokeAll net rest with e | ⟨fin, errs2⟩
      · rw [hrest] at h; simp at h
      · rw [hrest] at h
        simp only [Except.ok.injEq, Prod.mk.injEq] at h
        obtain ⟨h1, _⟩ := h
        subst h1
        obtain ⟨_, s1, hs1, hr1⟩ := invoke_script net hstep
        obtain ⟨s2, hs2, hr2⟩ := ih hrest
        refine ⟨s1 ++ s2, ?_, ?_⟩
        · rw [handleAll_append, hs1]
          exact hs2
        · intro qh hq
          rcases List.mem_append.mp hq with hq | hq
          · exact hr1 qh hq
          · exact hr2 qh hq

/-- C28: on a server made by New and changed only through its methods
(AddHandler, AddHandlerFunc, AddPage, AddPages; Listen, Close and Shutdown do
not touch the routes), every route of Routes() has Redirect() equal to the
negation of Explicit().  An explicit route is the route of a registered
pattern, with its own path as pattern, and is never a redirect; a route that
is not explicit is the synthetic one of a subtree pattern, its pattern being
its path followed by a slash, and is a redirect. -/
theorem C28_redirect_is_not_explicit (net : http.Network) (env : Platform) (o : Options)
    (history : List Method) (server : Server) (errs : List (Option GoError))
    (hrun : (New env o).invokeAll net history = Except.ok (server, errs)) :
    ∀ r ∈ server.Routes,
      r.Redirect = !r.Explicit ∧
      (r.Explicit = true → r.Pattern = r.Path ∧ r.Redirect = false) ∧
      (r.Explicit = false → r.Pattern = r.Path ++ "/" ∧ r.Redirect = true) := by
  obtain ⟨script, hscript, hrefl⟩ := invokeAll_script net hrun
  have hnew : (New env o).mux = http.NewServeMux := rfl
  rw [hnew] at hscript
  obtain ⟨inv, _⟩ := http.handleAll_new hscript
  intro r hr
  unfold Server.Routes at hr
  rcases routes_cases inv hrefl hr with ⟨_, h2⟩ | ⟨_, _, h3⟩
  · rw [h2]
    simp [route.Route.Redirect, route.Route.Explicit, route.Route.Pattern, route.Route.Path]
  · rw [h3]
    simp [route.Route.Redirect, route.Route.Explicit, route.Route.Pattern, route.Route.Path]

/-- Witness of C28: on a server with the prefix `foo`, a handler under the
subtree pattern `/`, then AddPages with a page that is refused, then Close;
the routes are the synthetic `/foo` and the explicit `/foo/`. -/
theorem C28_redirect_is_not_explicit_witness :
    (({ path := "/foo", pattern := "/foo/", explicit := false, redirect := true } :
        route.Route).Redirect =
      !({ path := "/foo", pattern := "/foo/", explicit := false, redirect := true } :
        route.Route).Explicit) ∧
    (({ path := "/foo/", pattern := "/foo/", explicit := true, redirect := false } :
        route.Route).Redirect =
      !({ path := "/foo/", pattern := "/foo/", explicit := true, redirect := false } :
        route.Route).Explicit) :=
  have h := C28_redirect_is_not_explicit exampleNetwork examplePlatform { PathPrefix := "foo" }
    [Method.AddHandler "/" none, Method.AddPages [{ urlPath := "" }], Method.Close]
    { isInit := true, id := "localhost:3000", address := "localhost:3000",
      pathPrefix := "foo", pathRoot := "/foo/", pages := [],
      mux := { m := [("/foo/", { explicit := true,
                                 h := http.StripPrefix "/foo/" none, pattern := "/foo/" }),
                     ("/foo", { explicit := false,
                                h := some (http.RedirectHandler "/foo/" 301),
                                pattern := "/foo/" })],
               hosts := false },
      http := none }
    [none, some (GoError.other "invalid page url"), none] rfl
  ⟨(h { path := "/foo", pattern := "/foo/", explicit := false, redirect := true }
      (by decide)).1,
   (h { path := "/foo/", pattern := "/foo/", explicit := true, redirect := false }
      (by decide)).1⟩

end server

namespace http

/-- Handle does not panic on a non-empty pattern that is not registered. -/
theorem Handle_fresh {regs : List (String × Handler)} {mux : ServeMux}
    (inv : Registered regs mux) (q : String) (h : Handler) (hq : q ≠ "")
    (hnew : regs.lookup q = none) : ∃ mux2, mux.Handle q (some h) = Except.ok mux2 := by
  have hex := expectedEntry_explicit_false hnew (inv.2 q)
  unfold ServeMux.Handle
  simp only [hq, if_false, Option.isNone_some, Bool.false_eq_true, hex]
  split
  · exact ⟨_, rfl⟩
  · exact ⟨_, rfl⟩

end http

namespace server

/-- A registration whose effective pattern is not registered yet does not
panic. -/
theorem register_fresh {regs : List (String × http.Handler)} {server : Server}
    (inv : http.Registered regs server.mux) (reg : Registration)
    (hnew : ∀ q ∈ Registration.patterns server reg, q ∉ regs.map Prod.fst) :
    ∃ next, server.register reg = Except.ok next := by
  cases reg with
  | handler pattern oh =>
    have hne := effectivePattern_ne_empty server pattern
    have hq := hnew (server.effectivePattern pattern) (by simp [Registration.patterns])
    have hl := (http.lookup_none_iff_not_mem regs _).mpr hq
    unfold Server.effectivePattern at hne hl
    simp only [Server.register, Server.AddHandler, http.StripPrefix, hne, if_false]
    obtain ⟨mux2, hm⟩ := http.Handle_fresh inv _ (http.HandlerFunc _) hne hl
    exact ⟨_, by rw [hm]⟩
  | handlerFunc pattern f =>
    have hne := effectivePattern_ne_empty server pattern
    have hq := hnew (server.effectivePattern pattern) (by simp [Registration.patterns])
    have hl := (http.lookup_none_iff_not_mem regs _).mpr hq
    unfold Server.effectivePattern at hne hl
    simp only [Server.register, Server.AddHandlerFunc, http.ServeMux.HandleFunc]
    obtain ⟨mux2, hm⟩ := http.Handle_fresh inv _ (http.HandlerFunc f) hne hl
    exact ⟨_, by rw [hm]⟩
  | page p =>
    by_cases hp : p.URLPath = ""
    · exact ⟨server, by simp [Server.register, Server.AddPage, hp]⟩
    · have hne := effectivePattern_ne_empty server p.URLPath
      have hq := hnew (server.effectivePattern p.URLPath) (by simp [Registration.patterns, hp])
      have hl := (http.lookup_none_iff_not_mem regs _).mpr hq
      unfold Server.effectivePattern at hne hl
      simp only [Server.register, Server.AddPage, hp, if_false, Server.AddHandlerFunc,
        http.ServeMux.HandleFunc]
      obtain ⟨mux2, hm⟩ := http.Handle_fresh inv _
        (http.HandlerFunc (fun w r => Except.ok (server.pageHandler p w r))) hne hl
      exact ⟨_, by rw [hm]⟩

theorem registeredPatterns_congr {s1 s2 : Server} (h : s1.pathRoot = s2.pathRoot)
    (regs : List Registration) : registeredPatterns s1 regs = registeredPatterns s2 regs := by
  unfold registeredPatterns
  exact congrArg _ (funext (fun r => patterns_congr h r))

/-- A run of registrations with distinct effective patterns, none of them
registered before, does not panic. -/
theorem registerAll_fresh {done : List (String × http.Handler)} {server : Server}
    (inv : http.Registered done server.mux) (regs : List Registration)
    (hnd : (registeredPatterns server regs).Nodup)
    (hnew : ∀ q ∈ registeredPatterns server regs, q ∉ done.map Prod.fst) :
    ∃ final, server.registerAll regs = Except.ok final := by
  induction regs generalizing done server with
  | nil => exact ⟨server, rfl⟩
  | cons reg rest ih =>
    simp only [registeredPatterns, List.flatMap_cons] at hnd hnew
    obtain ⟨next, hstep⟩ := register_fresh inv reg
      (fun q hq => hnew q (List.mem_append_left _ hq))
    obtain ⟨hroot, s1, hs1, hk1, _⟩ := register_script hstep
    have inv2 := http.Registered_handleAll inv hs1
    have hrest : registeredPatterns next rest = rest.flatMap (Registration.patterns server) :=
      registeredPatterns_congr hroot rest
    have hnd2 : (registeredPatterns next rest).Nodup := by
      rw [hrest]
      exact (List.nodup_append.mp hnd).2.1
    have hnew2 : ∀ q ∈ registeredPatterns next rest, q ∉ (done ++ s1).map Prod.fst := by
      intro q hq
      rw [hrest] at hq
      rw [List.map_append, List.mem_append, hk1]
      rintro (hd | hs)
      · exact hnew q (List.mem_append_right _ hq) hd
      · exact (List.nodup_append.mp hnd).2.2 hs hq
    obtain ⟨final, hfinal⟩ := ih inv2 hnd2 hnew2
    exact ⟨final, by simp only [Server.registerAll, hstep, hfinal]⟩

/-- The routes listed after registering handler functions depend only on the
set of registered patterns. -/
theorem ListByMux_of_same_patterns {script1 script2 : List (String × http.Handler)}
    {mux1 mux2 : http.ServeMux}
    (inv1 : http.Registered script1 mux1) (inv2 : http.Registered script2 mux2)
    (hr1 : ∀ qh ∈ script1, qh.2.reflectString = "<http.HandlerFunc Value>")
    (hr2 : ∀ qh ∈ script2, qh.2.reflectString = "<http.HandlerFunc Value>")
    (hsame : ∀ q, q ∈ script1.map Prod.fst ↔ q ∈ script2.map Prod.fst) :
    route.ListByMux mux1 = route.ListByMux mux2 := by
  have oneway : ∀ {sa sb : List (String × http.Handler)} {ma mb : http.ServeMux},
      http.Registered sa ma → http.Registered sb mb →
      (∀ qh ∈ sa, qh.2.reflectString = "<http.HandlerFunc Value>") →
      (∀ qh ∈ sb, qh.2.reflectString = "<http.HandlerFunc Value>") →
      (∀ q, q ∈ sa.map Prod.fst ↔ q ∈ sb.map Prod.fst) →
      ∀ r, r ∈ route.ListByMux ma → r ∈ route.ListByMux mb := by
    intro sa sb ma mb ia ib ha hb hk r hr
    rcases routes_cases ia ha hr with ⟨h1, h2⟩ | ⟨h1, h2, h3⟩
    · rw [h2]
      exact explicit_route_mem ib hb ((hk _).mp h1)
    · rw [h3, route.mem_ListByMux_of_Registered ib]
      refine Or.inr ⟨r.path, ?_, ?_, rfl⟩
      · exact (http.lookup_none_iff_not_mem sb r.path).mpr (fun hc => h1 ((hk _).mpr hc))
      · obtain ⟨e, he⟩ := http.lookup_of_mem_keys sb _ ((hk _).mp h2)
        rw [he]
        rfl
  have hmem : ∀ r, r ∈ route.ListByMux mux1 ↔ r ∈ route.ListByMux mux2 :=
    fun r => ⟨oneway inv1 inv2 hr1 hr2 hsame r,
      oneway inv2 inv1 hr2 hr1 (fun q => (hsame q).symm) r⟩
  have hperm : (route.ListByMux mux1).Perm (route.ListByMux mux2) :=
    (List.perm_ext_iff_of_nodup (route.ListByMux_nodup inv1.1)
      (route.ListByMux_nodup inv2.1)).mpr hmem
  exact @List.eq_of_perm_of_sorted _ _ route.Less_antisymm _ _ hperm
    (route.ListByMux_strict inv1.1) (route.ListByMux_strict inv2.1)

/-- Registrations with distinct effective patterns on a new server do not
panic, and the routes after them are those of the multiplexer script. -/
theorem routesAfter_fresh (env : Platform) (o : Options) (regs : List Registration)
    (hnd : (registeredPatterns (New env o) regs).Nodup) :
    ∃ routes, routesAfter env o regs = Except.ok routes := by
  have inv0 : http.Registered [] (New env o).mux := http.Registered_new
  obtain ⟨final, hfinal⟩ := registerAll_fresh inv0 regs hnd (by simp)
  exact ⟨final.Routes, by simp only [routesAfter, hfinal]⟩

theorem routesAfter_of_same_patterns (env : Platform) (o : Options)
    (regs1 regs2 : List Registration)
    (hnd : (registeredPatterns (New env o) regs1).Nodup)
    (hperm : (registeredPatterns (New env o) regs1).Perm (registeredPatterns (New env o) regs2)) :
    ∃ routes, routesAfter env o regs1 = Except.ok routes ∧
      routesAfter env o regs2 = Except.ok routes := by
  obtain ⟨routes1, h1⟩ := routesAfter_fresh env o regs1 hnd
  obtain ⟨routes2, h2⟩ := routesAfter_fresh env o regs2 (hperm.nodup_iff.mp hnd)
  obtain ⟨script1, mux1, hm1, hroutes1, hk1, hrefl1⟩ := routesAfter_ok h1
  obtain ⟨script2, mux2, hm2, hroutes2, hk2, hrefl2⟩ := routesAfter_ok h2
  obtain ⟨inv1, _⟩ := http.handleAll_new hm1
  obtain ⟨inv2, _⟩ := http.handleAll_new hm2
  have heq : routes1 = routes2 := by
    rw [hroutes1, hroutes2]
    refine ListByMux_of_same_patterns inv1 inv2 hrefl1 hrefl2 ?_
    intro q
    rw [hk1, hk2]
    exact hperm.mem_iff
  exact ⟨routes1, h1, by rw [h2, heq]⟩

/-- C27: on a new server, two runs of registrations that register the same
set of distinct effective patterns, in whatever order and with whatever
handlers, both succeed and give the same Routes() list, entry by entry.  So
do in particular a run of registrations with distinct effective patterns and
any reordering of it, and the registration of `p` before or after `p/`. -/
theorem C27_routes_independent_of_order (env : Platform) (o : Options)
    (regs1 regs2 : List Registration)
    (hnd : (registeredPatterns (New env o) regs1).Nodup)
    (hperm : (registeredPatterns (New env o) regs1).Perm (registeredPatterns (New env o) regs2)) :
    (∃ routes, routesAfter env o regs1 = Except.ok routes ∧
      routesAfter env o regs2 = Except.ok routes) ∧
    (∀ regs3 : List Registration, regs1.Perm regs3 →
      ∃ routes, routesAfter env o regs1 = Except.ok routes ∧
        routesAfter env o regs3 = Except.ok routes) ∧
    (∀ (p : String)
      (f g : http.ResponseWriter → http.Request → Except String http.ResponseWriter),
      (New env o).effectivePattern p ≠ (New env o).effectivePattern (p ++ "/") →
      ∃ routes,
        routesAfter env o [Registration.handlerFunc p f, Registration.handlerFunc (p ++ "/") g]
          = Except.ok routes ∧
        routesAfter env o [Registration.handlerFunc (p ++ "/") g, Registration.handlerFunc p f]
          = Except.ok routes) := by
  refine ⟨routesAfter_of_same_patterns env o regs1 regs2 hnd hperm, ?_, ?_⟩
  · intro regs3 h3
    exact routesAfter_of_same_patterns env o regs1 regs3 hnd (h3.flatMap_right _)
  · intro p f g hne
    refine routesAfter_of_same_patterns env o _ _ ?_ ?_
    · simp [registeredPatterns, Registration.patterns, hne]
    · simp only [registeredPatterns, List.flatMap_cons, Registration.patterns, List.flatMap_nil,
        List.append_nil]
      exact List.Perm.swap _ _ _

/-- Witness of C27: under the prefix `foo`, the patterns `/test` and `test/`
registered in both orders. -/
theorem C27_routes_independent_of_order_witness :
    ∃ routes,
      routesAfter examplePlatform { PathPrefix := "foo" }
        [Registration.handler "/test" none, Registration.handler "test/" none]
        = Except.ok routes ∧
      routesAfter examplePlatform { PathPrefix := "foo" }
        [Registration.handler "test/" none, Registration.handler "/test" none]
        = Except.ok routes :=
  (C27_routes_independent_of_order examplePlatform { PathPrefix := "foo" }
    [Registration.handler "/test" none, Registration.handler "test/" none]
    [Registration.handler "test/" none, Registration.handler "/test" none]
    (by decide) (by decide)).1

end server

namespace server

theorem listenFailed_iff (err : Option GoError) :
    listenFailed err = true ↔ (err ≠ none ∧ err ≠ some GoError.ErrServerClosed) := by
  rcases err with _ | _ | text <;> simp [listenFailed]

theorem Done_ok (c : Int) (h : 0 < c) :
    ({ counter := c } : sync.WaitGroup).Done = Except.ok { counter := c - 1 } := by
  have : ¬ (c + -1 < 0) := by omega
  simp only [sync.WaitGroup.Done, sync.WaitGroup.Add, this, if_false]
  rfl

theorem Done_panic (c : Int) (h : c ≤ 0) :
    ({ counter := c } : sync.WaitGroup).Done =
      Except.error "sync: negative WaitGroup counter" := by
  have : c + -1 < 0 := by omega
  simp only [sync.WaitGroup.Done, sync.WaitGroup.Add, this, if_true]

/-- The loop of Done calls ends with the counter lowered by the number of its
iterations when the counter is that high. -/
theorem doneLoop_ok (k : Nat) : ∀ c : Int, (k : Int) ≤ c →
    doneLoop k { counter := c } = Except.ok { counter := c - k } := by
  induction k with
  | zero => intro c _; simp [doneLoop]
  | succ k ih =>
    intro c hc
    have hpos : 0 < c := by omega
    simp only [doneLoop, Done_ok c hpos]
    rw [ih (c - 1) (by omega)]
    congr 2
    push_cast
    omega

/-- The loop of Done calls panics when it has more iterations than the
counter holds. -/
theorem doneLoop_panic (k : Nat) : ∀ c : Int, 0 ≤ c → c < (k : Int) →
    doneLoop k { counter := c } = Except.error "sync: negative WaitGroup counter" := by
  induction k with
  | zero => intro c h0 hc; omega
  | succ k ih =>
    intro c h0 hc
    by_cases hz : c = 0
    · subst hz
      simp only [doneLoop, Done_panic 0 (le_refl 0)]
    · have hpos : 0 < c := by omega
      simp only [doneLoop, Done_ok c hpos]
      exact ih (c - 1) (by omega) (by omega)

/-- Goroutines whose Listen returns without failure, while no failure has
been seen, lower the counter by one each. -/
theorem runGoroutines_ok (sl : Nat) (pre : List (Option GoError))
    (hok : ∀ err ∈ pre, listenFailed err = false) :
    ∀ c : Int, (pre.length : Int) ≤ c →
      runGoroutines sl { result := none, wg := { counter := c } } pre =
        Except.ok { result := none, wg := { counter := c - pre.length } } := by
  induction pre with
  | nil => intro c _; simp [runGoroutines]
  | cons err rest ih =>
    intro c hc
    simp only [List.length_cons, Nat.cast_add, Nat.cast_one] at hc
    have hnf : ¬ (err ≠ none ∧ err ≠ some GoError.ErrServerClosed) := by
      rw [← listenFailed_iff, hok err (List.mem_cons_self _ _)]
      simp
    have hpos : 0 < c := by omega
    simp only [runGoroutines, listenAllGoroutine, hnf, if_false, if_true, Done_ok c hpos]
    rw [ih (fun e he => hok e (List.mem_cons_of_mem _ he)) (c - 1) (by omega)]
    congr 3
    simp only [List.length_cons, Nat.cast_add, Nat.cast_one]
    omega

/-- Once a failure has been recorded, the goroutines that follow change
nothing. -/
theorem runGoroutines_after_failure (sl : Nat) (e : GoError) (wg : sync.WaitGroup)
    (rest : List (Option GoError)) :
    runGoroutines sl { result := some e, wg := wg } rest =
      Except.ok { result := some e, wg := wg } := by
  induction rest with
  | nil => rfl
  | cons err more ih =>
    have step : listenAllGoroutine sl { result := some e, wg := wg } err =
        Except.ok { result := some e, wg := wg } := by
      unfold listenAllGoroutine
      split <;> simp
    simp only [runGoroutines, step]
    exact ih

theorem runGoroutines_append (sl : Nat) (shared : ListenAllShared)
    (a b : List (Option GoError)) :
    runGoroutines sl shared (a ++ b) =
      (match runGoroutines sl shared a with
       | Except.ok next => runGoroutines sl next b
       | Except.error e => Except.error e) := by
  induction a generalizing shared with
  | nil => simp [runGoroutines]
  | cons err rest ih =>
    simp only [List.cons_append, runGoroutines]
    cases listenAllGoroutine sl shared err with
    | error e => rfl
    | ok next => exact ih next

/-- The goroutine of the first Listen that fails, when the counter stands at
`c`: it records the error and runs the loop of `sl` Done calls. -/
theorem goroutine_first_failure (sl : Nat) (c : Int) (e : GoError)
    (hf : listenFailed (some e) = true) :
    listenAllGoroutine sl { result := none, wg := { counter := c } } (some e) =
      (match doneLoop sl { counter := c } with
       | Except.ok wg => Except.ok { result := some e, wg := wg }
       | Except.error msg => Except.error msg) := by
  have h := (listenFailed_iff (some e)).mp hf
  simp only [listenAllGoroutine, h, ne_eq, not_false_eq_true, and_self, if_true]

/-- When some Listen calls have returned without failure before the first
one that fails, the goroutine of the failing one takes the counter below zero
and panics. -/
theorem runGoroutines_success_then_failure (n : Nat) (pre : List (Option GoError)) (e : GoError)
    (rest : List (Option GoError))
    (hk : pre ≠ []) (hle : pre.length ≤ n)
    (hok : ∀ err ∈ pre, listenFailed err = false) (hf : listenFailed (some e) = true) :
    listenAllGoroutine n { result := none, wg := { counter := (n : Int) - pre.length } }
        (some e) = Except.error "sync: negative WaitGroup counter" ∧
    runGoroutines n { result := none, wg := { counter := n } } (pre ++ some e :: rest) =
      Except.error "sync: negative WaitGroup counter" := by
  have hpos : 0 < pre.length := List.length_pos.mpr hk
  have h1 := runGoroutines_ok n pre hok (n : Int) (by exact_mod_cast hle)
  have h5 : listenAllGoroutine n
      { result := none, wg := { counter := (n : Int) - pre.length } } (some e) =
      Except.error "sync: negative WaitGroup counter" := by
    rw [goroutine_first_failure n _ e hf, doneLoop_panic n _ (by omega) (by omega)]
  refine ⟨h5, ?_⟩
  rw [runGoroutines_append, h1]
  simp only [runGoroutines, h5]

/-- C26 at its failing inputs: with `n` servers, when the Listen calls of
`k >= 1` servers return without failure (no error, or the server-closed
signal) before the first Listen that fails, the goroutines of those `k`
servers have lowered the counter from `n` to `n - k` by one Done each; the
goroutine of the failing server then runs its loop of `n` Done calls: the
first `n - k` of them take the counter to zero, and the next one takes it
below zero, which panics.  The handlers have then called Done more than `n`
times. -/
theorem C26_barrier_goes_below_zero (n : Nat) (pre : List (Option GoError)) (e : GoError)
    (rest : List (Option GoError))
    (hk : pre ≠ []) (hle : pre.length ≤ n)
    (hok : ∀ err ∈ pre, listenFailed err = false) (hf : listenFailed (some e) = true) :
    runGoroutines n { result := none, wg := { counter := n } } pre =
      Except.ok { result := none, wg := { counter := (n : Int) - pre.length } } ∧
    doneLoop (n - pre.length) { counter := (n : Int) - pre.length } =
      Except.ok { counter := 0 } ∧
    doneLoop (n - pre.length + 1) { counter := (n : Int) - pre.length } =
      Except.error "sync: negative WaitGroup counter" ∧
    n - pre.length + 1 ≤ n ∧
    listenAllGoroutine n { result := none, wg := { counter := (n : Int) - pre.length } }
        (some e) = Except.error "sync: negative WaitGroup counter" ∧
    runGoroutines n { result := none, wg := { counter := n } } (pre ++ some e :: rest) =
      Except.error "sync: negative WaitGroup counter" := by
  have hpos : 0 < pre.length := List.length_pos.mpr hk
  have h1 := runGoroutines_ok n pre hok (n : Int) (by exact_mod_cast hle)
  have hcast : ((n - pre.length : Nat) : Int) = (n : Int) - pre.length := by omega
  have h2 : doneLoop (n - pre.length) { counter := (n : Int) - pre.length } =
      Except.ok { counter := 0 } := by
    rw [doneLoop_ok (n - pre.length) _ (by omega)]
    congr 2
    omega
  have h3 : doneLoop (n - pre.length + 1) { counter := (n : Int) - pre.length } =
      Except.error "sync: negative WaitGroup counter" :=
    doneLoop_panic _ _ (by omega) (by push_cast; omega)
  obtain ⟨h5, h6⟩ := runGoroutines_success_then_failure n pre e rest hk hle hok hf
  exact ⟨h1, h2, h3, by omega, h5, h6⟩

/-- Witness of C26 at a failing input: two servers; the Listen of one returns
the server-closed signal, then the Listen of the other fails to bind. -/
theorem C26_barrier_goes_below_zero_witness :
    runGoroutines 2 { result := none, wg := { counter := 2 } }
        ([some GoError.ErrServerClosed] ++
          some (GoError.other "listen tcp 127.0.0.1:3060: bind: address already in use") :: []) =
      Except.error "sync: negative WaitGroup counter" :=
  (C26_barrier_goes_below_zero 2 [some GoError.ErrServerClosed]
    (GoError.other "listen tcp 127.0.0.1:3060: bind: address already in use") []
    (by decide) (by decide) (by decide) (by decide)).2.2.2.2.2

end server
namespace server

theorem ListenAll_unfold (s : List Server) (returns : List (Option GoError)) :
    ListenAll s returns =
      (match runGoroutines s.length { result := none, wg := { counter := s.length } } returns with
       | Except.error e => Except.error e
       | Except.ok shared =>
         if shared.wg.counter = 0 then
           Except.ok (ListenAllOutcome.returned shared.result (s.map Server.ID))
         else Except.ok ListenAllOutcome.waiting) := by
  have hadd : ({ counter := 0 } : sync.WaitGroup).Add s.length =
      Except.ok { counter := s.length } := by
    have : ¬ ((s.length : Int) < 0) := by omega
    simp only [sync.WaitGroup.Add, zero_add, this, if_false]
  simp only [ListenAll, hadd]

/-- C25 on the code: how ListenAll ends, by the order in which the Listen
calls return.  When all of them return without failure (no error, or the
server-closed signal), it calls Shutdown on every server and returns nil.
When the first Listen to return fails, it calls Shutdown on every server and
returns that error, whether or not the other Listen calls have returned.  As
long as fewer Listen calls than servers have returned, none with a failure, it
waits.  But when a Listen has returned without failure before the first one
fails, the goroutine of the failing one calls Done once more than the counter
allows and the program panics with `sync: negative WaitGroup counter`,
instead of ListenAll returning the error; so it does for two servers when the
Listen of one returns the server-closed signal and the Listen of the other
then fails to bind. -/
theorem C25_ListenAll_outcomes (s : List Server) :
    (∀ returns : List (Option GoError), returns.length = s.length →
      (∀ err ∈ returns, listenFailed err = false) →
      ListenAll s returns = Except.ok (ListenAllOutcome.returned none (s.map Server.ID))) ∧
    (∀ (e : GoError) (rest : List (Option GoError)), listenFailed (some e) = true →
      ListenAll s (some e :: rest) =
        Except.ok (ListenAllOutcome.returned (some e) (s.map Server.ID))) ∧
    (∀ returns : List (Option GoError), returns.length < s.length →
      (∀ err ∈ returns, listenFailed err = false) →
      ListenAll s returns = Except.ok ListenAllOutcome.waiting) ∧
    (∀ (pre : List (Option GoError)) (e : GoError) (rest : List (Option GoError)),
      pre ≠ [] → pre.length ≤ s.length → (∀ err ∈ pre, listenFailed err = false) →
      listenFailed (some e) = true →
      ListenAll s (pre ++ some e :: rest) =
        Except.error "sync: negative WaitGroup counter") ∧
    ListenAll
        [New examplePlatform { ID := "web", Address := "localhost:3060" },
         New examplePlatform { ID := "api", Address := "localhost:3060" }]
        [some GoError.ErrServerClosed,
         some (GoError.other "listen tcp 127.0.0.1:3060: bind: address already in use")] =
      Except.error "sync: negative WaitGroup counter" := by
  have panics : ∀ (servers : List Server) (pre : List (Option GoError)) (e : GoError)
      (rest : List (Option GoError)),
      pre ≠ [] → pre.length ≤ servers.length → (∀ err ∈ pre, listenFailed err = false) →
      listenFailed (some e) = true →
      ListenAll servers (pre ++ some e :: rest) =
        Except.error "sync: negative WaitGroup counter" := by
    intro servers pre e rest hk hle hok hf
    rw [ListenAll_unfold,
      (runGoroutines_success_then_failure servers.length pre e rest hk hle hok hf).2]
  refine ⟨?_, ?_, ?_, panics s, ?_⟩
  · intro returns hlen hok
    rw [ListenAll_unfold, runGoroutines_ok s.length returns hok s.length (by omega)]
    have : (s.length : Int) - returns.length = 0 := by omega
    simp only [this, if_true]
  · intro e rest hf
    rw [ListenAll_unfold]
    have hfirst : listenAllGoroutine s.length
        { result := none, wg := { counter := s.length } } (some e) =
        Except.ok { result := some e, wg := { counter := 0 } } := by
      rw [goroutine_first_failure s.length _ e hf, doneLoop_ok s.length _ (le_refl _)]
      simp
    simp only [runGoroutines, hfirst, runGoroutines_after_failure, if_true]
  · intro returns hlen hok
    rw [ListenAll_unfold, runGoroutines_ok s.length returns hok s.length (by omega)]
    have : ¬ ((s.length : Int) - returns.length = 0) := by omega
    simp only [this, if_false]
  · exact panics _ [some GoError.ErrServerClosed]
      (GoError.other "listen tcp 127.0.0.1:3060: bind: address already in use") []
      (by decide) (by decide) (by decide) (by decide)

end server

end Goweb
